import Mathlib

/-!
# Epinio: installation orchestration, workloads unit and pod conditions

A shallow embedding of

* `internal/cli/clients/install_client.go` (`Install`, `Uninstall`,
  `InstallDeployment`, `UninstallDeployment`, `fillInMissingSystemDomain`,
  `fetchIP`),
* `deployments/workloads.go` (`Workloads.Deploy`, `Workloads.Delete` and the
  helpers they call),
* `cli/kubernetes/cluster.go` (`IsPodRunning`, `Connect`,
  `NewClusterFromClient`, `detectPlatform`, `PodExists`, `ListPods` and the
  three waits for pods),
* `internal/api/v1/stage.go` (`Stage`, `uid`, `newPipelineRun`,
  `createCertificates` and the two certificate flows, with the documents they
  render and decode).

The cluster is an external collaborator.  Every call the code makes to it is
recorded in a trace, and the answer to a call is given by an environment that
may depend on the calls made so far.  "No mutation" is therefore a statement
about the trace: it holds no mutating call.
-/

set_option linter.dupNamespace false
set_option maxRecDepth 100000
set_option maxHeartbeats 4000000

namespace Epinio

/-! ## Errors -/

/-- Go `error` values as the code builds them: `errors.New`, `errors.Wrap`
(and `Wrapf`), and the API server's status errors with their reason. -/
inductive Error where
  | New (msg : String)
  | Wrap (cause : Error) (msg : String)
  | Status (reason : String) (msg : String)
deriving DecidableEq, Repr

namespace Error

/-- The text of `err.Error()`. -/
def Error : Epinio.Error → String
  | New msg => msg
  | Wrap cause msg => msg ++ ": " ++ cause.Error
  | Status _ msg => msg

end Error

/-- Go `strings.Contains`. -/
def stringsContains (s substr : String) : Bool :=
  decide (substr.toList <:+: s.toList)

/-! ## internal/cli/clients/install_client.go -/

/-- The deployment units named in `Install` and `Uninstall`
(`&deployments.Traefik{...}` and so on). -/
inductive Deployment where
  | Traefik | Epinio | Quarks | Workloads | Gitea | Registry | Tekton
  | ServiceCatalog | CertManager | Minibroker | GoogleServices
deriving DecidableEq, Repr

/-- One entry of `service.Status.LoadBalancer.Ingress`. -/
structure LoadBalancerIngress where
  IP : String
  Hostname : String
deriving DecidableEq, Repr

/-- The part of a `corev1.Service` that `fetchIP` reads. -/
structure Service where
  Ingress : List LoadBalancerIngress
deriving DecidableEq, Repr

/-- What `Services("").List(...)` hands back: the list and the error. -/
structure ServiceListReply where
  Items : List Service
  err : Option Error
deriving DecidableEq, Repr

/-- What `Install` and `Uninstall` do that can be seen from outside. -/
inductive Event where
  | deploy (d : Deployment)
  | delete (d : Deployment)
  | fetchIP
  | ui (msg : String)
deriving DecidableEq, Repr

/-- Everything outside `install_client.go` that `Install` and `Uninstall`
depend on.  `Populate`, `GetOpt` and the `interactive` flag belong to packages
that are not part of the sources at hand, so their outcomes are parameters;
`Deploy`/`Delete` are the methods of the `kubernetes.Deployment` interface.
`services n` answers the `n`-th listing of the traefik service, `attempts` is
the number of tries that fit into `duration.ToSystemDomain()`, and `timeout`
is that duration printed. -/
structure InstallWorld where
  populateCLI : Option Error
  interactive : Except Error Bool
  populateInteractive : Option Error
  populateDefault : Option Error
  systemDomain : Except Error String
  services : Nat → ServiceListReply
  attempts : Nat
  timeout : String
  Deploy : Deployment → Option Error
  Delete : Deployment → Option Error

/-- The local variable `ip` of `fillInMissingSystemDomain` together with the
number of listings made so far. -/
structure FetchState where
  ip : String
  calls : Nat
deriving DecidableEq, Repr

/-- `InstallClient.fetchIP`: the emptiness of the list is tested before the
error, and `*ip` is written only on the success path. -/
def fetchIP (w : InstallWorld) (s : FetchState) : Option Error × FetchState :=
  let serviceList := w.services s.calls
  let s1 : FetchState := { s with calls := s.calls + 1 }
  match serviceList.Items with
  | [] => (some (.New "couldn't find the traefik service"), s1)
  | item0 :: _ =>
    match serviceList.err with
    | some err => (some err, s1)
    | none =>
      match item0.Ingress with
      | [] => (some (.New "ingress list is empty in traefik service"), s1)
      | ingress0 :: _ => (none, { s1 with ip := ingress0.IP })

/-- Modelled from the spec: `helpers.RunToSuccessWithTimeout` is not part of
the sources.  It calls `funk` again and again until it succeeds; once the
tries that fit into the timeout are used up it gives the distinguished error
whose text starts with `Timed out after`. -/
def RunToSuccessWithTimeout {σ : Type} (funk : σ → Option Error × σ) (timeout : String) :
    Nat → σ → Option Error × σ
  | 0, s => (some (.New ("Timed out after " ++ timeout)), s)
  | n + 1, s =>
    match funk s with
    | (none, s1) => (none, s1)
    | (some _, s1) => RunToSuccessWithTimeout funk timeout n s1

/-- The text of the error `fillInMissingSystemDomain` gives on a timeout. -/
def timedOutWaitingMsg : String :=
  "Timed out waiting for LoadBalancer IP on traefik service.\n" ++
  "Ensure your kubernetes platform has the ability to provision LoadBalancer IP address.\n\n" ++
  "Follow these steps to enable this ability\n" ++
  "https://github.com/epinio/epinio/blob/main/docs/install.md"

/-- Result of `fillInMissingSystemDomain`: the returned error, the value of
`domain.Value` afterwards and the number of listings of the traefik service. -/
structure FillResult where
  err : Option Error
  domain : String
  polls : Nat
deriving DecidableEq, Repr

/-- `InstallClient.fillInMissingSystemDomain`. -/
def fillInMissingSystemDomain (w : InstallWorld) (domain : String) : FillResult :=
  if domain = "" then
    match RunToSuccessWithTimeout (fetchIP w) w.timeout w.attempts ⟨"", 0⟩ with
    | (some err, s) =>
      if stringsContains err.Error "Timed out after" then
        ⟨some (.New timedOutWaitingMsg), domain, s.calls⟩
      else
        ⟨some err, domain, s.calls⟩
    | (none, s) =>
      if s.ip ≠ "" then
        ⟨none, s.ip ++ ".omg.howdoi.website", s.calls⟩
      else
        ⟨none, domain, s.calls⟩
  else
    ⟨none, domain, 0⟩

/-- `InstallClient.InstallDeployment`: the error of `deployment.Deploy`, as is. -/
def InstallDeployment (w : InstallWorld) (deployment : Deployment) : Option Error :=
  w.Deploy deployment

/-- `InstallClient.UninstallDeployment`: the error of `deployment.Delete`, as is. -/
def UninstallDeployment (w : InstallWorld) (deployment : Deployment) : Option Error :=
  w.Delete deployment

/-- The unit `Install` deploys before it looks at the system domain. -/
def installFirst : Deployment := .Traefik

/-- The slice literal of the `for` loop in `Install`. -/
def installRest : List Deployment :=
  [.Epinio, .Quarks, .Workloads, .Gitea, .Registry, .Tekton, .ServiceCatalog, .CertManager]

/-- All units `Install` deploys, in the order of the source text. -/
def installUnits : List Deployment := installFirst :: installRest

/-- The slice literal of the `for` loop in `Uninstall`. -/
def uninstallUnits : List Deployment :=
  [.Minibroker, .GoogleServices, .ServiceCatalog, .Workloads, .Tekton, .Registry, .Gitea,
   .Quarks, .Traefik, .CertManager, .Epinio]

/-- The `for ... range` loop of `Install`: first error ends it. -/
def installLoop (w : InstallWorld) : List Deployment → List Event → Option Error × List Event
  | [], ev => (none, ev)
  | d :: ds, ev =>
    match InstallDeployment w d with
    | some err => (some err, ev ++ [.deploy d])
    | none => installLoop w ds (ev ++ [.deploy d])

/-- The `for ... range` loop of `Uninstall`: first error ends it. -/
def uninstallLoop (w : InstallWorld) : List Deployment → List Event → Option Error × List Event
  | [], ev => (none, ev)
  | d :: ds, ev =>
    match UninstallDeployment w d with
    | some err => (some err, ev ++ [.delete d])
    | none => uninstallLoop w ds (ev ++ [.delete d])

/-- What `Install` leaves behind: the returned error, the events in order, and
the value of the `system_domain` option that `GetOpt` handed out (`none` when
`Install` returned before it had the option). -/
structure InstallResult where
  err : Option Error
  events : List Event
  domain : Option String
deriving DecidableEq, Repr

/-- The text of the error for a domain that stayed empty. -/
def noDomainMsg : String :=
  "You didn't provide a system_domain and we were unable to setup a omg.howdoi.website domain (couldn't find an ExternalIP)"

/-- `InstallClient.Install`.  Logging and `showInstallConfiguration`, which
only print, are left out. -/
def Install (w : InstallWorld) : InstallResult :=
  let ev0 : List Event := [.ui "Epinio installing..."]
  match w.populateCLI with
  | some err => ⟨some err, ev0, none⟩
  | none =>
  match w.interactive with
  | .error err => ⟨some err, ev0, none⟩
  | .ok interactive =>
  match (if interactive then w.populateInteractive else w.populateDefault) with
  | some err => ⟨some err, ev0, none⟩
  | none =>
  let ev1 := ev0 ++ [.deploy installFirst]
  match InstallDeployment w installFirst with
  | some err => ⟨some err, ev1, none⟩
  | none =>
  match w.systemDomain with
  | .error err => ⟨some err, ev1, none⟩
  | .ok domain =>
  let r := fillInMissingSystemDomain w domain
  let ev2 := ev1 ++ List.replicate r.polls .fetchIP
  match r.err with
  | some err => ⟨some err, ev2, some r.domain⟩
  | none =>
  if r.domain = "" then
    ⟨some (.New noDomainMsg), ev2, some r.domain⟩
  else
    let ev3 := ev2 ++ [.ui ("Created system_domain: " ++ r.domain)]
    match installLoop w installRest ev3 with
    | (some err, ev4) => ⟨some err, ev4, some r.domain⟩
    | (none, ev4) => ⟨none, ev4 ++ [.ui "Epinio installed."], some r.domain⟩

/-- `InstallClient.Uninstall`: the returned error and the events in order. -/
def Uninstall (w : InstallWorld) : Option Error × List Event :=
  match uninstallLoop w uninstallUnits [.ui "Epinio uninstalling..."] with
  | (some err, ev) => (some err, ev)
  | (none, ev) => (none, ev ++ [.ui "Epinio uninstalled."])

/-- The units on which `Deploy` was called, in call order. -/
def deployedUnits (ev : List Event) : List Deployment :=
  ev.filterMap fun e => match e with
    | .deploy d => some d
    | _ => none

/-- The units on which `Delete` was called, in call order. -/
def deletedUnits (ev : List Event) : List Deployment :=
  ev.filterMap fun e => match e with
    | .delete d => some d
    | _ => none

/-- A world in which everything works and the domain is configured. -/
def calmWorld : InstallWorld where
  populateCLI := none
  interactive := .ok false
  populateInteractive := none
  populateDefault := none
  systemDomain := .ok "example.com"
  services := fun _ => ⟨[], none⟩
  attempts := 3
  timeout := "5m0s"
  Deploy := fun _ => none
  Delete := fun _ => none

/-! ## deployments/workloads.go -/

/-- The part of a `corev1.Secret` that the unit fills in. -/
structure Secret where
  Name : String
  Annotations : List (String × String)
  StringData : List (String × String)
  Type_ : String
deriving DecidableEq, Repr

/-- The part of a `corev1.ServiceAccount` that the unit fills in. -/
structure ServiceAccount where
  Name : String
  ImagePullSecrets : List String
  AutomountServiceAccountToken : Option Bool
deriving DecidableEq, Repr

/-- One container of the warm-up job. -/
structure Container where
  Name : String
  Image : String
  Command : List String
deriving DecidableEq, Repr

/-- The part of a `batchv1.Job` that the unit fills in. -/
structure Job where
  Name : String
  Labels : List (String × String)
  BackoffLimit : Option Int
  Containers : List Container
  RestartPolicy : String
deriving DecidableEq, Repr

/-- The calls `workloads.go` makes to the cluster handle, the typed clients
and the kubectl helpers, with the arguments the code passes. -/
inductive Call where
  | NamespacesGet (name : String)
  | NamespacesCreate (name : String) (labels : List (String × String))
  | NamespaceExistsAndOwned (name : String)
  | DeleteNamespace (name : String)
  | LabelNamespace (name key value : String)
  | SecretsCreate (ns : String) (secret : Secret)
  | ServiceAccountsCreate (ns : String) (account : ServiceAccount)
  | KubectlApplyEmbeddedYaml (path : String)
  | KubectlDeleteEmbeddedYaml (path : String) (ignoreMissing : Bool)
  | WaitUntilPodBySelectorExist (ns selector : String) (timeout : Int)
  | BatchNewForConfig
  | JobsCreate (ns : String) (job : Job)
  | WaitForJobCompleted (ns jobName : String)
deriving DecidableEq, Repr

/-- The calls that change the cluster: they create, label, apply or delete. -/
def Call.isMutation : Call → Bool
  | .NamespacesCreate .. => true
  | .DeleteNamespace .. => true
  | .LabelNamespace .. => true
  | .SecretsCreate .. => true
  | .ServiceAccountsCreate .. => true
  | .KubectlApplyEmbeddedYaml .. => true
  | .KubectlDeleteEmbeddedYaml .. => true
  | .JobsCreate .. => true
  | .NamespacesGet .. => false
  | .NamespaceExistsAndOwned .. => false
  | .WaitUntilPodBySelectorExist .. => false
  | .BatchNewForConfig => false
  | .WaitForJobCompleted .. => false

/-- The answer to a call: the error, and for the calls that also give a
boolean (`NamespaceExistsAndOwned`) or an output text (the kubectl helpers)
that value. -/
structure Reply where
  err : Option Error
  flag : Bool
  out : String
deriving DecidableEq, Repr

/-- The calls made so far, oldest first. -/
abbrev Trace := List Call

/-- The cluster as the code meets it: the answer to a call, which may depend
on every call made before. -/
abbrev Env := Trace → Call → Reply

/-- Make one call: take the answer and record the call. -/
def call (env : Env) (t : Trace) (c : Call) : Reply × Trace :=
  (env t c, t ++ [c])

/-- The receiver `Workloads`; `Timeout` is a `time.Duration`. -/
structure Workloads where
  Debug : Bool
  Timeout : Int
deriving DecidableEq, Repr

def WorkloadsDeploymentID : String := "epinio-workloads"
def WorkloadsIngressVersion : String := "0.1"
def appIngressYamlPath : String := "app-ingress.yaml"

/-- Stands for `kubernetes.EpinioDeploymentLabelKey`, declared outside the
sources at hand. -/
def EpinioDeploymentLabelKey : String := "EpinioDeploymentLabelKey"

/-- Stands for `kubernetes.EpinioDeploymentLabelValue`, declared outside the
sources at hand. -/
def EpinioDeploymentLabelValue : String := "EpinioDeploymentLabelValue"

/-- `metav1.StatusReasonNotFound`. -/
def StatusReasonNotFound : String := "NotFound"

/-- Modelled from the spec: `helpers.WaitForCommandCompletion` is not part of
the sources.  It shows `message` while it runs the command once, and hands
back what the command returned. -/
def WaitForCommandCompletion {α : Type} (_message : String) (funk : Trace → α) (t : Trace) : α :=
  funk t

namespace Workloads

def ID (_k : Workloads) : String := WorkloadsDeploymentID

def GetVersion (_k : Workloads) : String := WorkloadsIngressVersion

/-- The secret of `createClusterRegistryCredsSecret`. -/
def registryCredsSecret : Secret where
  Name := "registry-creds"
  Annotations := []
  StringData := [(".dockerconfigjson",
    "\x7b \"auths\": \x7b\n\t\t\"https://127.0.0.1:30500\":\x7b\"auth\": \"YWRtaW46cGFzc3dvcmQ=\", \"username\":\"admin\",\"password\":\"password\"\x7d,\n\t\t\"http://127.0.0.1:30501\":\x7b\"auth\": \"YWRtaW46cGFzc3dvcmQ=\", \"username\":\"admin\",\"password\":\"password\"\x7d,\n\t\t \"registry.epinio-registry\":\x7b\"username\":\"admin\",\"password\":\"password\"\x7d,\n\t\t \"registry.epinio-registry:444\":\x7b\"username\":\"admin\",\"password\":\"password\"\x7d \x7d \x7d")]
  Type_ := "kubernetes.io/dockerconfigjson"

/-- The secret of `createGiteaCredsSecret`. -/
def giteaCredsSecret : Secret where
  Name := "gitea-creds"
  Annotations := [("tekton.dev/git-0", "http://gitea-http.gitea:10080")]
  StringData := [("username", "dev"), ("password", "changeme")]
  Type_ := "kubernetes.io/basic-auth"

/-- The service account of `createWorkloadsServiceAccountWithSecretAccess`. -/
def workloadsServiceAccount : ServiceAccount where
  Name := WorkloadsDeploymentID
  ImagePullSecrets := ["registry-creds", "gitea-creds"]
  AutomountServiceAccountToken := some false

/-- The job of `warmupBuilder`. -/
def warmupJob : Job where
  Name := "buildpack-builder-warmup"
  Labels := [(EpinioDeploymentLabelKey, EpinioDeploymentLabelValue)]
  BackoffLimit := some 1
  Containers := [⟨"warmup", "quay.io/asgardtech/paketobuildpacks-builder:full-cf", ["/bin/ls"]⟩]
  RestartPolicy := "Never"

/-- `Workloads.createClusterRegistryCredsSecret`. -/
def createClusterRegistryCredsSecret (_w : Workloads) (env : Env) (t : Trace) :
    Option Error × Trace :=
  let (r, t1) := call env t (.SecretsCreate WorkloadsDeploymentID registryCredsSecret)
  match r.err with
  | some err => (some err, t1)
  | none => (none, t1)

/-- `Workloads.createGiteaCredsSecret`. -/
def createGiteaCredsSecret (_w : Workloads) (env : Env) (t : Trace) : Option Error × Trace :=
  let (r, t1) := call env t (.SecretsCreate WorkloadsDeploymentID giteaCredsSecret)
  match r.err with
  | some err => (some err, t1)
  | none => (none, t1)

/-- `Workloads.createWorkloadsServiceAccountWithSecretAccess`. -/
def createWorkloadsServiceAccountWithSecretAccess (_w : Workloads) (env : Env) (t : Trace) :
    Option Error × Trace :=
  let (r, t1) := call env t (.ServiceAccountsCreate WorkloadsDeploymentID workloadsServiceAccount)
  (r.err, t1)

/-- `Workloads.createWorkloadsNamespace`.  When `Namespaces().Create` gives an
error the function returns `nil`. -/
def createWorkloadsNamespace (w : Workloads) (env : Env) (t : Trace) : Option Error × Trace :=
  let (r, t1) := call env t (.NamespacesCreate WorkloadsDeploymentID
    [("quarks.cloudfoundry.org/monitored", "quarks-secret"),
     (EpinioDeploymentLabelKey, EpinioDeploymentLabelValue)])
  match r.err with
  | some _ => (none, t1)
  | none =>
  let (r2, t2) := call env t1
    (.LabelNamespace WorkloadsDeploymentID EpinioDeploymentLabelKey EpinioDeploymentLabelValue)
  match r2.err with
  | some err => (some err, t2)
  | none =>
  match w.createGiteaCredsSecret env t2 with
  | (some err, t3) => (some err, t3)
  | (none, t3) =>
  match w.createClusterRegistryCredsSecret env t3 with
  | (some err, t4) => (some err, t4)
  | (none, t4) =>
  match w.createWorkloadsServiceAccountWithSecretAccess env t4 with
  | (some err, t5) => (some err, t5)
  | (none, t5) => (none, t5)

/-- `Workloads.apply`. -/
def apply (w : Workloads) (env : Env) (t : Trace) : Option Error × Trace :=
  match w.createWorkloadsNamespace env t with
  | (some err, t1) => (some err, t1)
  | (none, t1) =>
  let (r2, t2) := call env t1 (.KubectlApplyEmbeddedYaml appIngressYamlPath)
  match r2.err with
  | some err => (some (.Wrap err ("Installing " ++ appIngressYamlPath ++ " failed:\n" ++ r2.out)), t2)
  | none =>
  let (r3, t3) := call env t2
    (.LabelNamespace "app-ingress" EpinioDeploymentLabelKey EpinioDeploymentLabelValue)
  match r3.err with
  | some err => (some err, t3)
  | none =>
  let (r4, t4) := call env t3 (.WaitUntilPodBySelectorExist "app-ingress" "name=app-ingress" w.Timeout)
  match r4.err with
  | some err => (some (.Wrap err "failed waiting app-ingress deployment to exist"), t4)
  | none => (none, t4)

/-- `Workloads.warmupBuilder`. -/
def warmupBuilder (_w : Workloads) (env : Env) (t : Trace) : Option Error × Trace :=
  let (r, t1) := call env t .BatchNewForConfig
  match r.err with
  | some err => (some err, t1)
  | none =>
  let (r2, t2) := call env t1 (.JobsCreate WorkloadsDeploymentID warmupJob)
  match r2.err with
  | some err => (some err, t2)
  | none =>
  let (r3, t3) := call env t2 (.WaitForJobCompleted WorkloadsDeploymentID warmupJob.Name)
  (r3.err, t3)

/-- `Workloads.Deploy`. -/
def Deploy (k : Workloads) (env : Env) (t : Trace) : Option Error × Trace :=
  let (r, t1) := call env t (.NamespacesGet WorkloadsDeploymentID)
  match r.err with
  | none => (some (.New ("Namespace " ++ WorkloadsDeploymentID ++ " present already")), t1)
  | some _ =>
  match k.apply env t1 with
  | (some err, t2) => (some err, t2)
  | (none, t2) =>
  match k.warmupBuilder env t2 with
  | (some err, t3) => (some err, t3)
  | (none, t3) => (none, t3)

/-- The loop `for err == nil { _, err = ...Namespaces().Get(...) }`: it ends
with the first error.  `none` when it has not ended after `fuel` rounds. -/
def namespaceGetLoop (env : Env) : Nat → Trace → Option (Error × Trace)
  | 0, _ => none
  | fuel + 1, t =>
    let (r, t1) := call env t (.NamespacesGet WorkloadsDeploymentID)
    match r.err with
    | none => namespaceGetLoop env fuel t1
    | some err => some (err, t1)

/-- The second command of `deleteWorkloadsNamespace`: wait for the namespace
to be gone. -/
def waitNamespaceGone (env : Env) (fuel : Nat) (t : Trace) :
    Option ((String × Option Error) × Trace) :=
  match namespaceGetLoop env fuel t with
  | none => none
  | some (err, t1) =>
    match err with
    | .Status reason _ =>
      if reason = StatusReasonNotFound then some (("", none), t1)
      else some (("", some err), t1)
    | _ => some (("", some err), t1)

/-- `Workloads.deleteWorkloadsNamespace`.  `none` when the wait has not ended
after `fuel` rounds. -/
def deleteWorkloadsNamespace (_w : Workloads) (env : Env) (fuel : Nat) (t : Trace) :
    Option (Option Error × Trace) :=
  let ((_, err), t1) :=
    WaitForCommandCompletion ("Deleting Workloads namespace " ++ WorkloadsDeploymentID)
      (fun t => let (r, t1) := call env t (.DeleteNamespace WorkloadsDeploymentID)
                (("", r.err), t1)) t
  match err with
  | some err => some (some err, t1)
  | none =>
  match WaitForCommandCompletion "Waiting for workloads namespace to be gone"
      (waitNamespaceGone env fuel) t1 with
  | none => none
  | some ((_, some err), t2) => some (some err, t2)
  | some ((_, none), t2) => some (none, t2)

/-- `Workloads.Delete`.  `none` when the wait inside has not ended after
`fuel` rounds. -/
def Delete (w : Workloads) (env : Env) (fuel : Nat) (t : Trace) : Option (Option Error × Trace) :=
  let (r, t1) := call env t (.NamespaceExistsAndOwned WorkloadsDeploymentID)
  match r.err with
  | some err =>
    some (some (.Wrap err ("failed to check if namespace '" ++ WorkloadsDeploymentID ++
      "' is owned or not")), t1)
  | none =>
  if !r.flag then some (none, t1)
  else
  match w.deleteWorkloadsNamespace env fuel t1 with
  | none => none
  | some (some err, t2) =>
    some (some (.Wrap err ("Failed deleting namespace " ++ WorkloadsDeploymentID)), t2)
  | some (none, t2) =>
  let (r3, t3) := call env t2 (.NamespaceExistsAndOwned "app-ingress")
  match r3.err with
  | some err =>
    some (some (.Wrap err "failed to check if namespace 'app-ingress' is owned or not"), t3)
  | none =>
  if !r3.flag then some (none, t3)
  else
  let (r4, t4) := call env t3 (.KubectlDeleteEmbeddedYaml appIngressYamlPath true)
  match r4.err with
  | some err =>
    some (some (.Wrap err ("Deleting " ++ appIngressYamlPath ++ " failed:\n" ++ r4.out)), t4)
  | none => some (none, t4)

end Workloads

/-! ## cli/kubernetes/cluster.go -/

structure ContainerStateWaiting where
  Reason : String
  Message : String
deriving DecidableEq, Repr

structure ContainerStateRunning where
  StartedAt : String
deriving DecidableEq, Repr

structure ContainerStateTerminated where
  ExitCode : Int
  Reason : String
deriving DecidableEq, Repr

/-- `v1.ContainerState`: three pointers, each of which may be nil. -/
structure ContainerState where
  Waiting : Option ContainerStateWaiting
  Running : Option ContainerStateRunning
  Terminated : Option ContainerStateTerminated
deriving DecidableEq, Repr

structure ContainerStatus where
  Name : String
  State : ContainerState
deriving DecidableEq, Repr

/-- `v1.PodPhase` is a string type. -/
abbrev PodPhase := String

def PodPending : PodPhase := "Pending"
def PodRunning : PodPhase := "Running"
def PodSucceeded : PodPhase := "Succeeded"
def PodFailed : PodPhase := "Failed"
def PodUnknown : PodPhase := "Unknown"

structure PodStatus where
  Phase : PodPhase
  ContainerStatuses : List ContainerStatus
  InitContainerStatuses : List ContainerStatus
deriving DecidableEq, Repr

structure Pod where
  Name : String
  Status : PodStatus
deriving DecidableEq, Repr

/-- The part of `kubernetes.Clientset` that `cluster.go` uses for pods:
`CoreV1().Pods(namespace).Get(ctx, name, ...)` and
`CoreV1().Pods(namespace).List(ctx, listOptions)` with the label selector of
the options. -/
structure Clientset where
  PodsGet : (ns name : String) → Except Error Pod
  PodsList : (ns labelSelector : String) → Except Error (List Pod)

/-- A `restclient.Config`, as far as the code looks at it. -/
structure RestConfig where
  Host : String
deriving DecidableEq, Repr

/-- The values of the `Platform` interface that `cluster.go` names: the four
entries of `SupportedPlatforms` and the generic fallback. -/
inductive Platform where
  | kind | k3s | ibm | minikube | generic
deriving DecidableEq, Repr

/-- The package variable `SupportedPlatforms`. -/
def SupportedPlatforms : List Platform := [.kind, .k3s, .ibm, .minikube]

/-- The cluster handle of `cluster.go`; `platform` is `none` for the nil
interface value. -/
structure Cluster where
  Kubectl : Clientset
  RestConfig : RestConfig
  platform : Option Platform

/-- One evaluation of the condition function that `Cluster.IsPodRunning`
returns: the pair (satisfied, error).  The two `for` loops return at the first
status that matches. -/
def Cluster.IsPodRunning (c : Cluster) (podName ns : String) : Bool × Option Error :=
  match c.Kubectl.PodsGet ns podName with
  | .error err => (false, some err)
  | .ok pod =>
    if pod.Status.ContainerStatuses.any (fun cont => cont.State.Waiting.isSome) then
      (false, none)
    else if pod.Status.InitContainerStatuses.any
        (fun cont => cont.State.Waiting.isSome || cont.State.Running.isSome) then
      (false, none)
    else if pod.Status.Phase = PodRunning ∨ pod.Status.Phase = PodSucceeded then
      (true, none)
    else if pod.Status.Phase = PodFailed then
      (false, none)
    else
      (false, none)

/-- What `Connect` and `NewClusterFromClient` do that can be seen from
outside: the calls of `Detect`, `Load` and `Describe` on platforms. -/
inductive PlatformEvent where
  | detect (p : Platform)
  | load (p : Platform)
  | describe (p : Platform)
deriving DecidableEq, Repr

/-- Everything outside `cluster.go` that connecting depends on: the two
client-go constructors, and the methods `Detect` and `Load` of the platforms,
whose packages are not part of the sources at hand. -/
structure ConnectWorld where
  BuildConfigFromFlags : String → Except Error RestConfig
  NewForConfig : RestConfig → Except Error Clientset
  Detect : Platform → Clientset → Bool
  Load : Platform → Clientset → Option Error

/-- The `for ... range SupportedPlatforms` loop of `detectPlatform`: the first
platform whose `Detect` says true is stored and ends the loop. -/
def detectLoop (w : ConnectWorld) (c : Cluster) :
    List Platform → List PlatformEvent → Cluster × List PlatformEvent
  | [], ev => (c, ev)
  | p :: ps, ev =>
    if w.Detect p c.Kubectl then ({ c with platform := some p }, ev ++ [.detect p])
    else detectLoop w c ps (ev ++ [.detect p])

/-- `Cluster.detectPlatform`. -/
def Cluster.detectPlatform (w : ConnectWorld) (c : Cluster) : Cluster × List PlatformEvent :=
  detectLoop w c SupportedPlatforms []

/-- The handle, the returned error and the platform calls, in order. -/
structure ConnectResult where
  cluster : Cluster
  err : Option Error
  events : List PlatformEvent

/-- The common tail of `Connect` and `NewClusterFromClient`: detect, fall back
to the generic platform when `c.platform == nil`, and `Load`.  `describe` says
whether `Describe` is printed after a `Load` without error. -/
def detectAndLoad (w : ConnectWorld) (c : Cluster) (clientset : Clientset) (describe : Bool) :
    ConnectResult :=
  let (c1, ev) := c.detectPlatform w
  let p : Platform :=
    match c1.platform with
    | none => .generic
    | some p => p
  let c2 : Cluster := { c1 with platform := some p }
  match w.Load p clientset with
  | some err => ⟨c2, some err, ev ++ [.load p]⟩
  | none => ⟨c2, none, ev ++ [.load p] ++ (if describe then [.describe p] else [])⟩

/-- `Cluster.Connect`. -/
def Cluster.Connect (w : ConnectWorld) (c : Cluster) (config : String) : ConnectResult :=
  match w.BuildConfigFromFlags config with
  | .error err => ⟨c, some err, []⟩
  | .ok restConfig =>
    let c1 : Cluster := { c with RestConfig := restConfig }
    match w.NewForConfig restConfig with
    | .error err => ⟨c1, some err, []⟩
    | .ok clientset =>
      let c2 : Cluster := { c1 with Kubectl := clientset }
      detectAndLoad w c2 clientset true

/-- `NewClusterFromClient`: `none` for the handle stands for the returned nil
pointer.  The fields of `&Cluster{}` are set before they are read, and its
`platform` is nil. -/
def NewClusterFromClient (w : ConnectWorld) (restConfig : RestConfig) :
    Option ConnectResult × Option Error :=
  match w.NewForConfig restConfig with
  | .error err => (none, some err)
  | .ok clientset =>
    let c : Cluster := { Kubectl := clientset, RestConfig := restConfig, platform := none }
    let r := detectAndLoad w c clientset false
    (some r, r.err)

/-- `Cluster.ListPods`. -/
def Cluster.ListPods (c : Cluster) (ns selector : String) : Except Error (List Pod) :=
  let labelSelector := if selector.length > 0 then selector else ""
  match c.Kubectl.PodsList ns labelSelector with
  | .error err => .error err
  | .ok podList => .ok podList

/-- One evaluation of the condition function that `Cluster.PodExists`
returns. -/
def Cluster.PodExists (c : Cluster) (ns selector : String) : Bool × Option Error :=
  match c.ListPods ns selector with
  | .error err => (false, some err)
  | .ok podList =>
    if podList.length = 0 then (false, none)
    else (true, none)

/-- The error `wait.PollImmediate` gives when the timeout is over. -/
def ErrWaitTimeout : Error := .New "timed out waiting for the condition"

/-- Modelled from the spec: `wait.PollImmediate` is library code.  The
condition is evaluated at once and then again at each interval, until it is
satisfied, gives an error, or the timeout is over, which gives the timeout
error.  `ticks` is the number of intervals in the timeout, `now` counts the
observations of the cluster made so far, and `condition n` is the condition
evaluated on the `n`-th observation. -/
def PollImmediate (condition : Nat → Bool × Option Error) : (ticks now : Nat) → Option Error × Nat
  | 0, now =>
    match condition now with
    | (_, some err) => (some err, now + 1)
    | (true, none) => (none, now + 1)
    | (false, none) => (some ErrWaitTimeout, now + 1)
  | ticks + 1, now =>
    match condition now with
    | (_, some err) => (some err, now + 1)
    | (true, none) => (none, now + 1)
    | (false, none) => PollImmediate condition ticks (now + 1)

/-- `Cluster.WaitForPodRunning`, with the timeout in seconds (the interval is
one second).  `cs n` is the cluster as the `n`-th observation finds it. -/
def WaitForPodRunning (cs : Nat → Cluster) (ns podName : String) (timeout now : Nat) :
    Option Error × Nat :=
  PollImmediate (fun n => (cs n).IsPodRunning podName ns) timeout now

/-- `Cluster.WaitUntilPodBySelectorExist`, with the timeout in seconds. -/
def WaitUntilPodBySelectorExist (cs : Nat → Cluster) (ns selector : String)
    (timeout now : Nat) : Option Error × Nat :=
  PollImmediate (fun n => (cs n).PodExists ns selector) timeout now

/-- What `WaitForPodBySelectorRunning` leaves behind: the returned error, the
pods it waited for with the error of each wait, in order, and the number of
observations made. -/
structure SelectorWait where
  err : Option Error
  waits : List (String × Option Error)
  now : Nat
deriving DecidableEq, Repr

/-- The `for ... range podList.Items` loop of `WaitForPodBySelectorRunning`. -/
def waitRunningLoop (cs : Nat → Cluster) (ns : String) (timeout : Nat) :
    List Pod → List (String × Option Error) → Nat → SelectorWait
  | [], waits, now => ⟨none, waits, now⟩
  | pod :: pods, waits, now =>
    match WaitForPodRunning cs ns pod.Name timeout now with
    | (some err, now1) =>
      ⟨some (.Wrap err ("failed waiting for " ++ pod.Name)), waits ++ [(pod.Name, some err)], now1⟩
    | (none, now1) => waitRunningLoop cs ns timeout pods (waits ++ [(pod.Name, none)]) now1

/-- `Cluster.WaitForPodBySelectorRunning`, with the timeout in seconds. -/
def WaitForPodBySelectorRunning (cs : Nat → Cluster) (ns selector : String)
    (timeout now : Nat) : SelectorWait :=
  match (cs now).ListPods ns selector with
  | .error err =>
    ⟨some (.Wrap err ("failed listingpods with selector " ++ selector)), [], now + 1⟩
  | .ok podList =>
    if podList.length = 0 then
      ⟨some (.New ("no pods in " ++ ns ++ " with selector " ++ selector)), [], now + 1⟩
    else
      waitRunningLoop cs ns timeout podList [] (now + 1)

/-! ## internal/api/v1/stage.go -/

def GiteaURL : String := "http://gitea-http.gitea:10080"
def RegistryURL : String := "registry.epinio-registry/apps"

/-- The part of `gitea.App` that `stage.go` reads; the type is declared
outside the sources at hand. -/
structure Repo where
  Revision : String
  URL : String
deriving DecidableEq, Repr

/-- The part of `gitea.App` that `stage.go` reads. -/
structure App where
  Name : String
  Org : String
  Repo : Repo
deriving DecidableEq, Repr

structure ResourceParam where
  Name : String
  Value : String
deriving DecidableEq, Repr

/-- A `v1beta1.PipelineResourceBinding` with its `ResourceSpec`. -/
structure PipelineResourceBinding where
  Name : String
  Type_ : String
  Params : List ResourceParam
deriving DecidableEq, Repr

/-- A `v1beta1.WorkspaceBinding` with the volume claim template of the code. -/
structure WorkspaceBinding where
  Name : String
  AccessModes : List String
  StorageRequest : String
deriving DecidableEq, Repr

/-- The part of a `v1beta1.PipelineRun` that `newPipelineRun` fills in. -/
structure PipelineRun where
  Name : String
  Labels : List (String × String)
  ServiceAccountName : String
  PipelineRef : String
  Workspaces : List WorkspaceBinding
  Resources : List PipelineResourceBinding
deriving DecidableEq, Repr

/-- `newPipelineRun`.  `GitURL` and `ImageURL` are the methods of `gitea.App`,
which are not part of the sources at hand. -/
def newPipelineRun (GitURL ImageURL : App → String → String) (uid : String) (app : App) :
    PipelineRun where
  Name := app.Name ++ uid
  Labels :=
    [("app.kubernetes.io/name", app.Name),
     ("app.kubernetes.io/part-of", app.Org),
     ("app.kubernetes.io/managed-by", "epinio"),
     ("app.kubernetes.io/component", "staging")]
  ServiceAccountName := "staging-triggers-admin"
  PipelineRef := "staging-pipeline"
  Workspaces := [⟨"source", ["ReadWriteOnce"], "1Gi"⟩]
  Resources :=
    [⟨"source-repo", "git",
        [⟨"revision", app.Repo.Revision⟩, ⟨"url", GitURL app GiteaURL⟩]⟩,
     ⟨"image", "image", [⟨"url", ImageURL app RegistryURL⟩]⟩]

/-- The arguments that `fmt.Sprintf` found no verb for, as it prints them. -/
def sprintfExtra (args : List String) : List Char :=
  ("%!(EXTRA " ++ ", ".intercalate (args.map fun a => "string=" ++ a) ++ ")").data

/-- The characters of `fmt.Sprintf` for a format whose only verb is `%s`, with
string arguments, which is how `stage.go` uses it: each `%s` is replaced by
the next argument as it is, without any escaping, and every other character
is copied. -/
def SprintfChars : List Char → List String → List Char
  | '%' :: 's' :: format, a :: args => a.data ++ SprintfChars format args
  | '%' :: 's' :: format, [] => "%!s(MISSING)".data ++ SprintfChars format []
  | c :: format, args => c :: SprintfChars format args
  | [], [] => []
  | [], a :: args => sprintfExtra (a :: args)

/-- `fmt.Sprintf`, for the verb `%s` and string arguments. -/
def Sprintf (format : String) (args : List String) : String :=
  String.mk (SprintfChars format.data args)

/-- The format of `createProductionCertificate`, character for character (the
lines start with tabs, the last one with eight blanks). -/
def productionCertificateFormat : String :=
  "\x7b\n" ++
  "\t\t\"apiVersion\": \"cert-manager.io/v1alpha2\",\n" ++
  "\t\t\"kind\": \"Certificate\",\n" ++
  "\t\t\"metadata\": \x7b\n" ++
  "\t\t\t\"name\": \"%s\",\n" ++
  "\t\t\t\"namespace\": \"%s\"\n" ++
  "\t\t\x7d,\n" ++
  "\t\t\"spec\": \x7b\n" ++
  "\t\t\t\"commonName\" : \"%s.%s\",\n" ++
  "\t\t\t\"secretName\" : \"%s-tls\",\n" ++
  "\t\t\t\"dnsNames\": [\n" ++
  "\t\t\t\t\"%s.%s\"\n" ++
  "\t\t\t],\n" ++
  "\t\t\t\"issuerRef\" : \x7b\n" ++
  "\t\t\t\t\"name\" : \"letsencrypt-production\",\n" ++
  "\t\t\t\t\"kind\" : \"ClusterIssuer\"\n" ++
  "\t\t\t\x7d\n" ++
  "\t\t\x7d\n" ++
  "        \x7d"

/-- The format of `createLocalCertificate`, character for character. -/
def localCertificateFormat : String :=
  "\x7b\n" ++
  "\t\t\"apiVersion\": \"quarks.cloudfoundry.org/v1alpha1\",\n" ++
  "\t\t\"kind\": \"QuarksSecret\",\n" ++
  "\t\t\"metadata\": \x7b\n" ++
  "\t\t\t\"name\": \"%s\",\n" ++
  "\t\t\t\"namespace\": \"%s\"\n" ++
  "\t\t\x7d,\n" ++
  "\t\t\"spec\": \x7b\n" ++
  "\t\t\t\"request\" : \x7b\n" ++
  "\t\t\t\t\"certificate\" : \x7b\n" ++
  "\t\t\t\t\t\"CAKeyRef\" : \x7b\n" ++
  "\t\t\t\t\t\t\"key\" : \"private_key\",\n" ++
  "\t\t\t\t\t\t\"name\" : \"ca-cert\"\n" ++
  "\t\t\t\t\t\x7d,\n" ++
  "\t\t\t\t\t\"CARef\" : \x7b\n" ++
  "\t\t\t\t\t\t\"key\" : \"certificate\",\n" ++
  "\t\t\t\t\t\t\"name\" : \"ca-cert\"\n" ++
  "\t\t\t\t\t\x7d,\n" ++
  "\t\t\t\t\t\"commonName\" : \"%s.%s\",\n" ++
  "\t\t\t\t\t\"isCA\" : false,\n" ++
  "\t\t\t\t\t\"alternativeNames\": [\n" ++
  "\t\t\t\t\t\t\"%s.%s\"\n" ++
  "\t\t\t\t\t],\n" ++
  "\t\t\t\t\t\"signerType\" : \"local\"\n" ++
  "\t\t\t\t\x7d\n" ++
  "\t\t\t\x7d,\n" ++
  "\t\t\t\"secretName\" : \"%s-tls\",\n" ++
  "\t\t\t\"type\" : \"tls\"\n" ++
  "\t\t\x7d\n" ++
  "        \x7d"

/-- The `data` of `createProductionCertificate`: the text that `fmt.Sprintf`
renders from the format and its seven arguments. -/
def productionCertificateData (app : App) (systemDomain : String) : String :=
  Sprintf productionCertificateFormat
    [app.Name, app.Org, app.Name, systemDomain, app.Name, app.Name, systemDomain]

/-- The `data` of `createLocalCertificate`: the text that `fmt.Sprintf` renders
from the format and its seven arguments. -/
def localCertificateData (app : App) (systemDomain : String) : String :=
  Sprintf localCertificateFormat
    [app.Name, app.Org, app.Name, systemDomain, app.Name, systemDomain, app.Name]

/-- A JSON value as `encoding/json` reads it into an empty interface.  An
object is given by its members, in the order in which the text first names
them; a number is kept as its text. -/
inductive Json where
  | null
  | bool (b : Bool)
  | number (literal : String)
  | string (s : String)
  | array (items : List Json)
  | object (members : List (String × Json))
deriving Repr

/-- Assignment to a Go map: a key that is there already gets the new value. -/
def setMember : List (String × Json) → String → Json → List (String × Json)
  | [], key, v => [(key, v)]
  | (k, w) :: members, key, v =>
    if k = key then (k, v) :: members else (k, w) :: setMember members key v

/-- A container that the reader is inside of, waiting for one of its values. -/
inductive Frame where
  | array (items : List Json)
  | object (members : List (String × Json)) (key : String)
deriving Repr

/-- Where the reader is inside a string: between characters, after a
backslash, or after `\u` with the hexadecimal digits read so far. -/
inductive Escape where
  | plain
  | backslash
  | unicode (digits : List Nat)
deriving Repr

/-- What a string is read for: a value, or the key of a member of the object
with these members so far. -/
inductive Target where
  | value
  | key (members : List (String × Json))
deriving Repr

/-- Where the reader is inside a number. -/
inductive NumberState where
  | minus
  | zero
  | int
  | dot
  | frac
  | exp
  | expSign
  | expDigits
deriving DecidableEq, Repr

/-- What the reader expects next. -/
inductive Mode where
  | value
  | arrayStart
  | arrayNext (items : List Json)
  | objectStart
  | objectKey (members : List (String × Json))
  | colon (members : List (String × Json)) (key : String)
  | objectNext (members : List (String × Json))
  | inString (acc : List Char) (pending : Option Nat) (esc : Escape) (target : Target)
  | literal (rest : List Char) (v : Json)
  | number (text : List Char) (ns : NumberState)
  | done (v : Json)
  | failed
deriving Repr

/-- The state of the reader: what it expects, and the containers it is in,
the innermost first. -/
structure Reader where
  mode : Mode
  stack : List Frame
deriving Repr

def isSpace (c : Char) : Bool := c = ' ' || c = '\t' || c = '\r' || c = '\n'

def isDigit (c : Char) : Bool := '0'.toNat ≤ c.toNat && c.toNat ≤ '9'.toNat

/-- The value of a hexadecimal digit. -/
def hexValue (c : Char) : Option Nat :=
  if '0'.toNat ≤ c.toNat && c.toNat ≤ '9'.toNat then some (c.toNat - '0'.toNat)
  else if 'a'.toNat ≤ c.toNat && c.toNat ≤ 'f'.toNat then some (c.toNat - 'a'.toNat + 10)
  else if 'A'.toNat ≤ c.toNat && c.toNat ≤ 'F'.toNat then some (c.toNat - 'A'.toNat + 10)
  else none

/-- `unicode.ReplacementChar`. -/
def ReplacementChar : Char := Char.ofNat 0xFFFD

def isSurrogate (v : Nat) : Bool := 0xD800 ≤ v && v < 0xE000

/-- The characters read so far, with the replacement character for a
surrogate that found no partner. -/
def flush (acc : List Char) : Option Nat → List Char
  | none => acc
  | some _ => acc ++ [ReplacementChar]

/-- A value is complete: it goes into the innermost container, or it is the
whole document. -/
def complete (v : Json) : List Frame → Reader
  | [] => ⟨.done v, []⟩
  | .array items :: stack => ⟨.arrayNext (items ++ [v]), stack⟩
  | .object members key :: stack => ⟨.objectNext (setMember members key v), stack⟩

/-- A character where a value starts. -/
def stepValue (stack : List Frame) (c : Char) : Reader :=
  if c = '\x7b' then ⟨.objectStart, stack⟩
  else if c = '[' then ⟨.arrayStart, stack⟩
  else if c = '"' then ⟨.inString [] none .plain .value, stack⟩
  else if c = 't' then ⟨.literal ['r', 'u', 'e'] (.bool true), stack⟩
  else if c = 'f' then ⟨.literal ['a', 'l', 's', 'e'] (.bool false), stack⟩
  else if c = 'n' then ⟨.literal ['u', 'l', 'l'] .null, stack⟩
  else if c = '-' then ⟨.number [c] .minus, stack⟩
  else if c = '0' then ⟨.number [c] .zero, stack⟩
  else if isDigit c then ⟨.number [c] .int, stack⟩
  else ⟨.failed, stack⟩

/-- A character after a complete value inside a container, or after the
document. -/
def stepAfter (r : Reader) (c : Char) : Reader :=
  match r.mode with
  | .arrayNext items =>
    if c = ',' then ⟨.value, .array items :: r.stack⟩
    else if c = ']' then complete (.array items) r.stack
    else ⟨.failed, r.stack⟩
  | .objectNext members =>
    if c = ',' then ⟨.objectKey members, r.stack⟩
    else if c = '\x7d' then complete (.object members) r.stack
    else ⟨.failed, r.stack⟩
  | _ => ⟨.failed, r.stack⟩

/-- A character inside a string whose characters so far are `acc`. -/
def stepString (acc : List Char) (pending : Option Nat) (esc : Escape) (target : Target)
    (stack : List Frame) (c : Char) : Reader :=
  match esc with
  | .plain =>
    if c = '"' then
      match target with
      | .value => complete (.string (String.mk (flush acc pending))) stack
      | .key members => ⟨.colon members (String.mk (flush acc pending)), stack⟩
    else if c = '\\' then ⟨.inString acc pending .backslash target, stack⟩
    else if c.toNat < 0x20 then ⟨.failed, stack⟩
    else ⟨.inString (flush acc pending ++ [c]) none .plain target, stack⟩
  | .backslash =>
    if c = 'u' then ⟨.inString acc pending (.unicode []) target, stack⟩
    else if c = '"' || c = '\\' || c = '/' then
      ⟨.inString (flush acc pending ++ [c]) none .plain target, stack⟩
    else if c = 'b' then ⟨.inString (flush acc pending ++ ['\x08']) none .plain target, stack⟩
    else if c = 'f' then ⟨.inString (flush acc pending ++ ['\x0c']) none .plain target, stack⟩
    else if c = 'n' then ⟨.inString (flush acc pending ++ ['\n']) none .plain target, stack⟩
    else if c = 'r' then ⟨.inString (flush acc pending ++ ['\r']) none .plain target, stack⟩
    else if c = 't' then ⟨.inString (flush acc pending ++ ['\t']) none .plain target, stack⟩
    else ⟨.failed, stack⟩
  | .unicode digits =>
    match hexValue c with
    | none => ⟨.failed, stack⟩
    | some d =>
      if digits.length < 3 then ⟨.inString acc pending (.unicode (digits ++ [d])) target, stack⟩
      else
        let v := (digits ++ [d]).foldl (fun n x => 16 * n + x) 0
        match pending with
        | some h =>
          if h < 0xDC00 && 0xDC00 ≤ v && v < 0xE000 then
            ⟨.inString (acc ++ [Char.ofNat (0x10000 + (h - 0xD800) * 0x400 + (v - 0xDC00))])
              none .plain target, stack⟩
          else if isSurrogate v then
            ⟨.inString (acc ++ [ReplacementChar]) (some v) .plain target, stack⟩
          else ⟨.inString (acc ++ [ReplacementChar, Char.ofNat v]) none .plain target, stack⟩
        | none =>
          if isSurrogate v then ⟨.inString acc (some v) .plain target, stack⟩
          else ⟨.inString (acc ++ [Char.ofNat v]) none .plain target, stack⟩

/-- A character inside a number whose text so far is `text`: the next state
of the number, or `none` when the character is not part of the number. -/
def stepNumber (ns : NumberState) (c : Char) : Option NumberState :=
  match ns with
  | .minus => if c = '0' then some .zero else if isDigit c then some .int else none
  | .zero =>
    if c = '.' then some .dot else if c = 'e' || c = 'E' then some .exp else none
  | .int =>
    if isDigit c then some .int
    else if c = '.' then some .dot else if c = 'e' || c = 'E' then some .exp else none
  | .dot => if isDigit c then some .frac else none
  | .frac =>
    if isDigit c then some .frac else if c = 'e' || c = 'E' then some .exp else none
  | .exp => if c = '+' || c = '-' then some .expSign else if isDigit c then some .expDigits else none
  | .expSign => if isDigit c then some .expDigits else none
  | .expDigits => if isDigit c then some .expDigits else none

/-- The states in which the text read so far is a number. -/
def NumberState.isEnd : NumberState → Bool
  | .zero | .int | .frac | .expDigits => true
  | _ => false

/-- One character of the text. -/
def step (r : Reader) (c : Char) : Reader :=
  match r.mode with
  | .value => if isSpace c then r else stepValue r.stack c
  | .arrayStart =>
    if isSpace c then r
    else if c = ']' then complete (.array []) r.stack
    else stepValue (.array [] :: r.stack) c
  | .arrayNext _ => if isSpace c then r else stepAfter r c
  | .objectStart =>
    if isSpace c then r
    else if c = '"' then ⟨.inString [] none .plain (.key []), r.stack⟩
    else if c = '\x7d' then complete (.object []) r.stack
    else ⟨.failed, r.stack⟩
  | .objectKey members =>
    if isSpace c then r
    else if c = '"' then ⟨.inString [] none .plain (.key members), r.stack⟩
    else ⟨.failed, r.stack⟩
  | .colon members key =>
    if isSpace c then r
    else if c = ':' then ⟨.value, .object members key :: r.stack⟩
    else ⟨.failed, r.stack⟩
  | .objectNext _ => if isSpace c then r else stepAfter r c
  | .inString acc pending esc target => stepString acc pending esc target r.stack c
  | .literal rest v =>
    match rest with
    | [] => ⟨.failed, r.stack⟩
    | [x] => if c = x then complete v r.stack else ⟨.failed, r.stack⟩
    | x :: rest => if c = x then ⟨.literal rest v, r.stack⟩ else ⟨.failed, r.stack⟩
  | .number text ns =>
    match stepNumber ns c with
    | some ns2 => ⟨.number (text ++ [c]) ns2, r.stack⟩
    | none =>
      if ns.isEnd then
        let r2 := complete (.number (String.mk text)) r.stack
        match r2.mode with
        | .done _ => if isSpace c then r2 else ⟨.failed, r2.stack⟩
        | _ => if isSpace c then r2 else stepAfter r2 c
      else ⟨.failed, r.stack⟩
  | .done _ => if isSpace c then r else ⟨.failed, r.stack⟩
  | .failed => r

/-- The JSON value that the whole text holds, read character by character as
the scanner of `encoding/json` does; `none` when the text is not one JSON
value. -/
def readJson (text : List Char) : Option Json :=
  match text.foldl step ⟨.value, []⟩ with
  | ⟨.done v, _⟩ => some v
  | ⟨.number digits ns, []⟩ => if ns.isEnd then some (.number (String.mk digits)) else none
  | _ => none
/-- An `unstructured.Unstructured`: the decoded object, a map from keys to
values. -/
structure Unstructured where
  Object : List (String × Json)
deriving Repr

/-- `json.Unmarshal` into a map from strings to values: the text has to be
one JSON value, an object or `null`.  The texts of the errors are not those of
the library. -/
def jsonUnmarshal (data : String) : Except Error (List (String × Json)) :=
  match readJson data.data with
  | none => .error (.New "invalid JSON")
  | some (.object members) => .ok members
  | some .null => .ok []
  | some _ => .error (.New "json: cannot unmarshal into Go value of type map[string]interface")

/-- `unstructured.NestedFieldNoCopy`: the value found by going down the
fields. -/
def NestedFieldNoCopy : List (String × Json) → List String → Option Json
  | members, [] => some (.object members)
  | members, field :: fields =>
    match members.lookup field with
    | none => none
    | some v =>
      match fields with
      | [] => some v
      | _ :: _ =>
        match v with
        | .object inner => NestedFieldNoCopy inner fields
        | _ => none

/-- `unstructured.NestedString`: the text at the fields, if there is one. -/
def NestedString (obj : List (String × Json)) (fields : List String) : Option String :=
  match NestedFieldNoCopy obj fields with
  | some (.string s) => some s
  | _ => none

/-- The texts of a list of values that are all texts. -/
def stringItems : List Json → Option (List String)
  | [] => some []
  | .string s :: items => (stringItems items).map fun l => s :: l
  | _ :: _ => none

/-- `unstructured.NestedStringSlice`: the list of texts at the fields, if
there is one. -/
def NestedStringSlice (obj : List (String × Json)) (fields : List String) :
    Option (List String) :=
  match NestedFieldNoCopy obj fields with
  | some (.array items) => stringItems items
  | _ => none

namespace Unstructured

/-- `GetKind`: the text under `kind`, or the empty text. -/
def GetKind (u : Unstructured) : String := (NestedString u.Object ["kind"]).getD ""

/-- `GetAPIVersion`: the text under `apiVersion`, or the empty text. -/
def GetAPIVersion (u : Unstructured) : String := (NestedString u.Object ["apiVersion"]).getD ""

/-- The `Kind` of `GroupVersionKind()`: the kind of the object, and the empty
text when `schema.ParseGroupVersion` refuses the API version, which it does
when there is more than one `/` in it. -/
def GroupVersionKindKind (u : Unstructured) : String :=
  if u.GetAPIVersion.data.count '/' ≤ 1 then u.GetKind else ""

end Unstructured

/-- `decoderUnstructured.Decode(data, nil, obj)` for the decoder
`yaml.NewDecodingSerializer(unstructured.UnstructuredJSONScheme)`, library
code: a text that starts with an opening brace is taken as JSON as it is and
unmarshalled into the object, and an object without a kind is refused.  The
result depends on the text alone. -/
def decoderUnstructured.Decode (data : String) : Except Error Unstructured :=
  match jsonUnmarshal data with
  | .error err => .error err
  | .ok members =>
    if Unstructured.GroupVersionKindKind ⟨members⟩ = "" then
      .error (.New ("Object 'Kind' is missing in '" ++ data ++ "'"))
    else .ok ⟨members⟩

structure GroupVersionResource where
  Group : String
  Version : String
  Resource : String
deriving DecidableEq, Repr

def certificateInstanceGVR : GroupVersionResource :=
  ⟨"cert-manager.io", "v1alpha2", "certificates"⟩

def quarksSecretInstanceGVR : GroupVersionResource :=
  ⟨"quarks.cloudfoundry.org", "v1alpha1", "quarkssecrets"⟩

/-- The calls that `stage.go` makes.  For the certificates: `gitea.New()` (its
answer carries the domain in `out`), the decoder with the text it is given,
the constructor of the dynamic client, and
`Resource(gvr).Namespace(ns).Create(ctx, obj, ...)`.  For `Stage`:
`kubernetes.GetCluster()`, `versioned.NewForConfig`, the creation of the
pipeline run, and the writing of the response. -/
inductive StageCall where
  | GiteaNew
  | Decode (data : String)
  | DynamicNewForConfig
  | DynamicCreate (gvr : GroupVersionResource) (ns : String) (obj : Unstructured)
  | GetCluster
  | TektonNewForConfig
  | PipelineRunsCreate (ns : String) (pr : PipelineRun)
  | ResponseWrite (app : App)
deriving Repr

/-- The calls of `stage.go` made so far, oldest first. -/
abbrev StageTrace := List StageCall

/-- The cluster and the helpers as `stage.go` meets them. -/
abbrev StageEnv := StageTrace → StageCall → Reply

/-- Make one call: take the answer and record the call. -/
def stageCall (env : StageEnv) (t : StageTrace) (c : StageCall) : Reply × StageTrace :=
  (env t c, t ++ [c])

/-- Call the decoder: its result, which the text decides, and the record of
the call. -/
def decodeCall (t : StageTrace) (data : String) : Except Error Unstructured × StageTrace :=
  (decoderUnstructured.Decode data, t ++ [.Decode data])

/-- `metav1.StatusReasonAlreadyExists`. -/
def StatusReasonAlreadyExists : String := "AlreadyExists"

/-- `apierrors.IsAlreadyExists`: the error is a status error with the reason
`AlreadyExists`. -/
def IsAlreadyExists : Error → Bool
  | .Status reason _ => reason = StatusReasonAlreadyExists
  | _ => false

/-- `createProductionCertificate`. -/
def createProductionCertificate (env : StageEnv) (t : StageTrace) (app : App)
    (systemDomain : String) : Option Error × StageTrace :=
  let data := productionCertificateData app systemDomain
  let (r1, t1) := decodeCall t data
  match r1 with
  | .error err => (some err, t1)
  | .ok obj =>
  let (r2, t2) := stageCall env t1 .DynamicNewForConfig
  match r2.err with
  | some err => (some err, t2)
  | none =>
  let (r3, t3) := stageCall env t2 (.DynamicCreate certificateInstanceGVR app.Org obj)
  match r3.err with
  | some err => (some err, t3)
  | none => (none, t3)

/-- `createLocalCertificate`.  The text is decoded twice, as in the source;
the object that is created is the one of the second decoding. -/
def createLocalCertificate (env : StageEnv) (t : StageTrace) (app : App)
    (systemDomain : String) : Option Error × StageTrace :=
  let data := localCertificateData app systemDomain
  let (r1, t1) := decodeCall t data
  match r1 with
  | .error err => (some err, t1)
  | .ok _ =>
  let (r2, t2) := stageCall env t1 .DynamicNewForConfig
  match r2.err with
  | some err => (some err, t2)
  | none =>
  let (r3, t3) := decodeCall t2 data
  match r3 with
  | .error err => (some err, t3)
  | .ok obj =>
  let (r4, t4) := stageCall env t3 (.DynamicCreate quarksSecretInstanceGVR app.Org obj)
  match r4.err with
  | some err =>
    if IsAlreadyExists err then (none, t4)
    else (some err, t4)
  | none => (none, t4)

/-- `createCertificates`; `c.Domain` is the `out` of the answer of
`gitea.New()`. -/
def createCertificates (env : StageEnv) (t : StageTrace) (app : App) :
    Option Error × StageTrace :=
  let (r, t1) := stageCall env t .GiteaNew
  match r.err with
  | some err => (some err, t1)
  | none =>
  if !stringsContains r.out "omg.howdoi.website" then
    match createProductionCertificate env t1 app r.out with
    | (some err, t2) => (some (.Wrap err "create production ssl certificate failed"), t2)
    | (none, t2) => (none, t2)
  else
    match createLocalCertificate env t1 app r.out with
    | (some err, t2) => (some (.Wrap err "create local ssl certificate failed"), t2)
    | (none, t2) => (none, t2)

/-- The offset basis of 64-bit FNV, the start value of `fnv.New64()`. -/
def offset64 : Nat := 14695981039346656037

/-- The prime of 64-bit FNV. -/
def prime64 : Nat := 1099511628211

/-- `(*sum64).Write` of `hash/fnv`: for each byte the `uint64` hash is
multiplied by the prime, with wrap-around, and then xor-ed with the byte. -/
def sum64Write : Nat → List Nat → Nat
  | hash, [] => hash
  | hash, c :: data => sum64Write (((hash * prime64) % 2 ^ 64) ^^^ (c % 256)) data

/-- `(*sum64).Sum(nil)` of `hash/fnv`: the eight bytes of the hash, the most
significant first. -/
def sum64Sum (hash : Nat) : List Nat :=
  [(hash >>> 56) % 256, (hash >>> 48) % 256, (hash >>> 40) % 256, (hash >>> 32) % 256,
   (hash >>> 24) % 256, (hash >>> 16) % 256, (hash >>> 8) % 256, hash % 256]

/-- The table of `encoding/hex`. -/
def hextable : List Char :=
  ['0', '1', '2', '3', '4', '5', '6', '7', '8', '9', 'a', 'b', 'c', 'd', 'e', 'f']

/-- `hex.EncodeToString`: two characters of the table for each byte, the high
half first. -/
def hexEncodeToString (src : List Nat) : String :=
  String.mk (src.flatMap fun v => [hextable.getD ((v % 256) >>> 4) '0', hextable.getD (v % 16) '0'])

/-- `uid`.  `randRead` is what `rand.Read` did: an error, or the sixteen bytes
it wrote.  `Write` of a hash never gives an error, which leaves the second
`if err != nil` without effect. -/
def uid (randRead : Except Error (List Nat)) : String × Option Error :=
  match randRead with
  | .error err => ("", some err)
  | .ok randBytes =>
    let a := sum64Write offset64 randBytes
    (hexEncodeToString (sum64Sum a), none)

/-- One entry of `APIErrors`: the error and the HTTP status. -/
structure APIError where
  err : Error
  Status : Nat
deriving DecidableEq, Repr

/-- `APIErrors`; the empty list stands for `nil`. -/
abbrev APIErrors := List APIError

def StatusBadRequest : Nat := 400
def StatusInternalServerError : Nat := 500

/-- Modelled from the spec: `singleError` is declared outside the sources at
hand.  By its name and its use it gives the list of the one error, with the
status. -/
def singleError (err : Error) (status : Nat) : APIErrors := [⟨err, status⟩]

/-- Modelled from the spec: `singleNewError` is declared outside the sources
at hand.  By its name and its use it gives the list of the one error made from
the text, with the status. -/
def singleNewError (msg : String) (status : Nat) : APIErrors := [⟨.New msg, status⟩]

/-- Modelled from the spec: `singleInternalError` is declared outside the
sources at hand.  By its name and its use it gives the list of the one error,
with the text around it and the status 500. -/
def singleInternalError (err : Error) (msg : String) : APIErrors :=
  [⟨.Wrap err msg, StatusInternalServerError⟩]

/-- Stands for `deployments.TektonStagingNamespace`, declared outside the
sources at hand. -/
def TektonStagingNamespace : String := "TektonStagingNamespace"

/-- A stage request as `Stage` reads it: the parameters `org` and `app` of the
URL, the error of `ioutil.ReadAll` on the body if there is one, and what
`json.Unmarshal` makes of the body. -/
structure StageRequest where
  org : String
  app : String
  readAll : Option Error
  unmarshal : Except Error App

/-- What `Stage` needs besides the traced calls: the bytes of `rand.Read` and
the two methods of `gitea.App`. -/
structure StageWorld where
  randRead : Except Error (List Nat)
  GitURL : App → String → String
  ImageURL : App → String → String

/-- `ApplicationsController.Stage`: the returned `APIErrors` and the calls. -/
def Stage (w : StageWorld) (env : StageEnv) (t : StageTrace) (r : StageRequest) :
    APIErrors × StageTrace :=
  let name := r.app
  match r.readAll with
  | some err => (singleError err StatusInternalServerError, t)
  | none =>
  match r.unmarshal with
  | .error err => (singleError err StatusInternalServerError, t)
  | .ok app =>
  if name ≠ app.Name then
    (singleNewError "name parameter from URL does not match name param in body"
      StatusBadRequest, t)
  else
  let (r1, t1) := stageCall env t .GetCluster
  match r1.err with
  | some err => (singleInternalError err "failed to get access to a kube client", t1)
  | none =>
  let (r2, t2) := stageCall env t1 .TektonNewForConfig
  match r2.err with
  | some err => (singleInternalError err "failed to get access to a tekton client", t2)
  | none =>
  match uid w.randRead with
  | (_, some err) => (singleInternalError err "failed to get access to a tekton client", t2)
  | (uid, none) =>
  let pr := newPipelineRun w.GitURL w.ImageURL uid app
  let (r3, t3) := stageCall env t2 (.PipelineRunsCreate TektonStagingNamespace pr)
  match r3.err with
  | some err => (singleInternalError err ("failed to create pipeline run: " ++ r3.out), t3)
  | none =>
  match createCertificates env t3 app with
  | (some err, t4) => (singleError err StatusInternalServerError, t4)
  | (none, t4) =>
  let (r5, t5) := stageCall env t4 (.ResponseWrite app)
  match r5.err with
  | some err => (singleError err StatusInternalServerError, t5)
  | none => ([], t5)

/-! ## Conditions and sample inputs used in the statements below -/

/-- All option readers succeeded, so that `Install` reaches its first `Deploy`. -/
def populated (w : InstallWorld) : Bool :=
  w.populateCLI.isNone &&
    match w.interactive with
    | .ok interactive => (if interactive then w.populateInteractive else w.populateDefault).isNone
    | .error _ => false

/-- The `system_domain` option is there and is not empty after
`fillInMissingSystemDomain`, so that `Install` reaches its loop. -/
def domainResolved (w : InstallWorld) : Bool :=
  match w.systemDomain with
  | .ok domain =>
    (fillInMissingSystemDomain w domain).err.isNone &&
      (fillInMissingSystemDomain w domain).domain != ""
  | .error _ => false

/-- A world in which the deployment of the workloads unit fails. -/
def workloadsFailWorld : InstallWorld :=
  { calmWorld with
    Deploy := fun d => if d = .Workloads then some (.New "workloads: timed out") else none }

/-- A world in which the removal of the tekton unit fails. -/
def tektonFailWorld : InstallWorld :=
  { calmWorld with
    Delete := fun d => if d = .Tekton then some (.New "tekton: still in use") else none }

/-- A world without a configured domain in which the third listing of the
traefik service shows an IP. -/
def ipWorld : InstallWorld :=
  { calmWorld with
    systemDomain := .ok ""
    services := fun n => if n < 2 then ⟨[], none⟩ else ⟨[⟨[⟨"10.0.0.7", ""⟩]⟩], none⟩ }

/-- A world without a configured domain in which the traefik service never
shows up. -/
def noIPWorld : InstallWorld :=
  { calmWorld with systemDomain := .ok "" }

/-- A cluster in which every call succeeds and every boolean answer is
`false`: the namespaces can be read, and none is both there and owned. -/
def quietEnv : Env := fun _ _ => ⟨none, false, ""⟩

/-- A cluster in which both namespaces are there and owned, deletion works,
and the workloads namespace is gone at the first look. -/
def ownedEnv : Env := fun _ c =>
  match c with
  | .NamespaceExistsAndOwned _ => ⟨none, true, ""⟩
  | .NamespacesGet _ => ⟨some (.Status StatusReasonNotFound "namespaces not found"), false, ""⟩
  | _ => ⟨none, false, ""⟩

/-- A pod in phase Running whose only init container is still running. -/
def initRunningPod : Pod where
  Name := "app-0"
  Status :=
    { Phase := PodRunning
      ContainerStatuses := []
      InitContainerStatuses := [⟨"init", ⟨none, some ⟨"2021-03-01T10:00:00Z"⟩, none⟩⟩] }

/-- A pod in phase Running with a running container and a finished init
container. -/
def readyPod : Pod where
  Name := "app-0"
  Status :=
    { Phase := PodRunning
      ContainerStatuses := [⟨"app", ⟨none, some ⟨"2021-03-01T10:00:05Z"⟩, none⟩⟩]
      InitContainerStatuses := [⟨"init", ⟨none, none, some ⟨0, "Completed"⟩⟩⟩] }

/-- A pod in phase Failed whose container has ended with exit code 1. -/
def failedPod : Pod where
  Name := "app-0"
  Status :=
    { Phase := PodFailed
      ContainerStatuses := [⟨"app", ⟨none, none, some ⟨1, "Error"⟩⟩⟩]
      InitContainerStatuses := [] }

/-- A cluster whose `Pods(...).Get` gives `pod` for every name. -/
def podCluster (pod : Pod) : Cluster :=
  ⟨⟨fun _ _ => .ok pod, fun _ _ => .ok [pod]⟩, ⟨"https://127.0.0.1:6443"⟩, none⟩

/-- The platforms on which `Load` was called, in call order. -/
def loadedPlatforms (ev : List PlatformEvent) : List Platform :=
  ev.filterMap fun e => match e with
    | .load p => some p
    | _ => none

/-- A clientset that finds no pod. -/
def emptyClientset : Clientset :=
  ⟨fun _ _ => .error (.Status "NotFound" "pods not found"), fun _ _ => .ok []⟩

/-- A handle as `&Cluster{}` gives it: no platform yet. -/
def freshCluster : Cluster := ⟨emptyClientset, ⟨""⟩, none⟩

/-- A world in which the cluster is a k3s cluster that minikube's test also
takes for its own, and every `Load` works. -/
def k3sWorld : ConnectWorld where
  BuildConfigFromFlags := fun config => .ok ⟨config⟩
  NewForConfig := fun _ => .ok emptyClientset
  Detect := fun p _ => p = .k3s || p = .minikube
  Load := fun _ _ => none

/-- A world in which no platform is detected and `Load` of the generic
platform fails. -/
def unknownWorld : ConnectWorld where
  BuildConfigFromFlags := fun config => .ok ⟨config⟩
  NewForConfig := fun _ => .ok emptyClientset
  Detect := fun _ _ => false
  Load := fun p _ => if p = .generic then some (.New "generic: no nodes") else none

/-- The creation of the local, self-signed certificate request. -/
def StageCall.isLocalRequest : StageCall → Bool
  | .DynamicCreate gvr _ _ => gvr = quarksSecretInstanceGVR
  | _ => false

/-- The creation of the production certificate request. -/
def StageCall.isProductionRequest : StageCall → Bool
  | .DynamicCreate gvr _ _ => gvr = certificateInstanceGVR
  | _ => false

/-- The production certificate request for the application `name` of the
namespace `ns` under the domain `domain`: a `Certificate` with that metadata
name and namespace, the common name `name.domain`, the secret name
`name-tls`, the common name as its one DNS name, and the production issuer. -/
def certificateObject (name ns domain : String) : Unstructured where
  Object :=
    [("apiVersion", .string "cert-manager.io/v1alpha2"),
     ("kind", .string "Certificate"),
     ("metadata", .object [("name", .string name), ("namespace", .string ns)]),
     ("spec", .object
       [("commonName", .string (name ++ "." ++ domain)),
        ("secretName", .string (name ++ "-tls")),
        ("dnsNames", .array [.string (name ++ "." ++ domain)]),
        ("issuerRef", .object
          [("name", .string "letsencrypt-production"), ("kind", .string "ClusterIssuer")])])]

/-- The local certificate request for the application `name` of the namespace
`ns` under the domain `domain`: a `QuarksSecret` with that metadata name and
namespace, asking the local signer for a certificate with the common name
`name.domain` and that name as its one alternative name, signed by `ca-cert`,
to be put into the secret `name-tls`. -/
def quarksSecretObject (name ns domain : String) : Unstructured where
  Object :=
    [("apiVersion", .string "quarks.cloudfoundry.org/v1alpha1"),
     ("kind", .string "QuarksSecret"),
     ("metadata", .object [("name", .string name), ("namespace", .string ns)]),
     ("spec", .object
       [("request", .object
          [("certificate", .object
             [("CAKeyRef", .object [("key", .string "private_key"), ("name", .string "ca-cert")]),
              ("CARef", .object [("key", .string "certificate"), ("name", .string "ca-cert")]),
              ("commonName", .string (name ++ "." ++ domain)),
              ("isCA", .bool false),
              ("alternativeNames", .array [.string (name ++ "." ++ domain)]),
              ("signerType", .string "local")])]),
        ("secretName", .string (name ++ "-tls")),
        ("type", .string "tls")])]

/-- A character that stands for itself inside a JSON string: no double quote,
no backslash, no control character. -/
def plainChar (c : Char) : Bool := c != '"' && c != '\\' && decide (0x20 ≤ c.toNat)

/-- A text of such characters only. -/
def plainText (s : String) : Bool := s.data.all plainChar

/-- An application whose name holds a backslash followed by `t`. -/
def tabApp : App := ⟨"a\\tb", "workspace", ⟨"main", "http://gitea-http.gitea:10080/workspace/a"⟩⟩

/-- An application whose name holds a double quote. -/
def quoteApp : App := ⟨"a\"b", "workspace", ⟨"main", "http://gitea-http.gitea:10080/workspace/a"⟩⟩

/-- A cluster in which `gitea.New()` gives `domain`, the creation of the
certificate object is answered with `createErr`, and every other call works. -/
def stageEnv (domain : String) (createErr : Option Error) : StageEnv := fun _ c =>
  match c with
  | .GiteaNew => ⟨none, false, domain⟩
  | .DynamicCreate _ _ _ => ⟨createErr, false, ""⟩
  | _ => ⟨none, false, ""⟩

/-- The answer of the API server to the creation of an object that is there
already. -/
def alreadyExistsError : Error :=
  .Status StatusReasonAlreadyExists "certificates.cert-manager.io \"foo\" already exists"

/-- An application to stage. -/
def fooApp : App := ⟨"foo", "workspace", ⟨"main", "http://gitea-http.gitea:10080/workspace/foo"⟩⟩

/-- A pod that is there but not running yet: phase Pending, its container
waiting for the image. -/
def pendingPod : Pod where
  Name := "app-0"
  Status :=
    { Phase := PodPending
      ContainerStatuses := [⟨"app", ⟨some ⟨"ContainerCreating", ""⟩, none, none⟩⟩]
      InitContainerStatuses := [] }

/-- A cluster that shows the same pending pod at every observation. -/
def pendingCluster : Nat → Cluster := fun _ => podCluster pendingPod

/-- A cluster that lists three pods at every observation: `web-0` and `web-2`
are running, `web-1` is pending. -/
def webCluster : Nat → Cluster := fun _ =>
  ⟨⟨fun _ name => if name = "web-0" then .ok { readyPod with Name := "web-0" }
      else .ok { pendingPod with Name := name },
    fun _ _ => .ok [{ readyPod with Name := "web-0" }, { pendingPod with Name := "web-1" },
      { readyPod with Name := "web-2" }]⟩,
   ⟨"https://127.0.0.1:6443"⟩, none⟩

/-- A cluster in which the workloads namespace is not there, its creation is
refused, and every other call works. -/
def createRefusedEnv : Env := fun _ c =>
  match c with
  | .NamespacesGet _ => ⟨some (.Status StatusReasonNotFound "namespaces not found"), false, ""⟩
  | .NamespacesCreate _ _ => ⟨some (.Status "Forbidden" "namespaces is forbidden"), false, ""⟩
  | _ => ⟨none, false, ""⟩

/-- A cluster in which the workloads namespace is not there and every call
that creates or waits works. -/
def cleanEnv : Env := fun _ c =>
  match c with
  | .NamespacesGet _ => ⟨some (.Status StatusReasonNotFound "namespaces not found"), false, ""⟩
  | _ => ⟨none, false, ""⟩

/-- The calls of a full run of `createWorkloadsNamespace`, in order: the
namespace, its label, the two secrets, the service account. -/
def workloadsSetupCalls : List Call :=
  [.NamespacesCreate WorkloadsDeploymentID
      [("quarks.cloudfoundry.org/monitored", "quarks-secret"),
       (EpinioDeploymentLabelKey, EpinioDeploymentLabelValue)],
   .LabelNamespace WorkloadsDeploymentID EpinioDeploymentLabelKey EpinioDeploymentLabelValue,
   .SecretsCreate WorkloadsDeploymentID Workloads.giteaCredsSecret,
   .SecretsCreate WorkloadsDeploymentID Workloads.registryCredsSecret,
   .ServiceAccountsCreate WorkloadsDeploymentID Workloads.workloadsServiceAccount]

/-- The 64-bit FNV-1 hash in the words of its definition: start from the
offset basis; for each byte, multiply by the prime modulo `2 ^ 64`, then xor
with the byte. -/
def fnv1Hash64 (bytes : List Nat) : Nat :=
  bytes.foldl (fun hash b => ((hash * prime64) % 2 ^ 64) ^^^ (b % 256)) offset64

/-- The sixteen hexadecimal digits of a 64-bit number, the most significant
first, in lowercase. -/
def hexDigits64 (n : Nat) : List Char :=
  (List.range 16).map fun i => hextable.getD ((n / 16 ^ (15 - i)) % 16) '0'

/-- The read of the workloads namespace by name. -/
def workloadsGet : Call := .NamespacesGet WorkloadsDeploymentID

/-- A cluster in which the workloads namespace is owned and its deletion is
accepted, but the namespace never goes away: every read of it succeeds. -/
def stuckEnv : Env := fun _ c =>
  match c with
  | .NamespaceExistsAndOwned _ => ⟨none, true, ""⟩
  | _ => ⟨none, false, ""⟩

/-- A cluster in which the workloads namespace is still there at the first two
reads and gone at the third. -/
def slowGoneEnv : Env := fun t c =>
  match c with
  | .NamespacesGet _ =>
    if t.count workloadsGet < 2 then ⟨none, false, ""⟩
    else ⟨some (.Status StatusReasonNotFound "namespaces not found"), false, ""⟩
  | _ => ⟨none, false, ""⟩

/-- A stage request for `bar` in the URL whose body names the application
`foo`. -/
def mismatchRequest : StageRequest := ⟨"workspace", "bar", none, .ok fooApp⟩

/-- A world for staging with sixteen bytes from `rand.Read`. -/
def stageWorld : StageWorld where
  randRead := .ok [0, 1, 2, 3, 4, 5, 6, 7, 8, 9, 10, 11, 12, 13, 14, 15]
  GitURL := fun a s => s ++ "/" ++ a.Org ++ "/" ++ a.Name
  ImageURL := fun a s => s ++ "/" ++ a.Org ++ "-" ++ a.Name

/-! ## Lemmas on the two loops and on `Install` -/


/-- When every `Deploy` succeeds the loop of `Install` goes through the whole list. -/
theorem installLoop_ok (w : InstallWorld) :
    ∀ (ds : List Deployment) (ev : List Event), (∀ d ∈ ds, w.Deploy d = none) →
      installLoop w ds ev = (none, ev ++ ds.map Event.deploy) := by
  intro ds
  induction ds with
  | nil => intro ev _; simp [installLoop]
  | cons d ds ih =>
    intro ev h
    have hd : w.Deploy d = none := h d (List.mem_cons_self _ _)
    have hds : ∀ x ∈ ds, w.Deploy x = none := fun x hx => h x (List.mem_cons_of_mem _ hx)
    simp [installLoop, InstallDeployment, hd, ih _ hds]

/-- The loop of `Install` ends at the first unit whose `Deploy` fails, with its error. -/
theorem installLoop_fail (w : InstallWorld) (k : Deployment) (back : List Deployment)
    (e : Error) (hk : w.Deploy k = some e) :
    ∀ (front : List Deployment) (ev : List Event), (∀ d ∈ front, w.Deploy d = none) →
      installLoop w (front ++ k :: back) ev = (some e, ev ++ (front ++ [k]).map Event.deploy) := by
  intro front
  induction front with
  | nil => intro ev _; simp [installLoop, InstallDeployment, hk]
  | cons d ds ih =>
    intro ev h
    have hd : w.Deploy d = none := h d (List.mem_cons_self _ _)
    have hds : ∀ x ∈ ds, w.Deploy x = none := fun x hx => h x (List.mem_cons_of_mem _ hx)
    simp [installLoop, InstallDeployment, hd, ih _ hds]

/-- Either every unit succeeds, or the list splits at a first unit that fails. -/
theorem first_failure_split (f : Deployment → Option Error) :
    ∀ ds : List Deployment, (∀ d ∈ ds, f d = none) ∨
      ∃ front k back e, ds = front ++ k :: back ∧ (∀ d ∈ front, f d = none) ∧ f k = some e := by
  intro ds
  induction ds with
  | nil => left; simp
  | cons d ds ih =>
    cases hd : f d with
    | some e => right; exact ⟨[], d, ds, e, by simp, by simp, hd⟩
    | none =>
      rcases ih with h | ⟨front, k, back, e, h1, h2, h3⟩
      · left
        intro x hx
        rcases List.mem_cons.1 hx with rfl | hx
        · exact hd
        · exact h x hx
      · right
        refine ⟨d :: front, k, back, e, by simp [h1], ?_, h3⟩
        intro x hx
        rcases List.mem_cons.1 hx with rfl | hx
        · exact hd
        · exact h2 x hx

/-- `deployedUnits` goes through `++`. -/
theorem deployedUnits_append (a b : List Event) :
    deployedUnits (a ++ b) = deployedUnits a ++ deployedUnits b := by
  simp [deployedUnits, List.filterMap_append]

/-- `deployedUnits` on a first event. -/
theorem deployedUnits_cons (e : Event) (l : List Event) :
    deployedUnits (e :: l) =
      (match e with
        | .deploy d => [d]
        | _ => []) ++ deployedUnits l := by
  cases e <;> simp [deployedUnits, List.filterMap_cons]

/-- `deployedUnits` of no event. -/
theorem deployedUnits_nil : deployedUnits [] = [] := rfl

/-- The units of a run of `deploy` events. -/
theorem deployedUnits_map (l : List Deployment) : deployedUnits (l.map Event.deploy) = l := by
  induction l with
  | nil => rfl
  | cons d ds ih => simp [deployedUnits_cons, ih]

/-- Listings of the traefik service deploy nothing. -/
theorem deployedUnits_replicate (n : Nat) : deployedUnits (List.replicate n Event.fetchIP) = [] := by
  induction n with
  | zero => rfl
  | succ n ih => simp [List.replicate_succ, deployedUnits_cons, ih]

/-- The two ways the loop of `Install` can end. -/
theorem installLoop_char (w : InstallWorld) (ds : List Deployment) (ev : List Event) :
    (installLoop w ds ev = (none, ev ++ ds.map Event.deploy) ∧ ∀ d ∈ ds, w.Deploy d = none) ∨
    ∃ front k back e, ds = front ++ k :: back ∧ (∀ d ∈ front, w.Deploy d = none) ∧
      w.Deploy k = some e ∧
      installLoop w ds ev = (some e, ev ++ (front ++ [k]).map Event.deploy) := by
  rcases first_failure_split w.Deploy ds with h | ⟨front, k, back, e, h1, h2, h3⟩
  · exact Or.inl ⟨installLoop_ok w ds ev h, h⟩
  · right
    refine ⟨front, k, back, e, h1, h2, h3, ?_⟩
    rw [h1]
    exact installLoop_fail w k back e h3 front ev h2

/-- The shapes `Install` can end in. -/
theorem Install_shape (w : InstallWorld) :
    (deployedUnits (Install w).events = [] ∧ (Install w).err ≠ none ∧ populated w = false) ∨
    (deployedUnits (Install w).events = [Deployment.Traefik] ∧
      ∃ e, w.Deploy .Traefik = some e ∧ (Install w).err = some e) ∨
    (deployedUnits (Install w).events = [Deployment.Traefik] ∧
      w.Deploy .Traefik = none ∧ (Install w).err ≠ none ∧ domainResolved w = false) ∨
    (w.Deploy .Traefik = none ∧ (∀ d ∈ installRest, w.Deploy d = none) ∧
      deployedUnits (Install w).events = installUnits ∧ (Install w).err = none) ∨
    (w.Deploy .Traefik = none ∧ ∃ front k back e, installRest = front ++ k :: back ∧
      (∀ d ∈ front, w.Deploy d = none) ∧ w.Deploy k = some e ∧
      deployedUnits (Install w).events = Deployment.Traefik :: (front ++ [k]) ∧
      (Install w).err = some e) := by
  unfold Install
  cases h1 : w.populateCLI with
  | some e => left; simp [deployedUnits_cons, deployedUnits_nil, populated, h1]
  | none =>
  cases h2 : w.interactive with
  | error e => left; simp [deployedUnits_cons, deployedUnits_nil, populated, h1, h2]
  | ok interactive =>
  cases h3 : (if interactive then w.populateInteractive else w.populateDefault) with
  | some e => left; simp [h3, deployedUnits_cons, deployedUnits_nil, populated, h1, h2]
  | none =>
  cases h4 : w.Deploy .Traefik with
  | some e =>
    right; left
    simp [h3, InstallDeployment, installFirst, h4, deployedUnits_cons, deployedUnits_nil]
  | none =>
  cases h5 : w.systemDomain with
  | error e =>
    right; right; left
    simp [h3, InstallDeployment, installFirst, h4, deployedUnits_cons, deployedUnits_nil,
      domainResolved, h5]
  | ok domain =>
  cases h6 : (fillInMissingSystemDomain w domain).err with
  | some e =>
    right; right; left
    simp [h3, InstallDeployment, installFirst, h4, h6, deployedUnits_append,
      deployedUnits_replicate, deployedUnits_cons, deployedUnits_nil, domainResolved, h5]
  | none =>
  by_cases h7 : (fillInMissingSystemDomain w domain).domain = ""
  · right; right; left
    simp [h3, InstallDeployment, installFirst, h4, h6, h7, deployedUnits_append,
      deployedUnits_replicate, deployedUnits_cons, deployedUnits_nil, domainResolved, h5]
  · right; right; right
    rcases installLoop_char w installRest
      ([Event.ui "Epinio installing..."] ++ [Event.deploy Deployment.Traefik] ++
        List.replicate (fillInMissingSystemDomain w domain).polls Event.fetchIP ++
        [Event.ui ("Created system_domain: " ++ (fillInMissingSystemDomain w domain).domain)])
      with ⟨hl, hall⟩ | ⟨front, k, back, e, hs, hf, hk, hl⟩
    · left
      simp only [h3, InstallDeployment, installFirst, h4, h6, h7, if_false]
      rw [hl]
      refine ⟨trivial, hall, ?_, rfl⟩
      simp [deployedUnits_append, deployedUnits_replicate, deployedUnits_map,
        installUnits, installFirst, deployedUnits_cons, deployedUnits_nil]
    · right
      simp only [h3, InstallDeployment, installFirst, h4, h6, h7, if_false]
      rw [hl]
      refine ⟨trivial, front, k, back, e, hs, hf, hk, ?_, rfl⟩
      simp [deployedUnits_append, deployedUnits_replicate, deployedUnits_map,
        deployedUnits_cons, deployedUnits_nil]

/-- When every `Delete` succeeds the loop of `Uninstall` goes through the whole list. -/
theorem uninstallLoop_ok (w : InstallWorld) :
    ∀ (ds : List Deployment) (ev : List Event), (∀ d ∈ ds, w.Delete d = none) →
      uninstallLoop w ds ev = (none, ev ++ ds.map Event.delete) := by
  intro ds
  induction ds with
  | nil => intro ev _; simp [uninstallLoop]
  | cons d ds ih =>
    intro ev h
    have hd : w.Delete d = none := h d (List.mem_cons_self _ _)
    have hds : ∀ x ∈ ds, w.Delete x = none := fun x hx => h x (List.mem_cons_of_mem _ hx)
    simp [uninstallLoop, UninstallDeployment, hd, ih _ hds]

/-- The loop of `Uninstall` ends at the first unit whose `Delete` fails, with its error. -/
theorem uninstallLoop_fail (w : InstallWorld) (k : Deployment) (back : List Deployment)
    (e : Error) (hk : w.Delete k = some e) :
    ∀ (front : List Deployment) (ev : List Event), (∀ d ∈ front, w.Delete d = none) →
      uninstallLoop w (front ++ k :: back) ev =
        (some e, ev ++ (front ++ [k]).map Event.delete) := by
  intro front
  induction front with
  | nil => intro ev _; simp [uninstallLoop, UninstallDeployment, hk]
  | cons d ds ih =>
    intro ev h
    have hd : w.Delete d = none := h d (List.mem_cons_self _ _)
    have hds : ∀ x ∈ ds, w.Delete x = none := fun x hx => h x (List.mem_cons_of_mem _ hx)
    simp [uninstallLoop, UninstallDeployment, hd, ih _ hds]

/-- `deletedUnits` on a first event. -/
theorem deletedUnits_cons (e : Event) (l : List Event) :
    deletedUnits (e :: l) =
      (match e with
        | .delete d => [d]
        | _ => []) ++ deletedUnits l := by
  cases e <;> simp [deletedUnits, List.filterMap_cons]

/-- `deletedUnits` of no event. -/
theorem deletedUnits_nil : deletedUnits [] = [] := rfl

/-- `deletedUnits` goes through `++`. -/
theorem deletedUnits_append (a b : List Event) :
    deletedUnits (a ++ b) = deletedUnits a ++ deletedUnits b := by
  simp [deletedUnits, List.filterMap_append]

/-- The units of a run of `delete` events. -/
theorem deletedUnits_map (l : List Deployment) : deletedUnits (l.map Event.delete) = l := by
  induction l with
  | nil => rfl
  | cons d ds ih => simp [deletedUnits_cons, ih]

/-- The two ways `Uninstall` can end. -/
theorem Uninstall_shape (w : InstallWorld) :
    ((∀ d ∈ uninstallUnits, w.Delete d = none) ∧ (Uninstall w).1 = none ∧
      deletedUnits (Uninstall w).2 = uninstallUnits) ∨
    ∃ front k back e, uninstallUnits = front ++ k :: back ∧
      (∀ d ∈ front, w.Delete d = none) ∧ w.Delete k = some e ∧
      (Uninstall w).1 = some e ∧ deletedUnits (Uninstall w).2 = front ++ [k] := by
  rcases first_failure_split w.Delete uninstallUnits with h | ⟨front, k, back, e, h1, h2, h3⟩
  · left
    refine ⟨h, ?_, ?_⟩
    · simp [Uninstall, uninstallLoop_ok w uninstallUnits _ h]
    · simp [Uninstall, uninstallLoop_ok w uninstallUnits _ h, deletedUnits_append,
        deletedUnits_map, deletedUnits_cons, deletedUnits_nil]
  · right
    refine ⟨front, k, back, e, h1, h2, h3, ?_, ?_⟩
    · unfold Uninstall
      rw [h1, uninstallLoop_fail w k back e h3 front _ h2]
    · unfold Uninstall
      rw [h1, uninstallLoop_fail w k back e h3 front _ h2]
      simp [deletedUnits_append, deletedUnits_map, deletedUnits_cons, deletedUnits_nil]

/-- Two splits of a list at elements told apart by `f` agree. -/
theorem first_failure_unique (f : Deployment → Option Error)
    {front₁ front₂ back₁ back₂ : List Deployment} {k₁ k₂ : Deployment} {e₁ e₂ : Error}
    (h : front₁ ++ k₁ :: back₁ = front₂ ++ k₂ :: back₂)
    (h₁ : ∀ d ∈ front₁, f d = none) (hk₁ : f k₁ = some e₁)
    (h₂ : ∀ d ∈ front₂, f d = none) (hk₂ : f k₂ = some e₂) :
    front₁ = front₂ ∧ k₁ = k₂ := by
  induction front₁ generalizing front₂ with
  | nil =>
    cases front₂ with
    | nil => simp at h; exact ⟨rfl, h.1⟩
    | cons d ds =>
      simp at h
      have := h₂ d (List.mem_cons_self _ _)
      rw [← h.1, hk₁] at this
      cases this
  | cons d ds ih =>
    cases front₂ with
    | nil =>
      simp at h
      have := h₁ d (List.mem_cons_self _ _)
      rw [h.1, hk₂] at this
      cases this
    | cons d₂ ds₂ =>
      simp at h
      have := ih h.2 (fun x hx => h₁ x (List.mem_cons_of_mem _ hx))
        (fun x hx => h₂ x (List.mem_cons_of_mem _ hx))
      exact ⟨by rw [h.1, this.1], this.2⟩


/-- The message about the created domain is never the final message. -/
theorem created_ne_installed (d : String) :
    "Created system_domain: " ++ d ≠ "Epinio installed." := by
  intro h
  have h2 := congrArg String.data h
  rw [String.data_append] at h2
  have h3 := congrArg List.head? h2
  simp at h3


/-- A failed `fetchIP` leaves `ip` as it was and counts one listing. -/
theorem fetchIP_fail (w : InstallWorld) (s : FetchState) (e : Error)
    (h : (fetchIP w s).1 = some e) : (fetchIP w s).2 = ⟨s.ip, s.calls + 1⟩ := by
  unfold fetchIP at h ⊢
  cases hI : (w.services s.calls).Items with
  | nil => simp [hI]
  | cons item0 rest =>
    cases hE : (w.services s.calls).err with
    | some err => simp [hI, hE]
    | none =>
      cases hG : item0.Ingress with
      | nil => simp [hI, hE, hG]
      | cons ingress0 more => simp [hI, hE, hG] at h

/-- `fetchIP` on a service with an ingress entry reads that entry. -/
theorem fetchIP_ok (w : InstallWorld) (ip : String) (c : Nat) (item : Service)
    (rest : List Service) (ing : LoadBalancerIngress) (ings : List LoadBalancerIngress)
    (hs : w.services c = ⟨item :: rest, none⟩) (hi : item.Ingress = ing :: ings) :
    fetchIP w ⟨ip, c⟩ = (none, ⟨ing.IP, c + 1⟩) := by
  simp [fetchIP, hs, hi]

/-- The poll succeeds at the first listing that gives an IP. -/
theorem run_success (w : InstallWorld) (t : String) (ip : String) (s2 : FetchState) :
    ∀ (n fuel c : Nat), n < fuel →
      (∀ m, m < n → (fetchIP w ⟨ip, c + m⟩).1 ≠ none) →
      fetchIP w ⟨ip, c + n⟩ = (none, s2) →
      RunToSuccessWithTimeout (fetchIP w) t fuel ⟨ip, c⟩ = (none, s2) := by
  intro n
  induction n with
  | zero =>
    intro fuel c hlt _ hok
    cases fuel with
    | zero => cases hlt
    | succ f =>
      unfold RunToSuccessWithTimeout
      have hok2 : fetchIP w ⟨ip, c⟩ = (none, s2) := by simpa using hok
      rw [hok2]
  | succ n ih =>
    intro fuel c hlt hfail hok
    cases fuel with
    | zero => cases hlt
    | succ f =>
      unfold RunToSuccessWithTimeout
      have h0 := hfail 0 (Nat.succ_pos n)
      cases hf : fetchIP w ⟨ip, c⟩ with
      | mk r s1 =>
        cases r with
        | none =>
          have : (fetchIP w ⟨ip, c + 0⟩).1 = none := by simp [hf]
          exact absurd this h0
        | some e1 =>
          have h1 := fetchIP_fail w ⟨ip, c⟩ e1 (by rw [hf])
          rw [hf] at h1
          simp only at h1
          subst h1
          simp only
          apply ih f (c + 1) (Nat.lt_of_succ_lt_succ hlt)
          · intro m hm
            have := hfail (m + 1) (Nat.succ_lt_succ hm)
            rwa [show c + (m + 1) = c + 1 + m by omega] at this
          · rwa [show c + (n + 1) = c + 1 + n by omega] at hok


/-- What `fillInMissingSystemDomain` does when the poll gives no IP. -/
theorem fill_no_ip (w : InstallWorld)
    (h : (RunToSuccessWithTimeout (fetchIP w) w.timeout w.attempts ⟨"", 0⟩).1 ≠ none ∨
      (RunToSuccessWithTimeout (fetchIP w) w.timeout w.attempts ⟨"", 0⟩).2.ip = "") :
    (fillInMissingSystemDomain w "").domain = "" := by
  unfold fillInMissingSystemDomain
  cases hr : RunToSuccessWithTimeout (fetchIP w) w.timeout w.attempts ⟨"", 0⟩ with
  | mk r s =>
    rw [hr] at h
    cases r with
    | some e =>
      by_cases hc : stringsContains e.Error "Timed out after" = true <;> simp [hc]
    | none =>
      have hip : s.ip = "" := by simpa using h
      simp [hip]

/-- The domain `Install` ends with, and what a success means for it. -/
theorem Install_domain (w : InstallWorld) :
    ((Install w).domain = none ∧ (Install w).err ≠ none) ∨
    ∃ dom, w.systemDomain = .ok dom ∧
      (Install w).domain = some (fillInMissingSystemDomain w dom).domain ∧
      ((Install w).err = none →
        (fillInMissingSystemDomain w dom).err = none ∧
        (fillInMissingSystemDomain w dom).domain ≠ "") := by
  unfold Install
  cases h1 : w.populateCLI with
  | some e => left; simp
  | none =>
  cases h2 : w.interactive with
  | error e => left; simp
  | ok interactive =>
  cases h3 : (if interactive then w.populateInteractive else w.populateDefault) with
  | some e => left; simp [h3]
  | none =>
  cases h4 : w.Deploy .Traefik with
  | some e => left; simp [h3, InstallDeployment, installFirst, h4]
  | none =>
  cases h5 : w.systemDomain with
  | error e => left; simp [h3, InstallDeployment, installFirst, h4]
  | ok domain =>
  right
  refine ⟨domain, rfl, ?_⟩
  cases h6 : (fillInMissingSystemDomain w domain).err with
  | some e => simp [h3, InstallDeployment, installFirst, h4, h6]
  | none =>
  by_cases h7 : (fillInMissingSystemDomain w domain).domain = ""
  · simp [h3, InstallDeployment, installFirst, h4, h6, h7]
  · simp only [h3, InstallDeployment, installFirst, h4, h6, h7, if_false]
    cases hl : installLoop w installRest
      ([Event.ui "Epinio installing..."] ++ [Event.deploy Deployment.Traefik] ++
        List.replicate (fillInMissingSystemDomain w domain).polls Event.fetchIP ++
        [Event.ui ("Created system_domain: " ++ (fillInMissingSystemDomain w domain).domain)])
      with
    | mk r ev4 =>
      cases r <;> simp [h7]

/-- `Install` shows "Epinio installed." exactly when it returns no error. -/
theorem Install_installed_iff (w : InstallWorld) :
    Event.ui "Epinio installed." ∈ (Install w).events ↔ (Install w).err = none := by
  unfold Install
  cases h1 : w.populateCLI with
  | some e => simp
  | none =>
  cases h2 : w.interactive with
  | error e => simp
  | ok interactive =>
  cases h3 : (if interactive then w.populateInteractive else w.populateDefault) with
  | some e => simp [h3]
  | none =>
  cases h4 : w.Deploy .Traefik with
  | some e => simp [h3, InstallDeployment, installFirst, h4]
  | none =>
  cases h5 : w.systemDomain with
  | error e => simp [h3, InstallDeployment, installFirst, h4]
  | ok domain =>
  cases h6 : (fillInMissingSystemDomain w domain).err with
  | some e => simp [h3, InstallDeployment, installFirst, h4, h6, List.mem_replicate]
  | none =>
  by_cases h7 : (fillInMissingSystemDomain w domain).domain = ""
  · simp [h3, InstallDeployment, installFirst, h4, h6, h7, List.mem_replicate]
  · simp only [h3, InstallDeployment, installFirst, h4, h6, h7, if_false]
    rcases installLoop_char w installRest
      ([Event.ui "Epinio installing..."] ++ [Event.deploy Deployment.Traefik] ++
        List.replicate (fillInMissingSystemDomain w domain).polls Event.fetchIP ++
        [Event.ui ("Created system_domain: " ++ (fillInMissingSystemDomain w domain).domain)])
      with ⟨hl, _⟩ | ⟨front, k, back, e, _, _, _, hl⟩
    · rw [hl]
      simp
    · rw [hl]
      have := created_ne_installed (fillInMissingSystemDomain w domain).domain
      simp [List.mem_replicate, this.symm]


/-! ## Lemmas on the certificate documents -/

/-- Inside a string, characters that are no quote, no backslash and no control
character are taken as they are. -/
theorem foldl_step_plain (target : Target) (stack : List Frame) :
    ∀ (s acc : List Char), s.all plainChar = true →
      s.foldl step ⟨.inString acc none .plain target, stack⟩ =
        ⟨.inString (acc ++ s) none .plain target, stack⟩ := by
  intro s
  induction s with
  | nil => intro acc _; simp
  | cons c s ih =>
    intro acc h
    simp only [List.all_cons, Bool.and_eq_true] at h
    obtain ⟨hc, hs⟩ := h
    simp only [plainChar, Bool.and_eq_true, bne_iff_ne, ne_eq, decide_eq_true_eq] at hc
    obtain ⟨⟨h1, h2⟩, h3⟩ := hc
    have hstep : step ⟨.inString acc none .plain target, stack⟩ c =
        ⟨.inString (acc ++ [c]) none .plain target, stack⟩ := by
      simp [step, stepString, h1, h2, flush, Nat.not_lt.mpr h3]
    rw [List.foldl_cons, hstep, ih _ hs]
    simp

/-- The text of the production document, cut at its seven arguments. -/
theorem productionCertificateData_data (app : App) (d : String) :
    (productionCertificateData app d).data =
      ("\x7b\n".data ++ ("\t\t\"apiVersion\": \"cert-manager.io/v1alpha2\",\n".data ++
      ("\t\t\"kind\": \"Certificate\",\n".data ++ ("\t\t\"metadata\": \x7b\n".data ++
      ("\t\t\t\"name\": \"".data ++ (app.Name.data ++ ("\",\n".data ++
      ("\t\t\t\"namespace\": \"".data ++ (app.Org.data ++ ("\"\n".data ++ ("\t\t\x7d,\n".data ++
      ("\t\t\"spec\": \x7b\n".data ++ ("\t\t\t\"commonName\" : \"".data ++ (app.Name.data ++
      ('.' :: (d.data ++ ("\",\n".data ++ ("\t\t\t\"secretName\" : \"".data ++ (app.Name.data ++
      ("-tls\",\n".data ++ ("\t\t\t\"dnsNames\": [\n".data ++ ("\t\t\t\t\"".data ++
      (app.Name.data ++ ('.' :: (d.data ++ ("\"\n".data ++ ("\t\t\t],\n".data ++
      ("\t\t\t\"issuerRef\" : \x7b\n".data ++
      ("\t\t\t\t\"name\" : \"letsencrypt-production\",\n".data ++
      ("\t\t\t\t\"kind\" : \"ClusterIssuer\"\n".data ++ ("\t\t\t\x7d\n".data ++
      ("\t\t\x7d\n".data ++ "        \x7d".data)))))))))))))))))))))))))))))))) := rfl

/-- The text of the local document, cut at its seven arguments. -/
theorem localCertificateData_data (app : App) (d : String) :
    (localCertificateData app d).data =
      ("\x7b\n".data ++ ("\t\t\"apiVersion\": \"quarks.cloudfoundry.org/v1alpha1\",\n".data ++
      ("\t\t\"kind\": \"QuarksSecret\",\n".data ++ ("\t\t\"metadata\": \x7b\n".data ++
      ("\t\t\t\"name\": \"".data ++ (app.Name.data ++ ("\",\n".data ++
      ("\t\t\t\"namespace\": \"".data ++ (app.Org.data ++ ("\"\n".data ++ ("\t\t\x7d,\n".data ++
      ("\t\t\"spec\": \x7b\n".data ++ ("\t\t\t\"request\" : \x7b\n".data ++
      ("\t\t\t\t\"certificate\" : \x7b\n".data ++ ("\t\t\t\t\t\"CAKeyRef\" : \x7b\n".data ++
      ("\t\t\t\t\t\t\"key\" : \"private_key\",\n".data ++
      ("\t\t\t\t\t\t\"name\" : \"ca-cert\"\n".data ++ ("\t\t\t\t\t\x7d,\n".data ++
      ("\t\t\t\t\t\"CARef\" : \x7b\n".data ++ ("\t\t\t\t\t\t\"key\" : \"certificate\",\n".data ++
      ("\t\t\t\t\t\t\"name\" : \"ca-cert\"\n".data ++ ("\t\t\t\t\t\x7d,\n".data ++
      ("\t\t\t\t\t\"commonName\" : \"".data ++ (app.Name.data ++ ('.' :: (d.data ++
      ("\",\n".data ++ ("\t\t\t\t\t\"isCA\" : false,\n".data ++
      ("\t\t\t\t\t\"alternativeNames\": [\n".data ++ ("\t\t\t\t\t\t\"".data ++ (app.Name.data ++
      ('.' :: (d.data ++ ("\"\n".data ++ ("\t\t\t\t\t],\n".data ++
      ("\t\t\t\t\t\"signerType\" : \"local\"\n".data ++ ("\t\t\t\t\x7d\n".data ++
      ("\t\t\t\x7d,\n".data ++ ("\t\t\t\"secretName\" : \"".data ++ (app.Name.data ++
      ("-tls\",\n".data ++ ("\t\t\t\"type\" : \"tls\"\n".data ++ ("\t\t\x7d\n".data ++
      "        \x7d".data))))))))))))))))))))))))))))))))))))))))))) := rfl

/-- The characters of `name ++ "." ++ domain`. -/
theorem dotted_eq (a d : String) : a ++ "." ++ d = String.mk (a.data ++ '.' :: d.data) := by
  apply String.ext
  simp [String.data_append]

/-- For plain texts, the reader finds the production certificate request in
the production document. -/
theorem readJson_productionCertificateData (app : App) (d : String)
    (hName : plainText app.Name = true) (hOrg : plainText app.Org = true)
    (hDomain : plainText d = true) :
    readJson (productionCertificateData app d).data =
      some (.object (certificateObject app.Name app.Org d).Object) := by
  rw [productionCertificateData_data]
  unfold readJson
  simp +decide only [List.foldl_append, List.foldl_cons, List.foldl_nil, step, stepValue,
    stepString, stepAfter, complete, setMember, flush, isSpace, isDigit,
    foldl_step_plain _ _ _ _ hName, foldl_step_plain _ _ _ _ hOrg,
    foldl_step_plain _ _ _ _ hDomain,
    Bool.or_self, Bool.false_eq_true, if_false, if_true, ite_true, ite_false, List.nil_append,
    List.append_assoc, List.cons_append]
  rw [certificateObject, dotted_eq]
  rfl

/-- For plain texts, the reader finds the local certificate request in the
local document. -/
theorem readJson_localCertificateData (app : App) (d : String)
    (hName : plainText app.Name = true) (hOrg : plainText app.Org = true)
    (hDomain : plainText d = true) :
    readJson (localCertificateData app d).data =
      some (.object (quarksSecretObject app.Name app.Org d).Object) := by
  rw [localCertificateData_data]
  unfold readJson
  simp +decide only [List.foldl_append, List.foldl_cons, List.foldl_nil, step, stepValue,
    stepString, stepAfter, complete, setMember, flush, isSpace, isDigit,
    foldl_step_plain _ _ _ _ hName, foldl_step_plain _ _ _ _ hOrg,
    foldl_step_plain _ _ _ _ hDomain,
    Bool.or_self, Bool.false_eq_true, if_false, if_true, ite_true, ite_false, List.nil_append,
    List.append_assoc, List.cons_append]
  rw [quarksSecretObject, dotted_eq]
  rfl

/-- For plain texts, decoding the production document gives the production
certificate request. -/
theorem Decode_productionCertificateData (app : App) (d : String)
    (hName : plainText app.Name = true) (hOrg : plainText app.Org = true)
    (hDomain : plainText d = true) :
    decoderUnstructured.Decode (productionCertificateData app d) =
      .ok (certificateObject app.Name app.Org d) := by
  unfold decoderUnstructured.Decode jsonUnmarshal
  rw [readJson_productionCertificateData app d hName hOrg hDomain]
  have hk : Unstructured.GroupVersionKindKind ⟨(certificateObject app.Name app.Org d).Object⟩ =
      "Certificate" := rfl
  simp only [hk]
  rfl

/-- For plain texts, decoding the local document gives the local certificate
request. -/
theorem Decode_localCertificateData (app : App) (d : String)
    (hName : plainText app.Name = true) (hOrg : plainText app.Org = true)
    (hDomain : plainText d = true) :
    decoderUnstructured.Decode (localCertificateData app d) =
      .ok (quarksSecretObject app.Name app.Org d) := by
  unfold decoderUnstructured.Decode jsonUnmarshal
  rw [readJson_localCertificateData app d hName hOrg hDomain]
  have hk : Unstructured.GroupVersionKindKind ⟨(quarksSecretObject app.Name app.Org d).Object⟩ =
      "QuarksSecret" := rfl
  simp only [hk]
  rfl

/-! ## Claims on `Install` and `Uninstall` -/

/-- C1, as stated, fails: in a world where every step works, the units
`Uninstall` deletes are not the reverse of the units `Install` deploys. -/
theorem Uninstall_order_not_reverse_of_Install :
    (Install calmWorld).err = none ∧ (Uninstall calmWorld).1 = none ∧
    deletedUnits (Uninstall calmWorld).2 ≠ (deployedUnits (Install calmWorld).events).reverse := by
  decide

/-- C1, amended: when both runs succeed, `Install` deploys Traefik, Epinio,
Quarks, Workloads, Gitea, Registry, Tekton, ServiceCatalog, CertManager in this
order, `Uninstall` deletes the units of its own fixed list in that list's
order, and every unit `Install` deployed is deleted exactly once. -/
theorem Uninstall_deletes_every_installed_unit_once (w : InstallWorld)
    (hdeploy : (Install w).err = none) (hdelete : (Uninstall w).1 = none) :
    deployedUnits (Install w).events =
      [.Traefik, .Epinio, .Quarks, .Workloads, .Gitea, .Registry, .Tekton, .ServiceCatalog,
       .CertManager] ∧
    deletedUnits (Uninstall w).2 =
      [.Minibroker, .GoogleServices, .ServiceCatalog, .Workloads, .Tekton, .Registry, .Gitea,
       .Quarks, .Traefik, .CertManager, .Epinio] ∧
    ∀ d ∈ deployedUnits (Install w).events, (deletedUnits (Uninstall w).2).count d = 1 := by
  have h1 : deployedUnits (Install w).events = installUnits := by
    rcases Install_shape w with ⟨_, he, _⟩ | ⟨_, e, _, he⟩ | ⟨_, _, he, _⟩ |
      ⟨_, _, hd, _⟩ | ⟨_, _, _, _, e, _, _, _, _, he⟩
    · exact absurd hdeploy he
    · rw [he] at hdeploy; cases hdeploy
    · exact absurd hdeploy he
    · exact hd
    · rw [he] at hdeploy; cases hdeploy
  have h2 : deletedUnits (Uninstall w).2 = uninstallUnits := by
    rcases Uninstall_shape w with ⟨_, _, hd⟩ | ⟨_, _, _, e, _, _, _, he, _⟩
    · exact hd
    · rw [he] at hdelete; cases hdelete
  rw [h1, h2]
  refine ⟨rfl, rfl, ?_⟩
  decide

/-- C1, amended, at a world where every step works. -/
theorem Uninstall_deletes_every_installed_unit_once_witness :
    deployedUnits (Install calmWorld).events =
      [.Traefik, .Epinio, .Quarks, .Workloads, .Gitea, .Registry, .Tekton, .ServiceCatalog,
       .CertManager] ∧
    deletedUnits (Uninstall calmWorld).2 =
      [.Minibroker, .GoogleServices, .ServiceCatalog, .Workloads, .Tekton, .Registry, .Gitea,
       .Quarks, .Traefik, .CertManager, .Epinio] ∧
    ∀ d ∈ deployedUnits (Install calmWorld).events,
      (deletedUnits (Uninstall calmWorld).2).count d = 1 :=
  Uninstall_deletes_every_installed_unit_once calmWorld (by decide) (by decide)

/-- C2: `Install` calls `Deploy` on a start of its fixed list, in list order,
and on the whole list when it returns no error.  A unit whose `Deploy` was
called and failed is the last unit called, every unit before it succeeded, and
`Install` returns that unit's error as it is.  When the option readers and the
system domain raise no error of their own, this is the first unit of the list
whose `Deploy` fails. -/
theorem Install_returns_first_Deploy_error (w : InstallWorld) :
    deployedUnits (Install w).events <+: installUnits ∧
    ((Install w).err = none → deployedUnits (Install w).events = installUnits) ∧
    (∀ k e, k ∈ deployedUnits (Install w).events → w.Deploy k = some e →
      (Install w).err = some e ∧
      ∃ front back, installUnits = front ++ k :: back ∧
        deployedUnits (Install w).events = front ++ [k] ∧ ∀ d ∈ front, w.Deploy d = none) ∧
    (∀ front k back e, populated w = true → (front ≠ [] → domainResolved w = true) →
      installUnits = front ++ k :: back → (∀ d ∈ front, w.Deploy d = none) →
      w.Deploy k = some e →
      (Install w).err = some e ∧ deployedUnits (Install w).events = front ++ [k]) := by
  rcases Install_shape w with ⟨hd, he, hp⟩ | ⟨hd, e, hk, he⟩ | ⟨hd, hk, he, hr⟩ |
    ⟨hk, hall, hd, he⟩ | ⟨hk, front, k, back, e, hs, hf, hke, hd, he⟩
  · refine ⟨by rw [hd]; exact ⟨installUnits, rfl⟩, fun h => absurd h he, ?_, ?_⟩
    · intro k e hmem
      rw [hd] at hmem
      cases hmem
    · intro front k back e hpop
      rw [hp] at hpop
      cases hpop
  · refine ⟨by rw [hd]; exact ⟨installRest, rfl⟩, (fun h => by rw [he] at h; cases h), ?_, ?_⟩
    · intro k e2 hmem hk2
      rw [hd] at hmem
      have hkk : k = Deployment.Traefik := by simpa using hmem
      subst hkk
      rw [hk] at hk2
      cases hk2
      exact ⟨he, [], installRest, rfl, by rw [hd]; rfl, by simp⟩
    · intro front2 k2 back2 e2 _ _ hs2 hf2 hk2
      have hs3 : front2 ++ k2 :: back2 = [] ++ Deployment.Traefik :: installRest := by
        rw [← hs2]; rfl
      obtain ⟨h1, h2⟩ := first_failure_unique w.Deploy hs3 hf2 hk2 (by simp) hk
      subst h1; subst h2
      rw [hk] at hk2
      cases hk2
      exact ⟨he, hd⟩
  · refine ⟨by rw [hd]; exact ⟨installRest, rfl⟩, fun h => absurd h he, ?_, ?_⟩
    · intro k e2 hmem hk2
      rw [hd] at hmem
      have hkk : k = Deployment.Traefik := by simpa using hmem
      subst hkk
      rw [hk] at hk2
      cases hk2
    · intro front2 k2 back2 e2 _ hdom hs2 _ hk2
      cases front2 with
      | nil =>
        have : k2 = Deployment.Traefik := by
          have := congrArg List.head? hs2
          simpa [installUnits, installFirst] using this.symm
        subst this
        rw [hk] at hk2
        cases hk2
      | cons d ds =>
        rw [hdom (by simp)] at hr
        cases hr
  · refine ⟨by rw [hd], fun _ => hd, ?_, ?_⟩
    · intro k e2 hmem hk2
      rw [hd] at hmem
      rcases List.mem_cons.1 hmem with h | h
      · subst h
        simp only [installFirst] at hk2
        rw [hk] at hk2
        cases hk2
      · rw [hall k h] at hk2
        cases hk2
    · intro front2 k2 back2 e2 _ _ hs2 _ hk2
      have hmem : k2 ∈ installUnits := by rw [hs2]; simp
      rcases List.mem_cons.1 hmem with h | h
      · subst h
        simp only [installFirst] at hk2
        rw [hk] at hk2
        cases hk2
      · rw [hall k2 h] at hk2
        cases hk2
  · have hunits : installUnits = (Deployment.Traefik :: front) ++ k :: back := by
      simp [installUnits, installFirst, hs]
    have hfront : ∀ d ∈ Deployment.Traefik :: front, w.Deploy d = none := by
      intro d hdm
      rcases List.mem_cons.1 hdm with h | h
      · subst h; exact hk
      · exact hf d h
    refine ⟨?_, (fun h => by rw [he] at h; cases h), ?_, ?_⟩
    · rw [hd, hunits]
      exact ⟨back, by simp⟩
    · intro k2 e2 hmem hk2
      rw [hd] at hmem
      have hkk : k2 = k := by
        rcases List.mem_cons.1 hmem with h | h
        · subst h
          rw [hk] at hk2
          cases hk2
        · rcases List.mem_append.1 h with h | h
          · rw [hf k2 h] at hk2
            cases hk2
          · simpa using h
      subst hkk
      rw [hke] at hk2
      cases hk2
      exact ⟨he, Deployment.Traefik :: front, back, hunits, by rw [hd]; rfl, hfront⟩
    · intro front2 k2 back2 e2 _ _ hs2 hf2 hk2
      have hs3 : front2 ++ k2 :: back2 = (Deployment.Traefik :: front) ++ k :: back := by
        rw [← hs2, hunits]
      obtain ⟨h1, h2⟩ := first_failure_unique w.Deploy hs3 hf2 hk2 hfront hke
      subst h1; subst h2
      rw [hk2] at hke
      cases hke
      exact ⟨he, by rw [hd]; rfl⟩

/-- C2 at a world where the workloads unit is the first to fail: `Install`
returns its error and has called `Deploy` on the four units up to it. -/
theorem Install_returns_first_Deploy_error_witness :
    (Install workloadsFailWorld).err = some (.New "workloads: timed out") ∧
    deployedUnits (Install workloadsFailWorld).events =
      [.Traefik, .Epinio, .Quarks] ++ [.Workloads] :=
  (Install_returns_first_Deploy_error workloadsFailWorld).2.2.2
    [.Traefik, .Epinio, .Quarks] .Workloads
    [.Gitea, .Registry, .Tekton, .ServiceCatalog, .CertManager] (.New "workloads: timed out")
    (by decide) (by decide) (by decide) (by decide) (by decide)

/-- C3: `Uninstall` returns no error exactly when `Delete` succeeds on every
unit of its list; when unit `k` is the first whose `Delete` fails, `Uninstall`
returns that unit's error as it is and has called `Delete` on the units up to
`k` and on none after it. -/
theorem Uninstall_returns_first_Delete_error (w : InstallWorld) :
    ((Uninstall w).1 = none ↔ ∀ d ∈ uninstallUnits, w.Delete d = none) ∧
    (∀ front k back e, uninstallUnits = front ++ k :: back →
      (∀ d ∈ front, w.Delete d = none) → w.Delete k = some e →
      (Uninstall w).1 = some e ∧ deletedUnits (Uninstall w).2 = front ++ [k]) ∧
    deletedUnits (Uninstall w).2 <+: uninstallUnits := by
  rcases Uninstall_shape w with ⟨hall, hn, hd⟩ | ⟨front, k, back, e, hs, hf, hk, he, hd⟩
  · refine ⟨⟨fun _ => hall, fun _ => hn⟩, ?_, ?_⟩
    · intro front k back e hs _ hk
      have := hall k (by rw [hs]; simp)
      rw [hk] at this
      cases this
    · rw [hd]
  · refine ⟨⟨?_, ?_⟩, ?_, ?_⟩
    · intro h
      rw [he] at h
      cases h
    · intro h
      have := h k (by rw [hs]; simp)
      rw [hk] at this
      cases this
    · intro front2 k2 back2 e2 hs2 hf2 hk2
      have hu := first_failure_unique w.Delete (hs.symm.trans hs2) hf hk hf2 hk2
      obtain ⟨h1, h2⟩ := hu
      subst h1; subst h2
      rw [hk] at hk2
      cases hk2
      exact ⟨he, hd⟩
    · rw [hd, hs]
      exact ⟨back, by simp⟩

/-- C3 at a world where the tekton unit is the first to fail. -/
theorem Uninstall_returns_first_Delete_error_witness :
    (Uninstall tektonFailWorld).1 = some (.New "tekton: still in use") ∧
    deletedUnits (Uninstall tektonFailWorld).2 =
      [.Minibroker, .GoogleServices, .ServiceCatalog, .Workloads] ++ [.Tekton] :=
  (Uninstall_returns_first_Delete_error tektonFailWorld).2.1
    [.Minibroker, .GoogleServices, .ServiceCatalog, .Workloads] .Tekton
    [.Registry, .Gitea, .Quarks, .Traefik, .CertManager, .Epinio] (.New "tekton: still in use")
    (by decide) (by decide) (by decide)

/-! ## Claims on the system domain -/

/-- C4: a `system_domain` that is not empty is left as it is, without a single
listing of the traefik service and without error.  For an empty one, when the
poll ends without error and has read an IP that is not empty, the value
becomes that IP followed by `.omg.howdoi.website`; the poll does so at the
first listing, within the tries the timeout allows, that shows a service with
an ingress entry. -/
theorem fillInMissingSystemDomain_resolution (w : InstallWorld) :
    (∀ domain, domain ≠ "" → fillInMissingSystemDomain w domain = ⟨none, domain, 0⟩) ∧
    (∀ s, RunToSuccessWithTimeout (fetchIP w) w.timeout w.attempts ⟨"", 0⟩ = (none, s) →
      s.ip ≠ "" →
      fillInMissingSystemDomain w "" = ⟨none, s.ip ++ ".omg.howdoi.website", s.calls⟩) ∧
    (∀ n item rest ing ings, n < w.attempts →
      (∀ m, m < n → (fetchIP w ⟨"", m⟩).1 ≠ none) →
      w.services n = ⟨item :: rest, none⟩ → item.Ingress = ing :: ings → ing.IP ≠ "" →
      fillInMissingSystemDomain w "" = ⟨none, ing.IP ++ ".omg.howdoi.website", n + 1⟩) := by
  have hb : ∀ s, RunToSuccessWithTimeout (fetchIP w) w.timeout w.attempts ⟨"", 0⟩ = (none, s) →
      s.ip ≠ "" →
      fillInMissingSystemDomain w "" = ⟨none, s.ip ++ ".omg.howdoi.website", s.calls⟩ := by
    intro s hs hip
    simp [fillInMissingSystemDomain, hs, hip]
  refine ⟨?_, hb, ?_⟩
  · intro domain hd
    simp [fillInMissingSystemDomain, hd]
  · intro n item rest ing ings hn hfail hs hi hip
    have hok := fetchIP_ok w "" n item rest ing ings hs hi
    have hrun := run_success w w.timeout "" ⟨ing.IP, n + 1⟩ n w.attempts 0 hn
      (by intro m hm; simpa using hfail m hm) (by simpa using hok)
    exact hb _ hrun hip

/-- C4 at a configured domain, and at an empty one where the third listing
shows the IP 10.0.0.7. -/
theorem fillInMissingSystemDomain_resolution_witness :
    fillInMissingSystemDomain calmWorld "example.com" = ⟨none, "example.com", 0⟩ ∧
    fillInMissingSystemDomain ipWorld "" = ⟨none, "10.0.0.7.omg.howdoi.website", 3⟩ :=
  ⟨(fillInMissingSystemDomain_resolution calmWorld).1 "example.com" (by decide),
   (fillInMissingSystemDomain_resolution ipWorld).2.2 2 ⟨[⟨"10.0.0.7", ""⟩]⟩ []
     ⟨"10.0.0.7", ""⟩ [] (by decide) (by decide) rfl rfl (by decide)⟩

/-- C5: when `system_domain` is empty and the poll ends with an error or
without an IP, the option stays empty, `Install` returns an error and does not
show "Epinio installed.".  Whenever `Install` shows "Epinio installed." it
returns no error and the system domain is not empty. -/
theorem Install_fails_without_system_domain (w : InstallWorld) :
    (w.systemDomain = .ok "" →
      ((RunToSuccessWithTimeout (fetchIP w) w.timeout w.attempts ⟨"", 0⟩).1 ≠ none ∨
        (RunToSuccessWithTimeout (fetchIP w) w.timeout w.attempts ⟨"", 0⟩).2.ip = "") →
      (fillInMissingSystemDomain w "").domain = "" ∧
      (Install w).err ≠ none ∧
      (∀ d, (Install w).domain = some d → d = "") ∧
      Event.ui "Epinio installed." ∉ (Install w).events) ∧
    (Event.ui "Epinio installed." ∈ (Install w).events →
      (Install w).err = none ∧ ∃ d, (Install w).domain = some d ∧ d ≠ "") := by
  constructor
  · intro hdom hpoll
    have hfill := fill_no_ip w hpoll
    have herr : (Install w).err ≠ none := by
      intro hnone
      rcases Install_domain w with ⟨_, he⟩ | ⟨dom, hd, _, hs⟩
      · exact he hnone
      · rw [hdom] at hd
        cases hd
        exact (hs hnone).2 hfill
    refine ⟨hfill, herr, ?_, ?_⟩
    · intro d hd
      rcases Install_domain w with ⟨hn, _⟩ | ⟨dom, hdm, hv, _⟩
      · rw [hn] at hd; cases hd
      · rw [hdom] at hdm
        cases hdm
        rw [hv, hfill] at hd
        cases hd
        rfl
    · intro hmem
      exact herr ((Install_installed_iff w).1 hmem)
  · intro hmem
    have hnone := (Install_installed_iff w).1 hmem
    refine ⟨hnone, ?_⟩
    rcases Install_domain w with ⟨_, he⟩ | ⟨dom, _, hv, hs⟩
    · exact absurd hnone he
    · exact ⟨_, hv, (hs hnone).2⟩

/-- C5 at a world without a configured domain where the traefik service never
shows up. -/
theorem Install_fails_without_system_domain_witness :
    (fillInMissingSystemDomain noIPWorld "").domain = "" ∧
    (Install noIPWorld).err ≠ none ∧
    (∀ d, (Install noIPWorld).domain = some d → d = "") ∧
    Event.ui "Epinio installed." ∉ (Install noIPWorld).events :=
  (Install_fails_without_system_domain noIPWorld).1 rfl (by decide)

/-! ## Claims on the workloads unit -/

/-- C6: when the read of the namespace `epinio-workloads` succeeds, i.e. the
namespace is there, `Workloads.Deploy` returns the error "Namespace
epinio-workloads present already" and has made that one read and no other
call: nothing is created. -/
theorem Workloads_Deploy_already_present (k : Workloads) (env : Env) (t : Trace)
    (hexists : (env t (.NamespacesGet WorkloadsDeploymentID)).err = none) :
    k.Deploy env t =
      (some (.New "Namespace epinio-workloads present already"),
       t ++ [.NamespacesGet WorkloadsDeploymentID]) ∧
    ∀ c ∈ (k.Deploy env t).2.drop t.length, c.isMutation = false := by
  have h : k.Deploy env t =
      (some (.New "Namespace epinio-workloads present already"),
       t ++ [.NamespacesGet WorkloadsDeploymentID]) := by
    simp only [Workloads.Deploy, call, hexists]
    rfl
  refine ⟨h, ?_⟩
  rw [h]
  simp [Call.isMutation]

/-- C6 at a cluster where the namespace can be read. -/
theorem Workloads_Deploy_already_present_witness :
    Workloads.Deploy ⟨false, 300⟩ quietEnv [] =
      (some (.New "Namespace epinio-workloads present already"),
       [] ++ [.NamespacesGet WorkloadsDeploymentID]) ∧
    ∀ c ∈ (Workloads.Deploy ⟨false, 300⟩ quietEnv []).2.drop ([] : Trace).length,
      c.isMutation = false :=
  Workloads_Deploy_already_present ⟨false, 300⟩ quietEnv [] rfl

/-- C7: when `NamespaceExistsAndOwned` answers false without error for
`epinio-workloads`, `Workloads.Delete` returns success after that one check,
whatever the fuel, and has made no mutating call. -/
theorem Workloads_Delete_skips_unowned (w : Workloads) (env : Env) (fuel : Nat) (t : Trace)
    (herr : (env t (.NamespaceExistsAndOwned WorkloadsDeploymentID)).err = none)
    (hflag : (env t (.NamespaceExistsAndOwned WorkloadsDeploymentID)).flag = false) :
    w.Delete env fuel t = some (none, t ++ [.NamespaceExistsAndOwned WorkloadsDeploymentID]) ∧
    ∀ res tr, w.Delete env fuel t = some (res, tr) →
      res = none ∧ ∀ c ∈ tr.drop t.length, c.isMutation = false := by
  have h : w.Delete env fuel t =
      some (none, t ++ [.NamespaceExistsAndOwned WorkloadsDeploymentID]) := by
    simp [Workloads.Delete, call, herr, hflag]
  refine ⟨h, ?_⟩
  intro res tr hr
  rw [h] at hr
  cases hr
  simp [Call.isMutation]

/-- C7 at a cluster where the namespace is not both there and owned. -/
theorem Workloads_Delete_skips_unowned_witness :
    Workloads.Delete ⟨false, 300⟩ quietEnv 0 [] =
      some (none, [] ++ [.NamespaceExistsAndOwned WorkloadsDeploymentID]) ∧
    ∀ res tr, Workloads.Delete ⟨false, 300⟩ quietEnv 0 [] = some (res, tr) →
      res = none ∧ ∀ c ∈ tr.drop ([] : Trace).length, c.isMutation = false :=
  Workloads_Delete_skips_unowned ⟨false, 300⟩ quietEnv 0 [] rfl rfl

/-- C8: let the workloads namespace be owned, deleted and seen gone, with
trace `t2` at that point.  Then `Workloads.Delete` asks whether `app-ingress`
is there and owned.  On the answer false it returns success and calls nothing
more; on an error it returns that error, wrapped, and calls nothing more; on
the answer true it deletes the `app-ingress.yaml` resources, and returns the
error of that deletion, wrapped, or success.  So a mutating call after `t2`
means that the answer was true. -/
theorem Workloads_Delete_app_ingress_ownership (w : Workloads) (env : Env) (fuel : Nat)
    (t t2 : Trace)
    (herr : (env t (.NamespaceExistsAndOwned WorkloadsDeploymentID)).err = none)
    (hflag : (env t (.NamespaceExistsAndOwned WorkloadsDeploymentID)).flag = true)
    (hgone : w.deleteWorkloadsNamespace env fuel
      (t ++ [.NamespaceExistsAndOwned WorkloadsDeploymentID]) = some (none, t2)) :
    ((env t2 (.NamespaceExistsAndOwned "app-ingress")).err = none →
      (env t2 (.NamespaceExistsAndOwned "app-ingress")).flag = false →
      w.Delete env fuel t = some (none, t2 ++ [.NamespaceExistsAndOwned "app-ingress"])) ∧
    (∀ e, (env t2 (.NamespaceExistsAndOwned "app-ingress")).err = some e →
      w.Delete env fuel t =
        some (some (.Wrap e "failed to check if namespace 'app-ingress' is owned or not"),
          t2 ++ [.NamespaceExistsAndOwned "app-ingress"])) ∧
    ((env t2 (.NamespaceExistsAndOwned "app-ingress")).err = none →
      (env t2 (.NamespaceExistsAndOwned "app-ingress")).flag = true →
      w.Delete env fuel t =
        some (((env (t2 ++ [.NamespaceExistsAndOwned "app-ingress"])
              (.KubectlDeleteEmbeddedYaml appIngressYamlPath true)).err.map fun e =>
            Error.Wrap e ("Deleting app-ingress.yaml failed:\n" ++
              (env (t2 ++ [.NamespaceExistsAndOwned "app-ingress"])
                (.KubectlDeleteEmbeddedYaml appIngressYamlPath true)).out)),
          t2 ++ [.NamespaceExistsAndOwned "app-ingress",
            .KubectlDeleteEmbeddedYaml appIngressYamlPath true])) ∧
    (∀ res tr, w.Delete env fuel t = some (res, tr) →
      (∃ c ∈ tr.drop t2.length, c.isMutation = true) →
      (env t2 (.NamespaceExistsAndOwned "app-ingress")).err = none ∧
      (env t2 (.NamespaceExistsAndOwned "app-ingress")).flag = true) := by
  have hD : w.Delete env fuel t =
      (match (env t2 (.NamespaceExistsAndOwned "app-ingress")).err with
        | some err =>
          some (some (.Wrap err "failed to check if namespace 'app-ingress' is owned or not"),
            t2 ++ [.NamespaceExistsAndOwned "app-ingress"])
        | none =>
          if !(env t2 (.NamespaceExistsAndOwned "app-ingress")).flag then
            some (none, t2 ++ [.NamespaceExistsAndOwned "app-ingress"])
          else
            match (env (t2 ++ [.NamespaceExistsAndOwned "app-ingress"])
                (.KubectlDeleteEmbeddedYaml appIngressYamlPath true)).err with
            | some err =>
              some (some (.Wrap err ("Deleting " ++ appIngressYamlPath ++ " failed:\n" ++
                (env (t2 ++ [.NamespaceExistsAndOwned "app-ingress"])
                  (.KubectlDeleteEmbeddedYaml appIngressYamlPath true)).out)),
                t2 ++ [.NamespaceExistsAndOwned "app-ingress"] ++
                  [.KubectlDeleteEmbeddedYaml appIngressYamlPath true])
            | none =>
              some (none, t2 ++ [.NamespaceExistsAndOwned "app-ingress"] ++
                  [.KubectlDeleteEmbeddedYaml appIngressYamlPath true])) := by
    simp only [Workloads.Delete, call, herr, hflag, hgone]
    rfl
  refine ⟨?_, ?_, ?_, ?_⟩
  · intro h1 h2
    rw [hD]
    simp [h1, h2]
  · intro e h1
    rw [hD]
    simp [h1]
  · intro h1 h2
    rw [hD]
    cases h3 : (env (t2 ++ [.NamespaceExistsAndOwned "app-ingress"])
            (.KubectlDeleteEmbeddedYaml appIngressYamlPath true)).err with
    | none => simp [h1, h2, h3]
    | some e =>
      simp only [h1, h2, h3, Option.map]
      simp
      rfl
  · intro res tr hr hmut
    rw [hD] at hr
    cases h1 : (env t2 (.NamespaceExistsAndOwned "app-ingress")).err with
    | some e =>
      simp [h1] at hr
      obtain ⟨_, rfl⟩ := hr
      simp [Call.isMutation] at hmut
    | none =>
      cases h2 : (env t2 (.NamespaceExistsAndOwned "app-ingress")).flag with
      | false =>
        simp [h1, h2] at hr
        obtain ⟨_, rfl⟩ := hr
        simp [Call.isMutation] at hmut
      | true => simp

/-- C8 at a cluster where both namespaces are owned: after the workloads
namespace is gone, the `app-ingress.yaml` resources are deleted. -/
theorem Workloads_Delete_app_ingress_ownership_witness :
    Workloads.Delete ⟨false, 300⟩ ownedEnv 1 [] =
      some (none,
        [.NamespaceExistsAndOwned WorkloadsDeploymentID, .DeleteNamespace WorkloadsDeploymentID,
         .NamespacesGet WorkloadsDeploymentID] ++
        [.NamespaceExistsAndOwned "app-ingress",
         .KubectlDeleteEmbeddedYaml appIngressYamlPath true]) :=
  (Workloads_Delete_app_ingress_ownership ⟨false, 300⟩ ownedEnv 1 []
    [.NamespaceExistsAndOwned WorkloadsDeploymentID, .DeleteNamespace WorkloadsDeploymentID,
     .NamespacesGet WorkloadsDeploymentID] rfl rfl (by decide)).2.2.1 rfl rfl

/-! ## Claims on the pod-running condition -/

/-- The condition on a pod that was fetched, in closed form: never an error,
and satisfied when none of the three tests of the source stops it. -/
theorem IsPodRunning_fetched (c : Cluster) (podName ns : String) (pod : Pod)
    (hget : c.Kubectl.PodsGet ns podName = .ok pod) :
    c.IsPodRunning podName ns =
      (!(pod.Status.ContainerStatuses.any fun cont => cont.State.Waiting.isSome) &&
        !(pod.Status.InitContainerStatuses.any fun cont =>
            cont.State.Waiting.isSome || cont.State.Running.isSome) &&
        decide (pod.Status.Phase = PodRunning ∨ pod.Status.Phase = PodSucceeded), none) := by
  unfold Cluster.IsPodRunning
  rw [hget]
  dsimp only
  by_cases h1 : pod.Status.ContainerStatuses.any (fun cont => cont.State.Waiting.isSome) = true
  · rw [if_pos h1, h1]
    rfl
  · rw [if_neg h1]
    rw [Bool.not_eq_true] at h1
    rw [h1]
    by_cases h2 : pod.Status.InitContainerStatuses.any
        (fun cont => cont.State.Waiting.isSome || cont.State.Running.isSome) = true
    · rw [if_pos h2, h2]
      rfl
    · rw [if_neg h2]
      rw [Bool.not_eq_true] at h2
      rw [h2]
      by_cases h3 : pod.Status.Phase = PodRunning ∨ pod.Status.Phase = PodSucceeded
      · rw [if_pos h3, decide_eq_true h3]
        rfl
      · rw [if_neg h3, decide_eq_false h3]
        split <;> rfl

/-- C9, as stated, fails: a pod in phase Running with no waiting status, whose
init container is still running, is not reported as satisfied. -/
theorem IsPodRunning_not_iff_no_waiting :
    ¬ ∀ (c : Cluster) (podName ns : String) (pod : Pod),
      c.Kubectl.PodsGet ns podName = .ok pod →
      ((c.IsPodRunning podName ns).1 = true ↔
        ((∀ s ∈ pod.Status.ContainerStatuses, s.State.Waiting = none) ∧
         (∀ s ∈ pod.Status.InitContainerStatuses, s.State.Waiting = none) ∧
         (pod.Status.Phase = PodRunning ∨ pod.Status.Phase = PodSucceeded))) := by
  intro h
  have h1 := (h (podCluster initRunningPod) "app-0" "workloads" initRunningPod rfl).2
    (by decide)
  revert h1
  decide

/-- C9, amended: for a pod that was fetched, the condition is satisfied
exactly when no container status is waiting, no init-container status is
waiting or running, and the phase is Running or Succeeded. -/
theorem IsPodRunning_satisfied_iff (c : Cluster) (podName ns : String) (pod : Pod)
    (hget : c.Kubectl.PodsGet ns podName = .ok pod) :
    (c.IsPodRunning podName ns).1 = true ↔
      ((∀ s ∈ pod.Status.ContainerStatuses, s.State.Waiting = none) ∧
       (∀ s ∈ pod.Status.InitContainerStatuses,
          s.State.Waiting = none ∧ s.State.Running = none) ∧
       (pod.Status.Phase = PodRunning ∨ pod.Status.Phase = PodSucceeded)) := by
  rw [IsPodRunning_fetched c podName ns pod hget]
  have hc : (!(pod.Status.ContainerStatuses.any fun cont => cont.State.Waiting.isSome)) = true ↔
      ∀ s ∈ pod.Status.ContainerStatuses, s.State.Waiting = none := by
    rw [Bool.not_eq_true', List.any_eq_false]
    constructor
    · intro h s hs
      have := h s hs
      cases hw : s.State.Waiting with
      | none => rfl
      | some x => rw [hw] at this; exact absurd rfl this
    · intro h s hs
      rw [h s hs]
      simp
  have hi : (!(pod.Status.InitContainerStatuses.any fun cont =>
        cont.State.Waiting.isSome || cont.State.Running.isSome)) = true ↔
      ∀ s ∈ pod.Status.InitContainerStatuses,
        s.State.Waiting = none ∧ s.State.Running = none := by
    rw [Bool.not_eq_true', List.any_eq_false]
    constructor
    · intro h s hs
      have := h s hs
      cases hw : s.State.Waiting with
      | some x => rw [hw] at this; exact absurd rfl this
      | none =>
        cases hr : s.State.Running with
        | none => exact ⟨rfl, rfl⟩
        | some x => rw [hw, hr] at this; exact absurd rfl this
    · intro h s hs
      rw [(h s hs).1, (h s hs).2]
      simp
  simp only [Bool.and_eq_true, decide_eq_true_eq, hc, hi, and_assoc]

/-- C9, amended, at a pod whose container runs and whose init container has
finished: the condition is satisfied. -/
theorem IsPodRunning_satisfied_iff_witness :
    ((podCluster readyPod).IsPodRunning "app-0" "workloads").1 = true :=
  (IsPodRunning_satisfied_iff (podCluster readyPod) "app-0" "workloads" readyPod rfl).2
    (by decide)

/-- C10: for a pod that was fetched and is in phase Failed the condition gives
(false, no error), whatever its container statuses; the condition gives an
error exactly when the fetch gave one, and then it is that error together with
false. -/
theorem IsPodRunning_failed_phase_and_errors (c : Cluster) (podName ns : String) :
    (∀ pod, c.Kubectl.PodsGet ns podName = .ok pod → pod.Status.Phase = PodFailed →
      c.IsPodRunning podName ns = (false, none)) ∧
    (∀ e, (c.IsPodRunning podName ns).2 = some e ↔ c.Kubectl.PodsGet ns podName = .error e) ∧
    (∀ e, c.Kubectl.PodsGet ns podName = .error e →
      c.IsPodRunning podName ns = (false, some e)) := by
  have herr : ∀ e, c.Kubectl.PodsGet ns podName = .error e →
      c.IsPodRunning podName ns = (false, some e) := by
    intro e he
    unfold Cluster.IsPodRunning
    rw [he]
  refine ⟨?_, ?_, herr⟩
  · intro pod hget hp
    rw [IsPodRunning_fetched c podName ns pod hget]
    have hne : ¬ (pod.Status.Phase = PodRunning ∨ pod.Status.Phase = PodSucceeded) := by
      rw [hp]
      decide
    rw [decide_eq_false hne, Bool.and_false]
  · intro e
    cases hget : c.Kubectl.PodsGet ns podName with
    | error e2 =>
      rw [herr e2 hget]
      simp
    | ok pod =>
      rw [IsPodRunning_fetched c podName ns pod hget]
      simp

/-- C10 at a pod in phase Failed whose container has ended with exit code 1. -/
theorem IsPodRunning_failed_phase_and_errors_witness :
    (podCluster failedPod).IsPodRunning "app-0" "workloads" = (false, none) :=
  (IsPodRunning_failed_phase_and_errors (podCluster failedPod) "app-0" "workloads").1
    failedPod rfl rfl


/-! ## Claims on platform detection and on staging -/


/-- `loadedPlatforms` goes through `++`. -/
theorem loadedPlatforms_append (a b : List PlatformEvent) :
    loadedPlatforms (a ++ b) = loadedPlatforms a ++ loadedPlatforms b := by
  simp [loadedPlatforms, List.filterMap_append]

/-- The loop of `detectPlatform` stores the first platform of the list whose
`Detect` says true, leaves the handle as it is when there is none, and calls
no `Load`. -/
theorem detectLoop_spec (w : ConnectWorld) (c : Cluster) :
    ∀ (ps : List Platform) (ev : List PlatformEvent),
      (detectLoop w c ps ev).1 =
        { c with platform :=
            match ps.find? (fun p => w.Detect p c.Kubectl) with
            | some p => some p
            | none => c.platform } ∧
      loadedPlatforms (detectLoop w c ps ev).2 = loadedPlatforms ev := by
  intro ps
  induction ps with
  | nil => intro ev; simp [detectLoop]
  | cons p ps ih =>
    intro ev
    unfold detectLoop
    by_cases h : w.Detect p c.Kubectl = true
    · simp [h, List.find?_cons, loadedPlatforms_append, loadedPlatforms]
    · have h2 : w.Detect p c.Kubectl = false := by simpa using h
      simp only [h2, Bool.false_eq_true, if_false, List.find?_cons]
      refine ⟨(ih _).1, ?_⟩
      rw [(ih _).2, loadedPlatforms_append]
      simp [loadedPlatforms]

/-- On a handle without platform, detection followed by `Load` selects the
first detected platform or else the generic one, and loads exactly it. -/
theorem detectAndLoad_spec (w : ConnectWorld) (c : Cluster) (clientset : Clientset)
    (describe : Bool) (hfresh : c.platform = none) (hk : c.Kubectl = clientset) :
    (detectAndLoad w c clientset describe).cluster.platform =
      some ((SupportedPlatforms.find? (fun p => w.Detect p clientset)).getD .generic) ∧
    (detectAndLoad w c clientset describe).err =
      w.Load ((SupportedPlatforms.find? (fun p => w.Detect p clientset)).getD .generic)
        clientset ∧
    loadedPlatforms (detectAndLoad w c clientset describe).events =
      [(SupportedPlatforms.find? (fun p => w.Detect p clientset)).getD .generic] := by
  have hs := detectLoop_spec w c SupportedPlatforms []
  unfold detectAndLoad Cluster.detectPlatform
  cases hd : detectLoop w c SupportedPlatforms [] with
  | mk c1 ev =>
    rw [hd] at hs
    obtain ⟨h1, h2⟩ := hs
    simp only at h1 h2
    have hp : (match c1.platform with
        | none => Platform.generic
        | some p => p) =
        (SupportedPlatforms.find? (fun p => w.Detect p clientset)).getD .generic := by
      rw [h1, hk, hfresh]
      cases SupportedPlatforms.find? (fun p => w.Detect p clientset) <;> rfl
    simp only [hp]
    cases hl : w.Load ((SupportedPlatforms.find? (fun p => w.Detect p clientset)).getD .generic)
        clientset with
    | some err =>
      refine ⟨rfl, rfl, ?_⟩
      simp only [loadedPlatforms_append, h2]
      simp [loadedPlatforms]
    | none =>
      refine ⟨rfl, rfl, ?_⟩
      simp only [loadedPlatforms_append, h2]
      cases describe <;> simp [loadedPlatforms]

/-- `find?` gives the first element that passes the test. -/
theorem find_first {α : Type} (f : α → Bool) (p : α) (back : List α) (hp : f p = true) :
    ∀ front : List α, (∀ q ∈ front, f q = false) → (front ++ p :: back).find? f = some p := by
  intro front
  induction front with
  | nil => intro _; simp [List.find?_cons, hp]
  | cons q qs ih =>
    intro h
    have hq := h q (List.mem_cons_self _ _)
    simp only [List.cons_append, List.find?_cons, hq]
    exact ih (fun x hx => h x (List.mem_cons_of_mem _ hx))

/-- `find?` gives nothing when no element passes the test. -/
theorem find_none {α : Type} (f : α → Bool) :
    ∀ l : List α, (∀ q ∈ l, f q = false) → l.find? f = none := by
  intro l
  induction l with
  | nil => intro _; rfl
  | cons q qs ih =>
    intro h
    have hq := h q (List.mem_cons_self _ _)
    simp only [List.find?_cons, hq]
    exact ih (fun x hx => h x (List.mem_cons_of_mem _ hx))

/-- C11: on a handle without platform, once the rest config and the clientset
are there, `Connect` and `NewClusterFromClient` leave as platform the first
entry of `SupportedPlatforms` whose `Detect` says true, or the generic
platform when none does; `Load` is called on that platform and on no other,
and its error is what the caller gets.  After a `Connect` without error the
platform is not nil, and the handle of `NewClusterFromClient` never has a nil
platform. -/
theorem Connect_selects_first_detected_platform (w : ConnectWorld) (restConfig : RestConfig)
    (clientset : Clientset)
    (hcs : w.NewForConfig restConfig = .ok clientset) :
    (∀ sel, ((∃ front back, SupportedPlatforms = front ++ sel :: back ∧
          (∀ q ∈ front, w.Detect q clientset = false) ∧ w.Detect sel clientset = true) ∨
        (sel = .generic ∧ ∀ q ∈ SupportedPlatforms, w.Detect q clientset = false)) →
      (∀ (c : Cluster) (config : String), c.platform = none → w.BuildConfigFromFlags config = .ok restConfig →
        (c.Connect w config).cluster.platform = some sel ∧
        (c.Connect w config).err = w.Load sel clientset ∧
        loadedPlatforms (c.Connect w config).events = [sel]) ∧
      (∃ r, NewClusterFromClient w restConfig = (some r, w.Load sel clientset) ∧
        r.cluster.platform = some sel ∧ loadedPlatforms r.events = [sel])) ∧
    (∀ (c : Cluster) (config : String), c.platform = none → (c.Connect w config).err = none →
      (c.Connect w config).cluster.platform ≠ none) ∧
    (∀ r, (NewClusterFromClient w restConfig).1 = some r → r.cluster.platform ≠ none) := by
  refine ⟨?_, ?_, ?_⟩
  · intro sel hsel
    have hfind : (SupportedPlatforms.find? (fun p => w.Detect p clientset)).getD .generic = sel := by
      rcases hsel with ⟨front, back, hs, hf, hp⟩ | ⟨hg, hall⟩
      · rw [hs, find_first _ sel back hp front hf]
        rfl
      · rw [find_none _ SupportedPlatforms hall, hg]
        rfl
    constructor
    · intro c config hfresh hcfg
      have := detectAndLoad_spec w { c with RestConfig := restConfig, Kubectl := clientset }
        clientset true hfresh rfl
      rw [hfind] at this
      simpa [Cluster.Connect, hcfg, hcs] using this
    · have := detectAndLoad_spec w
        { Kubectl := clientset, RestConfig := restConfig, platform := none } clientset false rfl rfl
      rw [hfind] at this
      refine ⟨_, ?_, this.1, this.2.2⟩
      simp [NewClusterFromClient, hcs, this.2.1]
  · intro c config hfresh herr
    unfold Cluster.Connect at herr ⊢
    cases hcfg : w.BuildConfigFromFlags config with
    | error e => simp [hcfg] at herr
    | ok rc =>
      cases hcs2 : w.NewForConfig rc with
      | error e => simp [hcfg, hcs2] at herr
      | ok cs2 =>
        have := detectAndLoad_spec w { c with RestConfig := rc, Kubectl := cs2 } cs2 true hfresh rfl
        simp only [hcfg, hcs2]
        rw [this.1]
        simp
  · intro r hr
    have := detectAndLoad_spec w
      { Kubectl := clientset, RestConfig := restConfig, platform := none } clientset false rfl rfl
    simp [NewClusterFromClient, hcs] at hr
    rw [← hr, this.1]
    simp


/-- C11 at a k3s cluster that minikube's test also takes for its own (the
earlier entry wins), and at a cluster that no platform detects, where `Load`
of the generic platform fails and the caller gets that error. -/
theorem Connect_selects_first_detected_platform_witness :
    ((freshCluster.Connect k3sWorld "kubeconfig").cluster.platform = some .k3s ∧
      (freshCluster.Connect k3sWorld "kubeconfig").err = k3sWorld.Load .k3s emptyClientset ∧
      loadedPlatforms (freshCluster.Connect k3sWorld "kubeconfig").events = [.k3s]) ∧
    ((freshCluster.Connect unknownWorld "kubeconfig").cluster.platform = some .generic ∧
      (freshCluster.Connect unknownWorld "kubeconfig").err =
        unknownWorld.Load .generic emptyClientset ∧
      loadedPlatforms (freshCluster.Connect unknownWorld "kubeconfig").events = [.generic]) :=
  ⟨((Connect_selects_first_detected_platform k3sWorld ⟨"kubeconfig"⟩ emptyClientset rfl).1 .k3s
      (Or.inl ⟨[.kind], [.ibm, .minikube], rfl, by decide, rfl⟩)).1
      freshCluster "kubeconfig" rfl rfl,
   ((Connect_selects_first_detected_platform unknownWorld ⟨"kubeconfig"⟩ emptyClientset rfl).1
      .generic (Or.inr ⟨rfl, by decide⟩)).1 freshCluster "kubeconfig" rfl rfl⟩

/-- Every domain that system-domain resolution makes up holds the marker. -/
theorem contains_suffix (ip : String) :
    stringsContains (ip ++ ".omg.howdoi.website") "omg.howdoi.website" = true := by
  simp only [stringsContains, decide_eq_true_eq]
  show "omg.howdoi.website".data <:+: (ip ++ ".omg.howdoi.website").data
  rw [String.data_append]
  exact ⟨ip.data ++ ['.'], [], by simp⟩

/-- The domain `omg.howdoi.website.example.org` is not an IP followed by
`.omg.howdoi.website`. -/
theorem not_default_form :
    ¬ ∃ ip : String, "omg.howdoi.website.example.org" = ip ++ ".omg.howdoi.website" := by
  rintro ⟨ip, h⟩
  have h2 := congrArg String.data h
  rw [String.data_append] at h2
  have h3 : ".omg.howdoi.website".data <:+ "omg.howdoi.website.example.org".data := ⟨ip.data, h2.symm⟩
  revert h3
  decide

/-- The production flow only adds calls to the trace. -/
theorem production_trace (env : StageEnv) (t : StageTrace) (app : App) (d : String) :
    ∃ rest, (createProductionCertificate env t app d).2 = t ++ rest := by
  unfold createProductionCertificate
  simp only [decodeCall, stageCall]
  split
  · exact ⟨_, rfl⟩
  · split
    · exact ⟨_, by simp only [List.append_assoc]; rfl⟩
    · split <;> exact ⟨_, by simp only [List.append_assoc]; rfl⟩

/-- The local flow only adds calls to the trace. -/
theorem local_trace (env : StageEnv) (t : StageTrace) (app : App) (d : String) :
    ∃ rest, (createLocalCertificate env t app d).2 = t ++ rest := by
  unfold createLocalCertificate
  simp only [decodeCall, stageCall]
  split
  · exact ⟨_, rfl⟩
  · split
    · exact ⟨_, by simp only [List.append_assoc]; rfl⟩
    · split
      · exact ⟨_, by simp only [List.append_assoc]; rfl⟩
      · split
        · split <;> exact ⟨_, by simp only [List.append_assoc]; rfl⟩
        · exact ⟨_, by simp only [List.append_assoc]; rfl⟩

/-- `createCertificates` only adds calls to the trace. -/
theorem createCertificates_trace (env : StageEnv) (t : StageTrace) (app : App) :
    ∃ rest, (createCertificates env t app).2 = t ++ rest := by
  unfold createCertificates
  simp only [stageCall]
  split
  · exact ⟨_, rfl⟩
  · split
    · obtain ⟨rest, h⟩ := production_trace env (t ++ [.GiteaNew]) app (env t .GiteaNew).out
      refine ⟨[.GiteaNew] ++ rest, ?_⟩
      split <;> rename_i heq <;> rw [heq] at h <;> simpa using h
    · obtain ⟨rest, h⟩ := local_trace env (t ++ [.GiteaNew]) app (env t .GiteaNew).out
      refine ⟨[.GiteaNew] ++ rest, ?_⟩
      split <;> rename_i heq <;> rw [heq] at h <;> simpa using h

/-- C12: the domain `omg.howdoi.website.example.org`, given by the user, is
not of the form `<ip>.omg.howdoi.website`; yet for it `createCertificates`
sends the creation of the local, self-signed certificate request, in the
namespace of the application, and no creation of a production certificate.
For the domain `example.com` it sends the creation of the production
certificate. -/
theorem createCertificates_local_for_user_domain :
    (¬ ∃ ip : String, "omg.howdoi.website.example.org" = ip ++ ".omg.howdoi.website") ∧
    createCertificates (stageEnv "omg.howdoi.website.example.org" none) [] fooApp =
      (none,
       [.GiteaNew,
        .Decode (localCertificateData fooApp "omg.howdoi.website.example.org"),
        .DynamicNewForConfig,
        .Decode (localCertificateData fooApp "omg.howdoi.website.example.org"),
        .DynamicCreate quarksSecretInstanceGVR "workspace"
          (quarksSecretObject "foo" "workspace" "omg.howdoi.website.example.org")]) ∧
    (createCertificates (stageEnv "omg.howdoi.website.example.org" none) [] fooApp).2.any
      StageCall.isLocalRequest = true ∧
    (createCertificates (stageEnv "omg.howdoi.website.example.org" none) [] fooApp).2.any
      StageCall.isProductionRequest = false ∧
    createCertificates (stageEnv "example.com" none) [] fooApp =
      (none,
       [.GiteaNew,
        .Decode (productionCertificateData fooApp "example.com"),
        .DynamicNewForConfig,
        .DynamicCreate certificateInstanceGVR "workspace"
          (certificateObject "foo" "workspace" "example.com")]) :=
  ⟨not_default_form, rfl, rfl, rfl, rfl⟩

/-- C13: for the domain `example.com`, when the cluster answers the creation
of the certificate with "already exists", `createProductionCertificate`
returns that error and `createCertificates` returns it wrapped; with a domain
of the local flow the same answer gives success. -/
theorem createProductionCertificate_already_exists_is_returned :
    createProductionCertificate (stageEnv "example.com" (some alreadyExistsError)) [] fooApp
        "example.com" =
      (some alreadyExistsError,
       [.Decode (productionCertificateData fooApp "example.com"),
        .DynamicNewForConfig,
        .DynamicCreate certificateInstanceGVR "workspace"
          (certificateObject "foo" "workspace" "example.com")]) ∧
    IsAlreadyExists alreadyExistsError = true ∧
    (createCertificates (stageEnv "example.com" (some alreadyExistsError)) [] fooApp).1 =
      some (.Wrap alreadyExistsError "create production ssl certificate failed") ∧
    (createCertificates (stageEnv "10.0.0.7.omg.howdoi.website" (some alreadyExistsError)) []
      fooApp).1 = none :=
  ⟨rfl, rfl, rfl, rfl⟩

/-- C14: when the document decodes to `obj` and the dynamic client works,
`createLocalCertificate` makes its four calls, the last one the creation of
`obj`, and with the answer `r` of the creation: no error gives success, an
error that is "already exists" gives success, and any other error is returned
as it is. -/
theorem createLocalCertificate_already_exists_is_success (env : StageEnv) (t : StageTrace)
    (app : App) (systemDomain : String) (obj : Unstructured)
    (hd : decoderUnstructured.Decode (localCertificateData app systemDomain) = .ok obj)
    (hcfg : (env (t ++ [.Decode (localCertificateData app systemDomain)])
      .DynamicNewForConfig).err = none) :
    ∀ r, r = env (t ++ [.Decode (localCertificateData app systemDomain),
        .DynamicNewForConfig, .Decode (localCertificateData app systemDomain)])
        (.DynamicCreate quarksSecretInstanceGVR app.Org obj) →
      (createLocalCertificate env t app systemDomain).2 =
        t ++ [.Decode (localCertificateData app systemDomain),
          .DynamicNewForConfig, .Decode (localCertificateData app systemDomain),
          .DynamicCreate quarksSecretInstanceGVR app.Org obj] ∧
      (r.err = none → (createLocalCertificate env t app systemDomain).1 = none) ∧
      (∀ e, r.err = some e → IsAlreadyExists e = true →
        (createLocalCertificate env t app systemDomain).1 = none) ∧
      (∀ e, r.err = some e → IsAlreadyExists e = false →
        (createLocalCertificate env t app systemDomain).1 = some e) := by
  intro r hr
  have hr2 : r = env (t ++ [.Decode (localCertificateData app systemDomain)] ++
      [.DynamicNewForConfig] ++ [.Decode (localCertificateData app systemDomain)])
        (.DynamicCreate quarksSecretInstanceGVR app.Org obj) := by
    simpa using hr
  unfold createLocalCertificate
  simp only [decodeCall, stageCall, hd, hcfg, ← hr2]
  cases he : r.err with
  | none => simp
  | some e =>
    cases ha : IsAlreadyExists e <;> simp [ha]

/-- C14 at a cluster that answers the creation with "already exists": the
local flow returns success. -/
theorem createLocalCertificate_already_exists_is_success_witness :
    (createLocalCertificate (stageEnv "10.0.0.7.omg.howdoi.website" (some alreadyExistsError))
      [] fooApp "10.0.0.7.omg.howdoi.website").1 = none :=
  (createLocalCertificate_already_exists_is_success
    (stageEnv "10.0.0.7.omg.howdoi.website" (some alreadyExistsError)) [] fooApp
    "10.0.0.7.omg.howdoi.website" (quarksSecretObject "foo" "workspace" "10.0.0.7.omg.howdoi.website")
    rfl rfl _ rfl).2.2.1 alreadyExistsError rfl rfl

/-- Two texts that agree after the same start are equal. -/
theorem append_left_cancel (a u1 u2 : String) (h : a ++ u1 = a ++ u2) : u1 = u2 := by
  have h2 := congrArg String.data h
  rw [String.data_append, String.data_append] at h2
  exact String.ext (List.append_cancel_left h2)

/-- C15: the pipeline run is named by the application name followed by the
identifier; the application name starts the name, and two different
identifiers give two different names for the same application. -/
theorem newPipelineRun_name (GitURL ImageURL : App → String → String) (app : App) :
    (∀ uid, (newPipelineRun GitURL ImageURL uid app).Name = app.Name ++ uid) ∧
    (∀ uid, app.Name.toList <+: (newPipelineRun GitURL ImageURL uid app).Name.toList) ∧
    (∀ u1 u2, u1 ≠ u2 →
      (newPipelineRun GitURL ImageURL u1 app).Name ≠
        (newPipelineRun GitURL ImageURL u2 app).Name) := by
  refine ⟨fun _ => rfl, ?_, ?_⟩
  · intro uid
    show app.Name.data <+: (app.Name ++ uid).data
    rw [String.data_append]
    exact ⟨uid.data, rfl⟩
  · intro u1 u2 hne h
    exact hne (append_left_cancel app.Name u1 u2 h)

/-- C15 at the application `foo` with two identifiers. -/
theorem newPipelineRun_name_witness :
    (newPipelineRun (fun a s => s ++ "/" ++ a.Org ++ "/" ++ a.Name)
        (fun a s => s ++ "/" ++ a.Org ++ "-" ++ a.Name) "9f2c4e6a8b0d1357" fooApp).Name ≠
      (newPipelineRun (fun a s => s ++ "/" ++ a.Org ++ "/" ++ a.Name)
        (fun a s => s ++ "/" ++ a.Org ++ "-" ++ a.Name) "0a1b2c3d4e5f6789" fooApp).Name :=
  (newPipelineRun_name _ _ fooApp).2.2 "9f2c4e6a8b0d1357" "0a1b2c3d4e5f6789" (by decide)

/-- C16, amended: for an application and a domain whose name, organisation and
domain hold no double quote, no backslash and no control character, the
production document decodes to the certificate request with the application
name as metadata name, the organisation as namespace, the secret name
`<name>-tls`, the common name `<name>.<domain>` and that name as its one DNS
name; the local document decodes to the request with the same names and the
common name as its one alternative name; and when the dynamic client is
there, each flow sends the creation of its request in the namespace of the
organisation. -/
theorem certificate_requests_carry_app_names (app : App) (systemDomain : String)
    (hName : plainText app.Name = true) (hOrg : plainText app.Org = true)
    (hDomain : plainText systemDomain = true) :
    (decoderUnstructured.Decode (productionCertificateData app systemDomain) =
        .ok (certificateObject app.Name app.Org systemDomain) ∧
      NestedString (certificateObject app.Name app.Org systemDomain).Object
        ["metadata", "name"] = some app.Name ∧
      NestedString (certificateObject app.Name app.Org systemDomain).Object
        ["metadata", "namespace"] = some app.Org ∧
      NestedString (certificateObject app.Name app.Org systemDomain).Object
        ["spec", "secretName"] = some (app.Name ++ "-tls") ∧
      NestedString (certificateObject app.Name app.Org systemDomain).Object
        ["spec", "commonName"] = some (app.Name ++ "." ++ systemDomain) ∧
      NestedStringSlice (certificateObject app.Name app.Org systemDomain).Object
        ["spec", "dnsNames"] = some [app.Name ++ "." ++ systemDomain]) ∧
    (decoderUnstructured.Decode (localCertificateData app systemDomain) =
        .ok (quarksSecretObject app.Name app.Org systemDomain) ∧
      NestedString (quarksSecretObject app.Name app.Org systemDomain).Object
        ["metadata", "name"] = some app.Name ∧
      NestedString (quarksSecretObject app.Name app.Org systemDomain).Object
        ["metadata", "namespace"] = some app.Org ∧
      NestedString (quarksSecretObject app.Name app.Org systemDomain).Object
        ["spec", "secretName"] = some (app.Name ++ "-tls") ∧
      NestedString (quarksSecretObject app.Name app.Org systemDomain).Object
        ["spec", "request", "certificate", "commonName"] =
          some (app.Name ++ "." ++ systemDomain) ∧
      NestedStringSlice (quarksSecretObject app.Name app.Org systemDomain).Object
        ["spec", "request", "certificate", "alternativeNames"] =
          some [app.Name ++ "." ++ systemDomain]) ∧
    (∀ (env : StageEnv) (t : StageTrace),
      (env (t ++ [.Decode (productionCertificateData app systemDomain)])
        .DynamicNewForConfig).err = none →
      (createProductionCertificate env t app systemDomain).2 =
        t ++ [.Decode (productionCertificateData app systemDomain),
          .DynamicNewForConfig,
          .DynamicCreate certificateInstanceGVR app.Org
            (certificateObject app.Name app.Org systemDomain)]) ∧
    (∀ (env : StageEnv) (t : StageTrace),
      (env (t ++ [.Decode (localCertificateData app systemDomain)])
        .DynamicNewForConfig).err = none →
      (createLocalCertificate env t app systemDomain).2 =
        t ++ [.Decode (localCertificateData app systemDomain),
          .DynamicNewForConfig,
          .Decode (localCertificateData app systemDomain),
          .DynamicCreate quarksSecretInstanceGVR app.Org
            (quarksSecretObject app.Name app.Org systemDomain)]) := by
  have hp := Decode_productionCertificateData app systemDomain hName hOrg hDomain
  have hl := Decode_localCertificateData app systemDomain hName hOrg hDomain
  refine ⟨⟨hp, rfl, rfl, rfl, rfl, rfl⟩, ⟨hl, rfl, rfl, rfl, rfl, rfl⟩, ?_, ?_⟩
  · intro env t hcfg
    unfold createProductionCertificate
    simp only [decodeCall, stageCall, hp, hcfg]
    split <;> simp
  · intro env t hcfg
    unfold createLocalCertificate
    simp only [decodeCall, stageCall, hl, hcfg]
    split
    · split <;> simp
    · simp

/-- C16, amended, at the application `foo` of the organisation `workspace` and
the domain `example.com`: the requests that the two flows send. -/
theorem certificate_requests_carry_app_names_witness :
    (createProductionCertificate (stageEnv "example.com" none) [] fooApp "example.com").2 =
      [] ++ [.Decode (productionCertificateData fooApp "example.com"),
        .DynamicNewForConfig,
        .DynamicCreate certificateInstanceGVR "workspace"
          (certificateObject "foo" "workspace" "example.com")] ∧
    (createLocalCertificate (stageEnv "example.com" none) [] fooApp "example.com").2 =
      [] ++ [.Decode (localCertificateData fooApp "example.com"),
        .DynamicNewForConfig,
        .Decode (localCertificateData fooApp "example.com"),
        .DynamicCreate quarksSecretInstanceGVR "workspace"
          (quarksSecretObject "foo" "workspace" "example.com")] :=
  ⟨(certificate_requests_carry_app_names fooApp "example.com" (by decide) (by decide)
      (by decide)).2.2.1 (stageEnv "example.com" none) [] rfl,
   (certificate_requests_carry_app_names fooApp "example.com" (by decide) (by decide)
      (by decide)).2.2.2 (stageEnv "example.com" none) [] rfl⟩

/-- C16, as stated, fails.  For the application name made of `a`, a
backslash, `t` and `b`, both documents decode to a request whose metadata name
is `a`, a tab and `b`, which is not the name of the application.  For the
application name made of `a`, a double quote and `b`, the documents are no
JSON: the decoder refuses them and neither flow sends a request. -/
theorem certificate_requests_alter_escaped_names :
    (decoderUnstructured.Decode (productionCertificateData tabApp "example.com") =
        .ok (certificateObject "a\tb" "workspace" "example.com") ∧
      decoderUnstructured.Decode (localCertificateData tabApp "example.com") =
        .ok (quarksSecretObject "a\tb" "workspace" "example.com") ∧
      NestedString (certificateObject "a\tb" "workspace" "example.com").Object
        ["metadata", "name"] = some "a\tb" ∧
      NestedString (quarksSecretObject "a\tb" "workspace" "example.com").Object
        ["metadata", "name"] = some "a\tb" ∧
      tabApp.Name ≠ "a\tb" ∧ tabApp.Name.length = 4) ∧
    (createProductionCertificate (stageEnv "example.com" none) [] quoteApp "example.com" =
        (some (.New "invalid JSON"),
         [.Decode (productionCertificateData quoteApp "example.com")]) ∧
      createLocalCertificate (stageEnv "example.com" none) [] quoteApp "example.com" =
        (some (.New "invalid JSON"),
         [.Decode (localCertificateData quoteApp "example.com")])) :=
  ⟨⟨rfl, rfl, rfl, rfl, by decide, rfl⟩, rfl, rfl⟩

/-! ## Claims on the waits for pods -/

/-- C17: on a cluster whose only matching pod is pending, with a waiting
container, `WaitUntilPodBySelectorExist` returns success at the first look,
although the pod is not running; `WaitForPodBySelectorRunning` on the same
cluster gives the timeout error. -/
theorem WaitUntilPodBySelectorExist_returns_on_pending_pod :
    (pendingCluster 0).ListPods "workloads" "name=app" = .ok [pendingPod] ∧
    (pendingCluster 0).IsPodRunning "app-0" "workloads" = (false, none) ∧
    WaitUntilPodBySelectorExist pendingCluster "workloads" "name=app" 5 0 = (none, 1) ∧
    (WaitForPodBySelectorRunning pendingCluster "workloads" "name=app" 5 0).err =
      some (.Wrap ErrWaitTimeout "failed waiting for app-0") :=
  ⟨rfl, by decide, by decide, by decide⟩

/-- The loop of `WaitForPodBySelectorRunning` waits for the pods in list order
and ends at the first wait that fails. -/
theorem waitRunningLoop_spec (cs : Nat → Cluster) (ns : String) (timeout : Nat) :
    ∀ (pods : List Pod) (waits : List (String × Option Error)) (now : Nat),
      ∃ new, (waitRunningLoop cs ns timeout pods waits now).waits = waits ++ new ∧
        (∀ x ∈ new, ∃ n, x.2 = (WaitForPodRunning cs ns x.1 timeout n).1) ∧
        (((waitRunningLoop cs ns timeout pods waits now).err = none ∧
            new.map Prod.fst = pods.map (fun pod => pod.Name) ∧ ∀ x ∈ new, x.2 = none) ∨
          ∃ front pod back e, pods = front ++ pod :: back ∧
            new = front.map (fun p => (p.Name, none)) ++ [(pod.Name, some e)] ∧
            (waitRunningLoop cs ns timeout pods waits now).err =
              some (.Wrap e ("failed waiting for " ++ pod.Name))) := by
  intro pods
  induction pods with
  | nil =>
    intro waits now
    exact ⟨[], by simp [waitRunningLoop], by simp, Or.inl ⟨rfl, rfl, by simp⟩⟩
  | cons pod pods ih =>
    intro waits now
    unfold waitRunningLoop
    cases hw : WaitForPodRunning cs ns pod.Name timeout now with
    | mk r now1 =>
      cases r with
      | some e =>
        refine ⟨[(pod.Name, some e)], rfl, ?_, Or.inr ⟨[], pod, pods, e, rfl, rfl, rfl⟩⟩
        intro x hx
        have hx2 : x = (pod.Name, some e) := by simpa using hx
        subst hx2
        exact ⟨now, by rw [hw]⟩
      | none =>
        obtain ⟨new, h1, h2, h3⟩ := ih (waits ++ [(pod.Name, none)]) now1
        refine ⟨(pod.Name, none) :: new, ?_, ?_, ?_⟩
        · simp only [h1]
          simp
        · intro x hx
          rcases List.mem_cons.1 hx with h | h
          · subst h
            exact ⟨now, by rw [hw]⟩
          · exact h2 x h
        · rcases h3 with ⟨he, hn, ha⟩ | ⟨front, p, back, e, hs, hn, he⟩
          · left
            refine ⟨he, by simp [hn], ?_⟩
            intro x hx
            rcases List.mem_cons.1 hx with h | h
            · subst h; rfl
            · exact ha x h
          · right
            exact ⟨pod :: front, p, back, e, by simp [hs], by simp [hn], he⟩

/-- Waits that all succeeded are told by the names of their pods. -/
theorem waits_of_names :
    ∀ (new : List (String × Option Error)) (pods : List Pod),
      new.map Prod.fst = pods.map (fun pod => pod.Name) → (∀ x ∈ new, x.2 = none) →
      new = pods.map (fun pod => (pod.Name, none)) := by
  intro new
  induction new with
  | nil =>
    intro pods h _
    cases pods with
    | nil => rfl
    | cons p ps => simp at h
  | cons x xs ih =>
    intro pods h hall
    cases pods with
    | nil => simp at h
    | cons p ps =>
      simp only [List.map_cons, List.cons.injEq] at h ⊢
      refine ⟨Prod.ext h.1 (hall x (List.mem_cons_self _ _)), ?_⟩
      exact ih ps h.2 (fun y hy => hall y (List.mem_cons_of_mem _ hy))

/-- C18: `WaitForPodBySelectorRunning` returns an error when listing fails and
when the list is empty, without any wait.  Otherwise every entry of `waits` is
the outcome of a running-wait for that pod; the result is success exactly when
every listed pod was waited for, in list order, with success; a wait that
failed is the last one made, the pods before it were waited for in list order
with success, and its error is returned, wrapped; and an error means that a
wait failed. -/
theorem WaitForPodBySelectorRunning_stops_at_first_failed_wait (cs : Nat → Cluster) (ns selector : String) (timeout now : Nat) :
    (∀ e, (cs now).ListPods ns selector = .error e →
      WaitForPodBySelectorRunning cs ns selector timeout now =
        ⟨some (.Wrap e ("failed listingpods with selector " ++ selector)), [], now + 1⟩) ∧
    ((cs now).ListPods ns selector = .ok [] →
      WaitForPodBySelectorRunning cs ns selector timeout now =
        ⟨some (.New ("no pods in " ++ ns ++ " with selector " ++ selector)), [], now + 1⟩) ∧
    (∀ pods, (cs now).ListPods ns selector = .ok pods →
      (∀ x ∈ (WaitForPodBySelectorRunning cs ns selector timeout now).waits,
        ∃ n, x.2 = (WaitForPodRunning cs ns x.1 timeout n).1) ∧
      ((WaitForPodBySelectorRunning cs ns selector timeout now).err = none ↔
        pods ≠ [] ∧
        (WaitForPodBySelectorRunning cs ns selector timeout now).waits =
          pods.map (fun pod => (pod.Name, none))) ∧
      (∀ x ∈ (WaitForPodBySelectorRunning cs ns selector timeout now).waits, ∀ e, x.2 = some e →
        ∃ front pod back, pods = front ++ pod :: back ∧ x.1 = pod.Name ∧
          (WaitForPodBySelectorRunning cs ns selector timeout now).waits =
            front.map (fun p => (p.Name, none)) ++ [(pod.Name, some e)] ∧
          (WaitForPodBySelectorRunning cs ns selector timeout now).err =
            some (.Wrap e ("failed waiting for " ++ pod.Name))) ∧
      (pods ≠ [] → (WaitForPodBySelectorRunning cs ns selector timeout now).err ≠ none →
        ∃ x ∈ (WaitForPodBySelectorRunning cs ns selector timeout now).waits,
          ∃ e, x.2 = some e)) := by
  refine ⟨?_, ?_, ?_⟩
  · intro e he
    simp [WaitForPodBySelectorRunning, he]
  · intro he
    simp [WaitForPodBySelectorRunning, he]
  · intro pods hp
    cases pods with
    | nil =>
      simp [WaitForPodBySelectorRunning, hp]
    | cons pod pods =>
      have hrun : WaitForPodBySelectorRunning cs ns selector timeout now =
          waitRunningLoop cs ns timeout (pod :: pods) [] (now + 1) := by
        simp [WaitForPodBySelectorRunning, hp]
      rw [hrun]
      obtain ⟨new, h1, h2, h3⟩ := waitRunningLoop_spec cs ns timeout (pod :: pods) [] (now + 1)
      rw [List.nil_append] at h1
      rw [h1]
      refine ⟨h2, ?_, ?_, ?_⟩
      pick_goal 3
      · intro _ hne
        rcases h3 with ⟨he, _, _⟩ | ⟨front, p, back, e, _, hn, _⟩
        · exact absurd he hne
        · exact ⟨(p.Name, some e), by rw [hn]; simp, e, rfl⟩
      · rcases h3 with ⟨he, hn, ha⟩ | ⟨front, p, back, e, hs, hn, he⟩
        · refine ⟨fun _ => ⟨by simp, ?_⟩, fun _ => he⟩
          exact waits_of_names new (pod :: pods) hn ha
        · constructor
          · intro h
            rw [he] at h
            cases h
          · rintro ⟨_, h⟩
            rw [hn] at h
            have hmem : (p.Name, some e) ∈
                (pod :: pods).map (fun pod => ((pod.Name, none) : String × Option Error)) := by
              rw [← h]
              simp
            simp only [List.mem_map] at hmem
            obtain ⟨q, _, hq⟩ := hmem
            have := congrArg Prod.snd hq
            cases this
      · intro x hx e hxe
        rcases h3 with ⟨_, _, ha⟩ | ⟨front, p, back, e2, hs, hn, he⟩
        · rw [ha x hx] at hxe
          cases hxe
        · rw [hn] at hx
          rcases List.mem_append.1 hx with h | h
          · simp only [List.mem_map] at h
            obtain ⟨q, _, hq⟩ := h
            rw [← hq] at hxe
            cases hxe
          · have hx2 : x = (p.Name, some e2) := by simpa using h
            subst hx2
            simp only [Option.some.injEq] at hxe
            subst hxe
            exact ⟨front, p, back, hs, rfl, hn, he⟩

/-- C18 at a cluster that lists `web-0` (running), `web-1` (pending) and
`web-2`: the wait for `web-1` is the last one and its error is returned. -/
theorem WaitForPodBySelectorRunning_stops_at_first_failed_wait_witness :
    ∃ front pod back,
      [{ readyPod with Name := "web-0" }, { pendingPod with Name := "web-1" },
        { readyPod with Name := "web-2" }] = front ++ pod :: back ∧
      "web-1" = pod.Name ∧
      (WaitForPodBySelectorRunning webCluster "workloads" "app=web" 2 0).waits =
        front.map (fun p => (p.Name, none)) ++ [(pod.Name, some ErrWaitTimeout)] ∧
      (WaitForPodBySelectorRunning webCluster "workloads" "app=web" 2 0).err =
        some (.Wrap ErrWaitTimeout ("failed waiting for " ++ pod.Name)) :=
  ((WaitForPodBySelectorRunning_stops_at_first_failed_wait webCluster "workloads" "app=web"
    2 0).2.2 _ rfl).2.2.1 ("web-1", some ErrWaitTimeout) (by decide) ErrWaitTimeout rfl

/-! ## Claims on the setup of the workloads namespace -/

/-- After the namespace was created, `createWorkloadsNamespace` is the chain
of its four later calls, each ending the run with its error. -/
theorem createWorkloadsNamespace_steps (w : Workloads) (env : Env) (t : Trace)
    (hns : (env t (.NamespacesCreate WorkloadsDeploymentID
        [("quarks.cloudfoundry.org/monitored", "quarks-secret"),
         (EpinioDeploymentLabelKey, EpinioDeploymentLabelValue)])).err = none) :
    w.createWorkloadsNamespace env t =
      (let t1 := t ++ [Call.NamespacesCreate WorkloadsDeploymentID
        [("quarks.cloudfoundry.org/monitored", "quarks-secret"),
         (EpinioDeploymentLabelKey, EpinioDeploymentLabelValue)]]
       let t2 := t1 ++ [Call.LabelNamespace WorkloadsDeploymentID EpinioDeploymentLabelKey
        EpinioDeploymentLabelValue]
       let t3 := t2 ++ [Call.SecretsCreate WorkloadsDeploymentID Workloads.giteaCredsSecret]
       let t4 := t3 ++ [Call.SecretsCreate WorkloadsDeploymentID Workloads.registryCredsSecret]
       let t5 := t4 ++ [Call.ServiceAccountsCreate WorkloadsDeploymentID
        Workloads.workloadsServiceAccount]
       match (env t1 (.LabelNamespace WorkloadsDeploymentID EpinioDeploymentLabelKey
          EpinioDeploymentLabelValue)).err with
       | some e => (some e, t2)
       | none =>
       match (env t2 (.SecretsCreate WorkloadsDeploymentID Workloads.giteaCredsSecret)).err with
       | some e => (some e, t3)
       | none =>
       match (env t3 (.SecretsCreate WorkloadsDeploymentID Workloads.registryCredsSecret)).err with
       | some e => (some e, t4)
       | none =>
         ((env t4 (.ServiceAccountsCreate WorkloadsDeploymentID
            Workloads.workloadsServiceAccount)).err, t5)) := by
  simp only [Workloads.createWorkloadsNamespace, call, hns,
    Workloads.createGiteaCredsSecret, Workloads.createClusterRegistryCredsSecret,
    Workloads.createWorkloadsServiceAccountWithSecretAccess]
  cases h1 : (env (t ++ [Call.NamespacesCreate WorkloadsDeploymentID
        [("quarks.cloudfoundry.org/monitored", "quarks-secret"),
         (EpinioDeploymentLabelKey, EpinioDeploymentLabelValue)]])
      (.LabelNamespace WorkloadsDeploymentID EpinioDeploymentLabelKey
          EpinioDeploymentLabelValue)).err with
  | some e => rfl
  | none =>
    simp only
    cases h2 : (env (t ++ [Call.NamespacesCreate WorkloadsDeploymentID
        [("quarks.cloudfoundry.org/monitored", "quarks-secret"),
         (EpinioDeploymentLabelKey, EpinioDeploymentLabelValue)]] ++
        [Call.LabelNamespace WorkloadsDeploymentID EpinioDeploymentLabelKey
          EpinioDeploymentLabelValue])
        (.SecretsCreate WorkloadsDeploymentID Workloads.giteaCredsSecret)).err with
    | some e => rfl
    | none =>
      simp only
      cases h3 : (env (t ++ [Call.NamespacesCreate WorkloadsDeploymentID
        [("quarks.cloudfoundry.org/monitored", "quarks-secret"),
         (EpinioDeploymentLabelKey, EpinioDeploymentLabelValue)]] ++
        [Call.LabelNamespace WorkloadsDeploymentID EpinioDeploymentLabelKey
          EpinioDeploymentLabelValue] ++
        [Call.SecretsCreate WorkloadsDeploymentID Workloads.giteaCredsSecret])
        (.SecretsCreate WorkloadsDeploymentID Workloads.registryCredsSecret)).err with
      | some e => rfl
      | none =>
        simp only
        cases h4 : (env (t ++ [Call.NamespacesCreate WorkloadsDeploymentID
          [("quarks.cloudfoundry.org/monitored", "quarks-secret"),
           (EpinioDeploymentLabelKey, EpinioDeploymentLabelValue)]] ++
          [Call.LabelNamespace WorkloadsDeploymentID EpinioDeploymentLabelKey
            EpinioDeploymentLabelValue] ++
          [Call.SecretsCreate WorkloadsDeploymentID Workloads.giteaCredsSecret] ++
          [Call.SecretsCreate WorkloadsDeploymentID Workloads.registryCredsSecret])
          (.ServiceAccountsCreate WorkloadsDeploymentID
            Workloads.workloadsServiceAccount)).err with
        | some e => rfl
        | none => rfl

/-- C19: when the namespace was created and `createWorkloadsNamespace` returns
success, its calls were, in order: the namespace, its label, the secret
`gitea-creds` of type `kubernetes.io/basic-auth`, the secret `registry-creds`
of type `kubernetes.io/dockerconfigjson`, and the service account, whose
image-pull secrets are these two and whose token mounting is switched off.  An
error of the label or of one of the three creations is returned and ends the
run at that call; so the service account is created only when both secrets
were created without error. -/
theorem createWorkloadsNamespace_secrets_then_account (w : Workloads) (env : Env) (t : Trace)
    (hns : (env t (.NamespacesCreate WorkloadsDeploymentID
        [("quarks.cloudfoundry.org/monitored", "quarks-secret"),
         (EpinioDeploymentLabelKey, EpinioDeploymentLabelValue)])).err = none) :
    ((w.createWorkloadsNamespace env t).1 = none →
      (w.createWorkloadsNamespace env t).2 = t ++ workloadsSetupCalls) ∧
    (Workloads.giteaCredsSecret.Name = "gitea-creds" ∧
      Workloads.giteaCredsSecret.Type_ = "kubernetes.io/basic-auth" ∧
      Workloads.registryCredsSecret.Name = "registry-creds" ∧
      Workloads.registryCredsSecret.Type_ = "kubernetes.io/dockerconfigjson" ∧
      Workloads.workloadsServiceAccount.ImagePullSecrets =
        [Workloads.registryCredsSecret.Name, Workloads.giteaCredsSecret.Name] ∧
      Workloads.workloadsServiceAccount.AutomountServiceAccountToken = some false) ∧
    (∀ e, (env (t ++ workloadsSetupCalls.take 1)
        (.LabelNamespace WorkloadsDeploymentID EpinioDeploymentLabelKey
          EpinioDeploymentLabelValue)).err = some e →
      w.createWorkloadsNamespace env t = (some e, t ++ workloadsSetupCalls.take 2)) ∧
    ((env (t ++ workloadsSetupCalls.take 1)
        (.LabelNamespace WorkloadsDeploymentID EpinioDeploymentLabelKey
          EpinioDeploymentLabelValue)).err = none →
      (∀ e, (env (t ++ workloadsSetupCalls.take 2)
          (.SecretsCreate WorkloadsDeploymentID Workloads.giteaCredsSecret)).err = some e →
        w.createWorkloadsNamespace env t = (some e, t ++ workloadsSetupCalls.take 3)) ∧
      ((env (t ++ workloadsSetupCalls.take 2)
          (.SecretsCreate WorkloadsDeploymentID Workloads.giteaCredsSecret)).err = none →
        (∀ e, (env (t ++ workloadsSetupCalls.take 3)
            (.SecretsCreate WorkloadsDeploymentID Workloads.registryCredsSecret)).err = some e →
          w.createWorkloadsNamespace env t = (some e, t ++ workloadsSetupCalls.take 4)) ∧
        ((env (t ++ workloadsSetupCalls.take 3)
            (.SecretsCreate WorkloadsDeploymentID Workloads.registryCredsSecret)).err = none →
          w.createWorkloadsNamespace env t =
            ((env (t ++ workloadsSetupCalls.take 4)
              (.ServiceAccountsCreate WorkloadsDeploymentID
                Workloads.workloadsServiceAccount)).err, t ++ workloadsSetupCalls)))) ∧
    ((∃ account, Call.ServiceAccountsCreate WorkloadsDeploymentID account ∈
        (w.createWorkloadsNamespace env t).2.drop t.length) →
      (env (t ++ workloadsSetupCalls.take 2)
        (.SecretsCreate WorkloadsDeploymentID Workloads.giteaCredsSecret)).err = none ∧
      (env (t ++ workloadsSetupCalls.take 3)
        (.SecretsCreate WorkloadsDeploymentID Workloads.registryCredsSecret)).err = none) := by
  have hstep := createWorkloadsNamespace_steps w env t hns
  have hAll :
      ((w.createWorkloadsNamespace env t).1 = none →
        (w.createWorkloadsNamespace env t).2 = t ++ workloadsSetupCalls) ∧
      (∀ e, (env (t ++ workloadsSetupCalls.take 1)
          (.LabelNamespace WorkloadsDeploymentID EpinioDeploymentLabelKey
            EpinioDeploymentLabelValue)).err = some e →
        w.createWorkloadsNamespace env t = (some e, t ++ workloadsSetupCalls.take 2)) ∧
      ((env (t ++ workloadsSetupCalls.take 1)
          (.LabelNamespace WorkloadsDeploymentID EpinioDeploymentLabelKey
            EpinioDeploymentLabelValue)).err = none →
        (∀ e, (env (t ++ workloadsSetupCalls.take 2)
            (.SecretsCreate WorkloadsDeploymentID Workloads.giteaCredsSecret)).err = some e →
          w.createWorkloadsNamespace env t = (some e, t ++ workloadsSetupCalls.take 3)) ∧
        ((env (t ++ workloadsSetupCalls.take 2)
            (.SecretsCreate WorkloadsDeploymentID Workloads.giteaCredsSecret)).err = none →
          (∀ e, (env (t ++ workloadsSetupCalls.take 3)
              (.SecretsCreate WorkloadsDeploymentID Workloads.registryCredsSecret)).err = some e →
            w.createWorkloadsNamespace env t = (some e, t ++ workloadsSetupCalls.take 4)) ∧
          ((env (t ++ workloadsSetupCalls.take 3)
              (.SecretsCreate WorkloadsDeploymentID Workloads.registryCredsSecret)).err = none →
            w.createWorkloadsNamespace env t =
              ((env (t ++ workloadsSetupCalls.take 4)
                (.ServiceAccountsCreate WorkloadsDeploymentID
                  Workloads.workloadsServiceAccount)).err, t ++ workloadsSetupCalls)))) ∧
      ((∃ account, Call.ServiceAccountsCreate WorkloadsDeploymentID account ∈
          (w.createWorkloadsNamespace env t).2.drop t.length) →
        (env (t ++ workloadsSetupCalls.take 2)
          (.SecretsCreate WorkloadsDeploymentID Workloads.giteaCredsSecret)).err = none ∧
        (env (t ++ workloadsSetupCalls.take 3)
          (.SecretsCreate WorkloadsDeploymentID Workloads.registryCredsSecret)).err = none) := by
    simp only [workloadsSetupCalls, List.take_succ_cons, List.take_zero]
    simp only [List.append_assoc, List.singleton_append, List.cons_append, List.nil_append]
      at hstep
    rw [hstep]
    cases h1 : (env (t ++ [Call.NamespacesCreate WorkloadsDeploymentID
          [("quarks.cloudfoundry.org/monitored", "quarks-secret"),
           (EpinioDeploymentLabelKey, EpinioDeploymentLabelValue)]])
        (.LabelNamespace WorkloadsDeploymentID EpinioDeploymentLabelKey
            EpinioDeploymentLabelValue)).err with
    | some e => simp [h1]
    | none =>
      cases h2 : (env (t ++ [Call.NamespacesCreate WorkloadsDeploymentID
          [("quarks.cloudfoundry.org/monitored", "quarks-secret"),
           (EpinioDeploymentLabelKey, EpinioDeploymentLabelValue)],
          Call.LabelNamespace WorkloadsDeploymentID EpinioDeploymentLabelKey
            EpinioDeploymentLabelValue])
          (.SecretsCreate WorkloadsDeploymentID Workloads.giteaCredsSecret)).err with
      | some e => simp [h1, h2]
      | none =>
        cases h3 : (env (t ++ [Call.NamespacesCreate WorkloadsDeploymentID
          [("quarks.cloudfoundry.org/monitored", "quarks-secret"),
           (EpinioDeploymentLabelKey, EpinioDeploymentLabelValue)],
          Call.LabelNamespace WorkloadsDeploymentID EpinioDeploymentLabelKey
            EpinioDeploymentLabelValue,
          Call.SecretsCreate WorkloadsDeploymentID Workloads.giteaCredsSecret])
          (.SecretsCreate WorkloadsDeploymentID Workloads.registryCredsSecret)).err with
        | some e => simp [h1, h2, h3]
        | none => simp [h1, h2, h3]
  exact ⟨hAll.1, by decide, hAll.2⟩

/-- C19 at a cluster in which every creation works. -/
theorem createWorkloadsNamespace_secrets_then_account_witness :
    (Workloads.createWorkloadsNamespace ⟨false, 300⟩ cleanEnv []).2 =
      [] ++ workloadsSetupCalls :=
  (createWorkloadsNamespace_secrets_then_account ⟨false, 300⟩ cleanEnv [] rfl).1 (by decide)

/-- C20: when the creation of the namespace is refused, `createWorkloadsNamespace`
returns success after that one call, without label, secrets or service
account; `apply` goes on and returns success, and so does `Workloads.Deploy`. -/
theorem createWorkloadsNamespace_hides_create_error :
    (createRefusedEnv [.NamespacesGet WorkloadsDeploymentID]
      (.NamespacesCreate WorkloadsDeploymentID
        [("quarks.cloudfoundry.org/monitored", "quarks-secret"),
         (EpinioDeploymentLabelKey, EpinioDeploymentLabelValue)])).err =
      some (.Status "Forbidden" "namespaces is forbidden") ∧
    Workloads.createWorkloadsNamespace ⟨false, 300⟩ createRefusedEnv
        [.NamespacesGet WorkloadsDeploymentID] =
      (none, [.NamespacesGet WorkloadsDeploymentID,
        .NamespacesCreate WorkloadsDeploymentID
          [("quarks.cloudfoundry.org/monitored", "quarks-secret"),
           (EpinioDeploymentLabelKey, EpinioDeploymentLabelValue)]]) ∧
    (Workloads.apply ⟨false, 300⟩ createRefusedEnv [.NamespacesGet WorkloadsDeploymentID]).1 =
      none ∧
    (Workloads.Deploy ⟨false, 300⟩ createRefusedEnv []).1 = none := by
  decide


/-! ## Claims on the wait for the workloads namespace to be gone -/

/-- The read loop ends at the first read that gives an error, with that
error, once the fuel reaches it. -/
theorem getLoop_first_error (env : Env) (e : Error) :
    ∀ (n fuel : Nat) (t : Trace), n < fuel →
      (∀ k, k < n → (env (t ++ List.replicate k workloadsGet) workloadsGet).err = none) →
      (env (t ++ List.replicate n workloadsGet) workloadsGet).err = some e →
      Workloads.namespaceGetLoop env fuel t =
        some (e, t ++ List.replicate (n + 1) workloadsGet) := by
  intro n
  induction n with
  | zero =>
    intro fuel t hlt _ hfail
    cases fuel with
    | zero => cases hlt
    | succ f =>
      have hfail2 : (env t workloadsGet).err = some e := by simpa using hfail
      simp only [workloadsGet] at hfail2
      simp [Workloads.namespaceGetLoop, call, hfail2, workloadsGet]
  | succ n ih =>
    intro fuel t hlt hok hfail
    cases fuel with
    | zero => cases hlt
    | succ f =>
      have h0 : (env t workloadsGet).err = none := by simpa using hok 0 (Nat.succ_pos n)
      simp only [workloadsGet] at h0
      have hrec := ih f (t ++ [workloadsGet]) (Nat.lt_of_succ_lt_succ hlt)
        (by
          intro k hk
          have := hok (k + 1) (Nat.succ_lt_succ hk)
          simpa [List.replicate_succ] using this)
        (by simpa [List.replicate_succ] using hfail)
      simp only [Workloads.namespaceGetLoop, call, h0]
      simp only [workloadsGet] at hrec
      rw [hrec]
      simp [List.replicate_succ, workloadsGet]

/-- The read loop has not ended as long as every read succeeds. -/
theorem getLoop_all_ok (env : Env) :
    ∀ (fuel : Nat) (t : Trace),
      (∀ k, k < fuel → (env (t ++ List.replicate k workloadsGet) workloadsGet).err = none) →
      Workloads.namespaceGetLoop env fuel t = none := by
  intro fuel
  induction fuel with
  | zero => intro t _; rfl
  | succ f ih =>
    intro t hok
    have h0 : (env t workloadsGet).err = none := by simpa using hok 0 (Nat.succ_pos f)
    simp only [workloadsGet] at h0
    have hrec := ih (t ++ [workloadsGet])
      (by
        intro k hk
        have := hok (k + 1) (Nat.succ_lt_succ hk)
        simpa [List.replicate_succ] using this)
    simp only [Workloads.namespaceGetLoop, call, h0]
    simpa [workloadsGet] using hrec

/-- A read loop that ended did so at the first read that gave an error. -/
theorem getLoop_result (env : Env) :
    ∀ (fuel : Nat) (t t2 : Trace) (e : Error),
      Workloads.namespaceGetLoop env fuel t = some (e, t2) →
      ∃ k, k < fuel ∧ t2 = t ++ List.replicate (k + 1) workloadsGet ∧
        (env (t ++ List.replicate k workloadsGet) workloadsGet).err = some e ∧
        ∀ j, j < k → (env (t ++ List.replicate j workloadsGet) workloadsGet).err = none := by
  intro fuel
  induction fuel with
  | zero => intro t t2 e h; simp [Workloads.namespaceGetLoop] at h
  | succ f ih =>
    intro t t2 e h
    simp only [Workloads.namespaceGetLoop, call] at h
    cases h0 : (env t (.NamespacesGet WorkloadsDeploymentID)).err with
    | some e0 =>
      simp only [h0, Option.some.injEq, Prod.mk.injEq] at h
      refine ⟨0, Nat.succ_pos f, ?_, ?_, ?_⟩
      · rw [← h.2]; simp [workloadsGet]
      · rw [← h.1]; simpa [workloadsGet] using h0
      · intro j hj; cases hj
    | none =>
      simp only [h0] at h
      obtain ⟨k, hk, ht, he, hok⟩ := ih _ _ _ h
      refine ⟨k + 1, Nat.succ_lt_succ hk, ?_, ?_, ?_⟩
      · rw [ht]; simp [List.replicate_succ, workloadsGet]
      · simpa [List.replicate_succ, workloadsGet] using he
      · intro j hj
        cases j with
        | zero => simpa [workloadsGet] using h0
        | succ j =>
          have := hok j (Nat.lt_of_succ_lt_succ hj)
          simpa [List.replicate_succ, workloadsGet] using this

/-- C21: when the reads of the workloads namespace succeed `n` times and the
next one gives the error `e`, the wait ends there for every fuel above `n`:
with success when `e` is a status error with reason NotFound, and with `e`
itself otherwise; `deleteWorkloadsNamespace` returns the same after an
accepted deletion.  As long as every read succeeds the wait has not ended, and
a wait that ended with success ended at a first failing read whose error was
NotFound. -/
theorem waitNamespaceGone_ends_at_first_error (w : Workloads) (env : Env) (t : Trace) :
    (∀ n e,
      (∀ k, k < n → (env (t ++ List.replicate k workloadsGet) workloadsGet).err = none) →
      (env (t ++ List.replicate n workloadsGet) workloadsGet).err = some e →
      ∀ fuel, n < fuel →
        ((∀ msg, e = .Status StatusReasonNotFound msg →
            Workloads.waitNamespaceGone env fuel t =
              some (("", none), t ++ List.replicate (n + 1) workloadsGet)) ∧
         ((¬ ∃ msg, e = .Status StatusReasonNotFound msg) →
            Workloads.waitNamespaceGone env fuel t =
              some (("", some e), t ++ List.replicate (n + 1) workloadsGet)) ∧
         (∀ t0, t = t0 ++ [.DeleteNamespace WorkloadsDeploymentID] →
            (env t0 (.DeleteNamespace WorkloadsDeploymentID)).err = none →
            (∀ msg, e = .Status StatusReasonNotFound msg →
              w.deleteWorkloadsNamespace env fuel t0 =
                some (none, t ++ List.replicate (n + 1) workloadsGet)) ∧
            ((¬ ∃ msg, e = .Status StatusReasonNotFound msg) →
              w.deleteWorkloadsNamespace env fuel t0 =
                some (some e, t ++ List.replicate (n + 1) workloadsGet))))) ∧
    (∀ fuel,
      (∀ k, k < fuel → (env (t ++ List.replicate k workloadsGet) workloadsGet).err = none) →
      Workloads.waitNamespaceGone env fuel t = none) ∧
    (∀ fuel text t2, Workloads.waitNamespaceGone env fuel t = some ((text, none), t2) →
      ∃ k msg, t2 = t ++ List.replicate (k + 1) workloadsGet ∧
        (env (t ++ List.replicate k workloadsGet) workloadsGet).err =
          some (.Status StatusReasonNotFound msg) ∧
        ∀ j, j < k → (env (t ++ List.replicate j workloadsGet) workloadsGet).err = none) := by
  refine ⟨?_, ?_, ?_⟩
  · intro n e hok hfail fuel hlt
    have hloop := getLoop_first_error env e n fuel t hlt hok hfail
    have h1 : ∀ msg, e = .Status StatusReasonNotFound msg →
        Workloads.waitNamespaceGone env fuel t =
          some (("", none), t ++ List.replicate (n + 1) workloadsGet) := by
      intro msg he
      subst he
      simp [Workloads.waitNamespaceGone, hloop]
    have h2 : (¬ ∃ msg, e = .Status StatusReasonNotFound msg) →
        Workloads.waitNamespaceGone env fuel t =
          some (("", some e), t ++ List.replicate (n + 1) workloadsGet) := by
      intro hne
      unfold Workloads.waitNamespaceGone
      rw [hloop]
      cases e with
      | New m => rfl
      | Wrap c m => rfl
      | Status reason m =>
        by_cases hr : reason = StatusReasonNotFound
        · exact absurd ⟨m, by rw [hr]⟩ hne
        · simp [hr]
    refine ⟨h1, h2, ?_⟩
    intro t0 ht hdel
    subst ht
    constructor
    · intro msg he
      simp [Workloads.deleteWorkloadsNamespace, WaitForCommandCompletion, call, hdel, h1 msg he]
    · intro hne
      simp [Workloads.deleteWorkloadsNamespace, WaitForCommandCompletion, call, hdel, h2 hne]
  · intro fuel hok
    have := getLoop_all_ok env fuel t hok
    simp [Workloads.waitNamespaceGone, this]
  · intro fuel text t2 h
    unfold Workloads.waitNamespaceGone at h
    cases hl : Workloads.namespaceGetLoop env fuel t with
    | none => simp [hl] at h
    | some r =>
      obtain ⟨e2, t3⟩ := r
      obtain ⟨k, _, ht3, hke, hkok⟩ := getLoop_result env fuel t t3 e2 hl
      rw [hl] at h
      cases e2 with
      | New m => simp at h
      | Wrap c m => simp at h
      | Status reason m =>
        by_cases hr : reason = StatusReasonNotFound
        · subst hr
          simp at h
          exact ⟨k, m, by rw [← h.2, ht3], hke, hkok⟩
        · simp [hr] at h

/-- C21 at a cluster where the namespace is there at two reads and gone at
the third. -/
theorem waitNamespaceGone_ends_at_first_error_witness :
    Workloads.waitNamespaceGone slowGoneEnv 5 [] =
      some (("", none), [] ++ List.replicate (2 + 1) workloadsGet) :=
  ((waitNamespaceGone_ends_at_first_error ⟨false, 300⟩ slowGoneEnv []).1 2
    (.Status StatusReasonNotFound "namespaces not found") (by decide) (by decide) 5
    (by decide)).1 "namespaces not found" rfl

/-- C22: on a cluster where the workloads namespace never goes away, for
every number of rounds the read loop, the wait, `deleteWorkloadsNamespace` and
`Workloads.Delete` have not ended: there is no result, and so no timeout
error. -/
theorem waitNamespaceGone_never_ends_while_namespace_stays (fuel : Nat) :
    (∀ t, Workloads.namespaceGetLoop stuckEnv fuel t = none) ∧
    (∀ t, Workloads.waitNamespaceGone stuckEnv fuel t = none) ∧
    Workloads.deleteWorkloadsNamespace ⟨false, 300⟩ stuckEnv fuel
      [.NamespaceExistsAndOwned WorkloadsDeploymentID] = none ∧
    Workloads.Delete ⟨false, 300⟩ stuckEnv fuel [] = none := by
  have hloop : ∀ t, Workloads.namespaceGetLoop stuckEnv fuel t = none :=
    fun t => getLoop_all_ok stuckEnv fuel t (fun _ _ => rfl)
  have hwait : ∀ t, Workloads.waitNamespaceGone stuckEnv fuel t = none := by
    intro t
    simp [Workloads.waitNamespaceGone, hloop]
  have hdel : Workloads.deleteWorkloadsNamespace ⟨false, 300⟩ stuckEnv fuel
      [.NamespaceExistsAndOwned WorkloadsDeploymentID] = none := by
    simp [Workloads.deleteWorkloadsNamespace, WaitForCommandCompletion, call, hwait, stuckEnv]
  refine ⟨hloop, hwait, hdel, ?_⟩
  simp only [Workloads.Delete, call]
  have h1 : (stuckEnv [] (.NamespaceExistsAndOwned WorkloadsDeploymentID)).err = none := rfl
  have h2 : (stuckEnv [] (.NamespaceExistsAndOwned WorkloadsDeploymentID)).flag = true := rfl
  simp only [h1, h2, List.nil_append, hdel]
  rfl

/-! ## Claims on the identifier and on `Stage` -/

/-- `Write` of the hash is the fold of the FNV-1 step over the bytes. -/
theorem sum64Write_eq_foldl (bytes : List Nat) :
    ∀ hash, sum64Write hash bytes =
      bytes.foldl (fun hash b => ((hash * prime64) % 2 ^ 64) ^^^ (b % 256)) hash := by
  induction bytes with
  | nil => intro hash; rfl
  | cons b bs ih => intro hash; simp [sum64Write, ih]

/-- The two halves of each of the eight bytes are the sixteen base-16 digits. -/
theorem hex_index (n : Nat) :
    ((n >>> 56) % 256 % 256) >>> 4 = n / 16 ^ 15 % 16 ∧ (n >>> 56) % 256 % 16 = n / 16 ^ 14 % 16 ∧
    ((n >>> 48) % 256 % 256) >>> 4 = n / 16 ^ 13 % 16 ∧ (n >>> 48) % 256 % 16 = n / 16 ^ 12 % 16 ∧
    ((n >>> 40) % 256 % 256) >>> 4 = n / 16 ^ 11 % 16 ∧ (n >>> 40) % 256 % 16 = n / 16 ^ 10 % 16 ∧
    ((n >>> 32) % 256 % 256) >>> 4 = n / 16 ^ 9 % 16 ∧ (n >>> 32) % 256 % 16 = n / 16 ^ 8 % 16 ∧
    ((n >>> 24) % 256 % 256) >>> 4 = n / 16 ^ 7 % 16 ∧ (n >>> 24) % 256 % 16 = n / 16 ^ 6 % 16 ∧
    ((n >>> 16) % 256 % 256) >>> 4 = n / 16 ^ 5 % 16 ∧ (n >>> 16) % 256 % 16 = n / 16 ^ 4 % 16 ∧
    ((n >>> 8) % 256 % 256) >>> 4 = n / 16 ^ 3 % 16 ∧ (n >>> 8) % 256 % 16 = n / 16 ^ 2 % 16 ∧
    (n % 256 % 256) >>> 4 = n / 16 ^ 1 % 16 ∧ n % 256 % 16 = n / 16 ^ 0 % 16 := by
  simp only [Nat.shiftRight_eq_div_pow]
  norm_num
  omega

/-- The hex text of the eight bytes of the sum is the text of the sixteen
digits of the hash. -/
theorem hexEncode_sum (n : Nat) :
    hexEncodeToString (sum64Sum n) = String.mk (hexDigits64 n) := by
  obtain ⟨h1, h2, h3, h4, h5, h6, h7, h8, h9, h10, h11, h12, h13, h14, h15, h16⟩ := hex_index n
  simp only [hexEncodeToString, sum64Sum, hexDigits64, List.flatMap_cons, List.flatMap_nil,
    List.cons_append, List.nil_append, h1, h2, h3, h4, h5, h6, h7, h8, h9, h10, h11, h12, h13,
    h14, h15, h16]
  rfl

/-- There are sixteen digits. -/
theorem hexDigits64_length (n : Nat) : (hexDigits64 n).length = 16 := by
  simp [hexDigits64]

/-- An index below sixteen gives a character of the table. -/
theorem hextable_getD_mem (i : Nat) (h : i < 16) : hextable.getD i '0' ∈ hextable := by
  interval_cases i <;> decide

/-- Every digit is a character of the table. -/
theorem hexDigits64_mem (n : Nat) : ∀ c ∈ hexDigits64 n, c ∈ hextable := by
  intro c hc
  simp only [hexDigits64, List.mem_map] at hc
  obtain ⟨i, _, hi⟩ := hc
  rw [← hi]
  exact hextable_getD_mem _ (Nat.mod_lt _ (by decide))

/-- `uid` on bytes that were read: the digits of their FNV-1 hash. -/
theorem uid_eq (randBytes : List Nat) :
    uid (.ok randBytes) = (String.mk (hexDigits64 (fnv1Hash64 randBytes)), none) := by
  simp only [uid, hexEncode_sum, sum64Write_eq_foldl, fnv1Hash64]

/-- C23: for bytes that were read, `uid` gives, without error, the sixteen
lowercase hexadecimal digits, most significant first, of the 64-bit FNV-1 hash
of the bytes; its length is 16 and its characters are from `0`-`9`, `a`-`f`;
and two pipeline runs with the same name have the same application name and
the same identifier. -/
theorem uid_is_hex_of_fnv1 (randBytes : List Nat) :
    uid (.ok randBytes) = (String.mk (hexDigits64 (fnv1Hash64 randBytes)), none) ∧
    (uid (.ok randBytes)).1.length = 16 ∧
    (∀ c ∈ (uid (.ok randBytes)).1.toList, c ∈ hextable) ∧
    (∀ (GitURL ImageURL : App → String → String) (app1 app2 : App) (bytes2 : List Nat),
      (newPipelineRun GitURL ImageURL (uid (.ok randBytes)).1 app1).Name =
        (newPipelineRun GitURL ImageURL (uid (.ok bytes2)).1 app2).Name →
      app1.Name = app2.Name ∧ (uid (.ok randBytes)).1 = (uid (.ok bytes2)).1) := by
  refine ⟨uid_eq randBytes, ?_, ?_, ?_⟩
  · rw [uid_eq]
    exact hexDigits64_length _
  · rw [uid_eq]
    exact hexDigits64_mem _
  · intro GitURL ImageURL app1 app2 bytes2 h
    rw [uid_eq randBytes, uid_eq bytes2] at h ⊢
    have h2 : (app1.Name ++ String.mk (hexDigits64 (fnv1Hash64 randBytes))).data =
        (app2.Name ++ String.mk (hexDigits64 (fnv1Hash64 bytes2))).data := congrArg String.data h
    rw [String.data_append, String.data_append] at h2
    have h3 := List.append_inj' h2
      (by rw [hexDigits64_length, hexDigits64_length])
    exact ⟨String.ext h3.1, String.ext h3.2⟩

/-- C24: for a request whose body was read and decoded, when the name of the
URL differs from the name in the body, `Stage` returns the one error "name
parameter from URL does not match name param in body" with status 400 and
makes no call at all; any call it makes means that the names are equal; and
with equal names, a cluster handle, a tekton client and random bytes, the
pipeline run is submitted. -/
theorem Stage_rejects_name_mismatch (w : StageWorld) (env : StageEnv) (t : StageTrace)
    (r : StageRequest) (app : App)
    (hread : r.readAll = none) (hbody : r.unmarshal = .ok app) :
    (r.app ≠ app.Name →
      Stage w env t r =
        ([⟨.New "name parameter from URL does not match name param in body", 400⟩], t)) ∧
    (∀ c ∈ (Stage w env t r).2.drop t.length, r.app = app.Name) ∧
    (r.app = app.Name → (env t .GetCluster).err = none →
      (env (t ++ [.GetCluster]) .TektonNewForConfig).err = none →
      ∀ randBytes, w.randRead = .ok randBytes →
        StageCall.PipelineRunsCreate TektonStagingNamespace
            (newPipelineRun w.GitURL w.ImageURL (uid (.ok randBytes)).1 app) ∈
          (Stage w env t r).2.drop t.length) := by
  have hne : r.app ≠ app.Name →
      Stage w env t r =
        ([⟨.New "name parameter from URL does not match name param in body", 400⟩], t) := by
    intro h
    simp [Stage, hread, hbody, h, singleNewError, StatusBadRequest]
  refine ⟨hne, ?_, ?_⟩
  · intro c hc
    by_cases h : r.app = app.Name
    · exact h
    · rw [hne h] at hc
      simp at hc
  · intro hname hcl htk randBytes hrand
    have htk2 : (env (t ++ [.GetCluster]) .TektonNewForConfig).err = none := htk
    have hu : uid (.ok randBytes) = (String.mk (hexDigits64 (fnv1Hash64 randBytes)), none) :=
      uid_eq randBytes
    simp only [Stage, hread, hbody, hname, ne_eq, not_true_eq_false, if_false, stageCall, hcl,
      htk2, hrand, hu]
    cases h3 : (env (t ++ [.GetCluster] ++ [.TektonNewForConfig])
        (.PipelineRunsCreate TektonStagingNamespace
          (newPipelineRun w.GitURL w.ImageURL
            (String.mk (hexDigits64 (fnv1Hash64 randBytes))) app))).err with
    | some e => simp
    | none =>
      simp only
      obtain ⟨rest, h4⟩ := createCertificates_trace env
        (t ++ [.GetCluster] ++ [.TektonNewForConfig] ++
          [.PipelineRunsCreate TektonStagingNamespace
            (newPipelineRun w.GitURL w.ImageURL
              (String.mk (hexDigits64 (fnv1Hash64 randBytes))) app)]) app
      cases hc : createCertificates env
        (t ++ [.GetCluster] ++ [.TektonNewForConfig] ++
          [.PipelineRunsCreate TektonStagingNamespace
            (newPipelineRun w.GitURL w.ImageURL
              (String.mk (hexDigits64 (fnv1Hash64 randBytes))) app)]) app with
      | mk r4 t4 =>
        rw [hc] at h4
        simp only at h4
        subst h4
        cases r4 with
        | some e => simp
        | none =>
          simp only
          split <;> simp

/-- C23 at sixteen bytes and the application `foo`. -/
theorem uid_is_hex_of_fnv1_witness :
    fooApp.Name = fooApp.Name ∧
    (uid (.ok [0, 1, 2, 3, 4, 5, 6, 7, 8, 9, 10, 11, 12, 13, 14, 15])).1 =
      (uid (.ok [0, 1, 2, 3, 4, 5, 6, 7, 8, 9, 10, 11, 12, 13, 14, 15])).1 :=
  (uid_is_hex_of_fnv1 [0, 1, 2, 3, 4, 5, 6, 7, 8, 9, 10, 11, 12, 13, 14, 15]).2.2.2
    stageWorld.GitURL stageWorld.ImageURL fooApp fooApp
    [0, 1, 2, 3, 4, 5, 6, 7, 8, 9, 10, 11, 12, 13, 14, 15] rfl

/-- C24 at a request for `bar` whose body names `foo`. -/
theorem Stage_rejects_name_mismatch_witness :
    Stage stageWorld (stageEnv "example.com" none) [] mismatchRequest =
      ([⟨.New "name parameter from URL does not match name param in body", 400⟩], []) :=
  (Stage_rejects_name_mismatch stageWorld (stageEnv "example.com" none) [] mismatchRequest
    fooApp rfl rfl).1 (by decide)

end Epinio
